import Mathlib

/-!
lightNVR: the WebSocket manager, the recordings API and the static-file handler

A shallow embedding of `src/web/websocket_manager.c`, followed by the pagination code of
`src/web/api_handlers_recordings.c` and the HLS authentication gate of
`src/web/mongoose_server_static.c`.  For the WebSocket manager:

* The static tables `s_clients` and `s_handlers` are lists; the loops
  `for (i = 0; i < MAX_CLIENTS; i++)` walk the whole list, slot 0 first.
* A C string is the list of its bytes before the terminating NUL.
* A pointer is a natural number, 0 being NULL.  The `struct mg_connection`
  objects belong to the transport; the state carries them as a map from
  connection pointers to the three fields the manager reads or writes.
* Calls that leave the file (clock, mutex construction, `mg_ws_send`, cJSON,
  `generate_uuid`, `register_websocket_handlers`) take their outcome from an
  `Env` value, one per call of a public function.
* Every public function is one atomic step: the embedding is sequential.  The
  initialization mutex is therefore free at every call boundary and
  `pthread_mutex_trylock(&s_init_mutex)` succeeds.  Memory allocation
  (`malloc`, `calloc`, `strdup`, `cJSON_Print...`) is taken to succeed.
* What a call does to the outside world is returned as a list of `Event`s.
-/

namespace LightNVR

/-! ## Data model -/

/-- A C string: its bytes, the terminating NUL left out. -/
abbrev CStr := List Nat

/-- The bytes of an ASCII literal. -/
def ascii (s : String) : CStr := s.toList.map Char.toNat

def MAX_CLIENTS : Nat := 100

def MAX_HANDLERS : Nat := 20

def MAX_TOPICS : Nat := 20

/-- The pair `strncpy(dst, src, sizeof(dst) - 1); dst[sizeof(dst) - 1] = 0` for a `char[64]`. -/
def strncpy64 (src : CStr) : CStr := src.take 63

/-- The text `snprintf(dst, size, ...)` leaves in `dst`: at most `size - 1` bytes. -/
def snprintf (size : Nat) (text : CStr) : CStr := text.take (size - 1)

/-- The fields of `struct mg_connection` the manager touches; `fd = 0` is a NULL fd. -/
structure mg_connection where
  is_websocket : Bool
  is_closing : Bool
  fd : Nat
  deriving DecidableEq, Repr

/-- The connection objects, by pointer. -/
abbrev Heap := Nat → mg_connection

/-- Store `k` at pointer `p`. -/
def heap_set (h : Heap) (p : Nat) (k : mg_connection) : Heap :=
  fun q => if q = p then k else h q

/-- The assignment `p->is_closing = 1`. -/
def mark_closing (h : Heap) (p : Nat) : Heap :=
  heap_set h p { h p with is_closing := true }

/-- The struct `websocket_client_t`; `conn = 0` is NULL, `topics` is the array
`char topics[MAX_TOPICS][64]`. -/
structure websocket_client_t where
  id : CStr
  conn : Nat
  topics : List CStr
  topic_count : Nat
  active : Bool
  last_activity : Int
  deriving DecidableEq, Repr

/-- The struct `websocket_handler_t`; `handler = 0` is a NULL callback. -/
structure websocket_handler_t where
  topic : CStr
  handler : Nat
  active : Bool
  deriving DecidableEq, Repr

/-- The struct `websocket_message_t`. -/
structure websocket_message_t where
  type : CStr
  topic : CStr
  payload : CStr
  deriving DecidableEq, Repr

/-- A parsed JSON value (a `cJSON *` tree). -/
inductive Json where
  | null : Json
  | bool (b : Bool) : Json
  | number (n : Int) : Json
  | string (s : CStr) : Json
  | array (items : List Json) : Json
  | object (members : List (CStr × Json)) : Json

/-- The outcome of the calls that leave the file, for one call of a public function. -/
structure Env where
  /-- the value of `time(NULL)` -/
  now : Int
  /-- whether `pthread_mutex_init(&s_mutex, NULL)` returns 0 -/
  mutex_init_ok : Bool
  /-- whether `pthread_mutex_timedlock(&s_mutex, &timeout)` returns 0 (shutdown) -/
  timedlock_ok : Bool
  /-- whether `pthread_mutex_init(&new_mutex, NULL)` returns 0 (shutdown, after a timeout) -/
  mutex_reset_ok : Bool
  /-- whether the second `pthread_mutex_lock(&s_mutex)` of shutdown returns 0 -/
  relock_ok : Bool
  /-- the string `generate_uuid` writes into the id buffer -/
  uuid : CStr
  /-- the result of `mg_ws_send(..., WEBSOCKET_OP_TEXT)`: for entry `k` of the send loop of
  broadcast; `send_result 0` for the first welcome frame of handle_open -/
  send_result : Nat → Int
  /-- the function `cJSON_Parse`, `none` being NULL -/
  parse : CStr → Option Json
  /-- the function `cJSON_PrintUnformatted` -/
  print : Json → CStr
  /-- the `(topic, callback)` pairs `register_websocket_handlers()` registers, in order -/
  registrations : List (CStr × Nat)

/-- What a call does to the outside world. -/
inductive Event where
  /-- the call `mg_ws_send(conn, data, strlen(data), WEBSOCKET_OP_TEXT)` -/
  | send_text (conn : Nat) (data : CStr) : Event
  /-- the call `mg_ws_send(conn, "", 0, WEBSOCKET_OP_CLOSE)` -/
  | send_close (conn : Nat) : Event
  /-- the call `close(socket_fd)` -/
  | close_socket (fd : Nat) : Event
  /-- the call `s_handlers[i].handler(client_id, payload)` -/
  | handler_call (handler : Nat) (client_id payload : CStr) : Event
  /-- the call `register_websocket_handlers()` -/
  | register_handlers : Event
  /-- the write `s_clients[i].conn->is_closing = 1` through a NULL `conn` -/
  | null_deref : Event
  deriving DecidableEq, Repr

/-- The global state of the file: both tables, the flag, and the connection objects. -/
structure State where
  s_clients : List websocket_client_t
  s_handlers : List websocket_handler_t
  s_initialized : Bool
  heap : Heap

/-! ## Slot helpers -/

/-- Index of the first slot satisfying `p`; `none` is the C result -1. -/
def find_slot {α : Type} (p : α → Bool) : List α → Option Nat
  | [] => none
  | x :: xs => if p x then some 0 else (find_slot p xs).map (· + 1)

/-- The assignment `table[i] = f(table[i])`. -/
def modify_slot {α : Type} (f : α → α) : List α → Nat → List α
  | [], _ => []
  | x :: xs, 0 => f x :: xs
  | x :: xs, n + 1 => x :: modify_slot f xs n

/-- One pass over the client table, slot 0 first, threading the connection objects. -/
def for_each_client (body : Heap → websocket_client_t → websocket_client_t × Heap × List Event) :
    List websocket_client_t → Heap → List websocket_client_t × Heap × List Event
  | [], h => ([], h, [])
  | c :: cs, h =>
    let r := body h c
    let rest := for_each_client body cs r.2.1
    (r.1 :: rest.1, rest.2.1, r.2.2 ++ rest.2.2)

def find_client_by_id (clients : List websocket_client_t) (client_id : CStr) : Option Nat :=
  find_slot (fun c => c.active && decide (c.id = client_id)) clients

def find_client_by_connection (clients : List websocket_client_t) (conn : Nat) : Option Nat :=
  find_slot (fun c => c.active && decide (c.conn = conn)) clients

def find_free_client_slot (clients : List websocket_client_t) : Option Nat :=
  find_slot (fun c => !c.active) clients

def find_handler_by_topic (handlers : List websocket_handler_t) (topic : CStr) : Option Nat :=
  find_slot (fun h => h.active && decide (h.topic = topic)) handlers

def find_free_handler_slot (handlers : List websocket_handler_t) : Option Nat :=
  find_slot (fun h => !h.active) handlers

/-- The three assignments `active = false; conn = NULL; topic_count = 0`. -/
def deactivate (c : websocket_client_t) : websocket_client_t :=
  { c with active := false, conn := 0, topic_count := 0 }

def remove_client_by_connection (s : State) (conn : Nat) : State × Bool :=
  match find_client_by_connection s.s_clients conn with
  | none => (s, false)
  | some i => ({ s with s_clients := modify_slot deactivate s.s_clients i }, true)

/-! ## Initialization and shutdown -/

/-- A client slot after `memset(s_clients, 0, sizeof(s_clients))`. -/
def zero_client : websocket_client_t :=
  { id := [], conn := 0, topics := List.replicate MAX_TOPICS [], topic_count := 0,
    active := false, last_activity := 0 }

/-- A handler slot after `memset(s_handlers, 0, sizeof(s_handlers))`. -/
def zero_handler : websocket_handler_t :=
  { topic := [], handler := 0, active := false }

def websocket_manager_is_initialized (s : State) : Bool := s.s_initialized

def websocket_manager_init (env : Env) (s : State) : State × Int :=
  if s.s_initialized then (s, 0)
  else if !env.mutex_init_ok then (s, -1)
  else
    ({ s with
        s_clients := List.replicate MAX_CLIENTS zero_client
        s_handlers := List.replicate MAX_HANDLERS zero_handler
        s_initialized := true }, 0)

/-- The prologue of the public functions: initialize on demand, `none` when that fails. -/
def ensure_initialized (env : Env) (s : State) : Option State :=
  if websocket_manager_is_initialized s then some s
  else
    let r := websocket_manager_init env s
    if r.2 ≠ 0 then none else some r.1

/-- The body of the first loop of `websocket_manager_shutdown` for one slot. -/
def shutdown_client (h : Heap) (c : websocket_client_t) :
    websocket_client_t × Heap × List Event :=
  if c.active then
    let r : Heap × List Event :=
      if c.conn ≠ 0 then
        if (h c.conn).is_websocket && !(h c.conn).is_closing then
          if (h c.conn).fd ≠ 0 then
            (heap_set h c.conn { h c.conn with is_closing := true, fd := 0 },
              [Event.send_close c.conn, Event.close_socket (h c.conn).fd])
          else (mark_closing h c.conn, [Event.send_close c.conn])
        else (h, [])
      else (h, [])
    ({ c with active := false, topic_count := 0, topics := List.replicate MAX_TOPICS [] },
      r.1, r.2)
  else (c, h, [])

/-- The body of the handler loop of `websocket_manager_shutdown` for one slot. -/
def shutdown_handler (h : websocket_handler_t) : websocket_handler_t :=
  if h.active then { h with active := false, handler := 0, topic := [] } else h

/-- The body of the last loop of `websocket_manager_shutdown`: `if (conn) conn = NULL`. -/
def clear_conn (c : websocket_client_t) : websocket_client_t :=
  if c.conn ≠ 0 then { c with conn := 0 } else c

def websocket_manager_shutdown (env : Env) (s : State) : State × List Event :=
  if !s.s_initialized then (s, [])
  else
    let s1 := { s with s_initialized := false }
    let mutex_result_ok := env.timedlock_ok || env.mutex_reset_ok
    let r : State × List Event :=
      if mutex_result_ok then
        let l := for_each_client shutdown_client s1.s_clients s1.heap
        ({ s1 with
            s_clients := l.1
            s_handlers := s1.s_handlers.map shutdown_handler
            heap := l.2.1 }, l.2.2)
      else (s1, [])
    let s3 :=
      if env.relock_ok then { r.1 with s_clients := r.1.s_clients.map clear_conn } else r.1
    (s3, r.2)

/-! ## The inactive-client sweep -/

/-- The body of the loop of `websocket_manager_cleanup_inactive_clients` for one slot. -/
def cleanup_client (now : Int) (h : Heap) (c : websocket_client_t) :
    websocket_client_t × Heap × List Event :=
  if c.active then
    if c.conn = 0 ∨ (h c.conn).is_closing = true then (deactivate c, h, [])
    else if now - c.last_activity > 3600 then
      if c.conn ≠ 0 ∧ (h c.conn).is_websocket = true ∧ (h c.conn).is_closing = false then
        (deactivate c, mark_closing h c.conn, [Event.send_close c.conn])
      else (deactivate c, h, [])
    else (c, h, [])
  else (c, h, [])

def websocket_manager_cleanup_inactive_clients (now : Int) (s : State) : State × List Event :=
  let l := for_each_client (cleanup_client now) s.s_clients s.heap
  ({ s with s_clients := l.1, heap := l.2.1 }, l.2.2)

/-! ## Connection open and close -/

/-- The text `{"client_id":"<id>"}` built in the 256-byte buffer `payload`. -/
def welcome_payload (id : CStr) : CStr :=
  snprintf 256 (ascii "\x7b\"client_id\":\"" ++ id ++ ascii "\"\x7d")

/-- The text built in the 512-byte buffer `welcome_message`. -/
def welcome_message (id : CStr) : CStr :=
  snprintf 512 (ascii "\x7b\"type\":\"welcome\",\"topic\":\"system\",\"payload\":" ++
    welcome_payload id ++ ascii "\x7d")

/-- The text built in the 384-byte buffer `simple_welcome`. -/
def simple_welcome (id : CStr) : CStr :=
  snprintf 384 (ascii "\x7b\"type\":\"welcome\",\"topic\":\"system\",\"payload\":\x7b\"client_id\":\"" ++
    id ++ ascii "\"\x7d\x7d")

/-- The call `generate_client_id(buffer, buffer_size)` hands the buffer to `generate_uuid`,
whose body is not under src/: what it leaves in the buffer comes from the environment. -/
def generate_client_id (env : Env) : CStr := env.uuid

/-- The assignments of `websocket_manager_handle_open` to the slot it takes. -/
def open_slot (env : Env) (c : Nat) (cl : websocket_client_t) : websocket_client_t :=
  { cl with active := true, conn := c, topic_count := 0, last_activity := env.now,
            id := generate_client_id env }

/-- The welcome frames `websocket_manager_handle_open` sends for the id it stored. -/
def welcome_events (env : Env) (h : Heap) (c : Nat) (id : CStr) : List Event :=
  if c ≠ 0 ∧ (h c).is_websocket = true then
    if env.send_result 0 ≤ 0 then
      [Event.send_text c (welcome_message id), Event.send_text c (simple_welcome id)]
    else [Event.send_text c (welcome_message id)]
  else []

def websocket_manager_handle_open (env : Env) (s : State) (c : Nat) : State × List Event :=
  match ensure_initialized env s with
  | none => (s, [])
  | some s0 =>
    if c = 0 then (s0, [])
    else
      let r := websocket_manager_cleanup_inactive_clients env.now s0
      match find_free_client_slot r.1.s_clients with
      | none => r
      | some slot =>
        ({ r.1 with s_clients := modify_slot (open_slot env c) r.1.s_clients slot },
          r.2 ++ welcome_events env r.1.heap c (generate_client_id env))

def websocket_manager_handle_close (s : State) (c : Nat) : State :=
  if !websocket_manager_is_initialized s then s
  else if c = 0 then s
  else (remove_client_by_connection s c).1

/-! ## Messages -/

/-- Modelled from the spec: cJSON_GetObjectItem of the JSON library (external/cjson, not under
src/): the member of an object with the given name, NULL when it is missing. -/
def cJSON_GetObjectItem (json : Json) (name : CStr) : Option Json :=
  match json with
  | Json.object members => (members.find? (fun kv => decide (kv.1 = name))).map Prod.snd
  | _ => none

def cJSON_IsString : Json → Bool
  | Json.string _ => true
  | _ => false

def cJSON_IsObject : Json → Bool
  | Json.object _ => true
  | _ => false

/-- The field `valuestring` of a string item. -/
def valuestring : Json → CStr
  | Json.string s => s
  | _ => []

/-- Lines 467-489 of `websocket_manager_handle_message`: the type, the topic and the payload
item of a parsed message, `none` when the message is dropped. -/
def decode_envelope (json : Json) : Option (CStr × CStr × Json) :=
  match cJSON_GetObjectItem json (ascii "type"), cJSON_GetObjectItem json (ascii "topic") with
  | some type_json, some topic_json =>
    if cJSON_IsString type_json && cJSON_IsString topic_json then
      match cJSON_GetObjectItem json (ascii "payload") with
      | none => some (valuestring type_json, valuestring topic_json, Json.object [])
      | some payload_json =>
        if cJSON_IsObject payload_json then
          some (valuestring type_json, valuestring topic_json, payload_json)
        else none
    else none
  | _, _ => none

def websocket_message_create (type topic payload : Option CStr) : Option websocket_message_t :=
  match type, topic, payload with
  | some t, some o, some p => some { type := t, topic := o, payload := p }
  | _, _, _ => none

/-- The slot `table[i]`. -/
def client_at (clients : List websocket_client_t) (i : Nat) : websocket_client_t :=
  clients.getD i zero_client

/-- The slot `s_handlers[i]`. -/
def handler_at (handlers : List websocket_handler_t) (i : Nat) : websocket_handler_t :=
  handlers.getD i zero_handler

/-- The entries `topics[0] .. topics[topic_count - 1]`, the ones every loop over topics reads. -/
def subscribed_topics (c : websocket_client_t) : List CStr := c.topics.take c.topic_count

/-- The assignment `last_activity = time(NULL)`. -/
def touch (now : Int) (c : websocket_client_t) : websocket_client_t :=
  { c with last_activity := now }

/-- The JSON object `websocket_manager_send_to_client` builds for a message. -/
def send_json (env : Env) (m : websocket_message_t) : Json :=
  Json.object [(ascii "type", Json.string m.type), (ascii "topic", Json.string m.topic),
    (ascii "payload",
      match env.parse m.payload with
      | some payload_json => payload_json
      | none =>
        if m.type = ascii "progress" ∨ m.type = ascii "result" then Json.string m.payload
        else Json.object [(ascii "error", Json.string (ascii "Failed to parse payload")),
          (ascii "raw_payload", Json.string m.payload)])]

/-- The JSON object `websocket_manager_broadcast` builds for a message. -/
def broadcast_json (env : Env) (m : websocket_message_t) : Json :=
  Json.object [(ascii "type", Json.string m.type), (ascii "topic", Json.string m.topic),
    (ascii "payload",
      match env.parse m.payload with
      | some payload_json => payload_json
      | none =>
        Json.object [(ascii "error", Json.string (ascii "Failed to parse payload")),
          (ascii "raw_payload", Json.string m.payload)])]

def websocket_manager_send_to_client (env : Env) (s : State) (client_id : Option CStr)
    (message : Option websocket_message_t) : State × List Event × Bool :=
  match ensure_initialized env s with
  | none => (s, [], false)
  | some s0 =>
    match client_id, message with
    | some id, some m =>
      match find_client_by_id s0.s_clients id with
      | none => (s0, [], false)
      | some client_index =>
        let conn := (client_at s0.s_clients client_index).conn
        if conn = 0 then (s0, [], false)
        else
          ({ s0 with s_clients := modify_slot (touch env.now) s0.s_clients client_index },
            [Event.send_text conn (env.print (send_json env m))], true)
    | _, _ => (s0, [], false)

/-! ## Handlers -/

/-- The assignments of `websocket_manager_register_handler` to a free slot. -/
def install_handler (topic : CStr) (handler : Nat) (h : websocket_handler_t) :
    websocket_handler_t :=
  { h with topic := strncpy64 topic, handler := handler, active := true }

def websocket_manager_register_handler (env : Env) (s : State) (topic : Option CStr)
    (handler : Nat) : State × Int :=
  match ensure_initialized env s with
  | none => (s, -1)
  | some s0 =>
    match topic with
    | none => (s0, -1)
    | some t =>
      if handler = 0 then (s0, -1)
      else
        match find_handler_by_topic s0.s_handlers t with
        | some handler_index =>
          ({ s0 with
              s_handlers := modify_slot (fun h => { h with handler := handler })
                s0.s_handlers handler_index }, 0)
        | none =>
          match find_free_handler_slot s0.s_handlers with
          | none => (s0, -1)
          | some slot =>
            ({ s0 with s_handlers := modify_slot (install_handler t handler) s0.s_handlers slot },
              0)

/-- The call `register_websocket_handlers()`: its body is not under src/; it registers the
pairs `env.registrations` through `websocket_manager_register_handler`, in order. -/
def register_websocket_handlers (env : Env) (s : State) : State :=
  env.registrations.foldl
    (fun st r => (websocket_manager_register_handler env st (some r.1) r.2).1) s

/-! ## Inbound messages -/

/-- The two assignments that append a topic: the truncating copy and `topic_count++`. -/
def add_topic (topic : CStr) (c : websocket_client_t) : websocket_client_t :=
  { c with topics := c.topics.set c.topic_count (strncpy64 topic),
           topic_count := c.topic_count + 1 }

/-- The loop `for (j = i; j < topic_count - 1; j++) strcpy(topics[j], topics[j + 1])`, with `n`
iterations left. -/
def shift_topics (topics : List CStr) : Nat → Nat → List CStr
  | _, 0 => topics
  | j, n + 1 => shift_topics (topics.set j (topics.getD (j + 1) [])) (j + 1) n

/-- The removal of `topics[i]`: the shift loop, then `topic_count--`. -/
def remove_topic (i : Nat) (c : websocket_client_t) : websocket_client_t :=
  { c with topics := shift_topics c.topics i (c.topic_count - 1 - i),
           topic_count := c.topic_count - 1 }

/-- The `subscribe` branch of `websocket_manager_handle_message`. -/
def handle_subscribe (env : Env) (s : State) (client_id topic : CStr) : State × List Event :=
  match find_client_by_id s.s_clients client_id with
  | none => (s, [])
  | some client_index =>
    if (client_at s.s_clients client_index).topic_count ≥ MAX_TOPICS then (s, [])
    else if topic ∈ subscribed_topics (client_at s.s_clients client_index) then (s, [])
    else
      let s1 := { s with s_clients := modify_slot (add_topic topic) s.s_clients client_index }
      let r := websocket_manager_send_to_client env s1 (some client_id)
        (websocket_message_create (some (ascii "ack")) (some (ascii "system"))
          (some (ascii "\x7b\"message\":\"Subscribed\"\x7d")))
      (register_websocket_handlers env r.1, r.2.1 ++ [Event.register_handlers])

/-- The `unsubscribe` branch of `websocket_manager_handle_message`. -/
def handle_unsubscribe (env : Env) (s : State) (client_id topic : CStr) : State × List Event :=
  match find_client_by_id s.s_clients client_id with
  | none => (s, [])
  | some client_index =>
    match find_slot (fun t => decide (t = topic))
        (subscribed_topics (client_at s.s_clients client_index)) with
    | none => (s, [])
    | some i =>
      let s1 := { s with s_clients := modify_slot (remove_topic i) s.s_clients client_index }
      let r := websocket_manager_send_to_client env s1 (some client_id)
        (websocket_message_create (some (ascii "ack")) (some (ascii "system"))
          (some (ascii "\x7b\"message\":\"Unsubscribed\"\x7d")))
      (r.1, r.2.1)

/-- The lookup `handler_index >= 0 && s_handlers[handler_index].handler`. -/
def lookup_handler (handlers : List websocket_handler_t) (topic : CStr) : Option Nat :=
  match find_handler_by_topic handlers topic with
  | none => none
  | some handler_index =>
    if (handler_at handlers handler_index).handler ≠ 0 then
      some (handler_at handlers handler_index).handler
    else none

/-- The last branch of `websocket_manager_handle_message`: dispatch to a registered handler. -/
def handle_other (env : Env) (s : State) (client_id topic payload : CStr) : State × List Event :=
  match lookup_handler s.s_handlers topic with
  | some h => (s, [Event.handler_call h client_id payload])
  | none =>
    let s1 := register_websocket_handlers env s
    match lookup_handler s1.s_handlers topic with
    | some h => (s1, [Event.register_handlers, Event.handler_call h client_id payload])
    | none => (s1, [Event.register_handlers])

def websocket_manager_handle_message (env : Env) (s : State) (c : Nat) (data : CStr) :
    State × List Event :=
  match ensure_initialized env s with
  | none => (s, [])
  | some s0 =>
    match env.parse data with
    | none => (s0, [])
    | some json =>
      match decode_envelope json with
      | none => (s0, [])
      | some (type, topic, payload_json) =>
        match find_client_by_connection s0.s_clients c with
        | none => (s0, [])
        | some client_index =>
          let s1 := { s0 with s_clients := modify_slot (touch env.now) s0.s_clients client_index }
          let client_id := strncpy64 (client_at s1.s_clients client_index).id
          if type = ascii "subscribe" then handle_subscribe env s1 client_id topic
          else if type = ascii "unsubscribe" then handle_unsubscribe env s1 client_id topic
          else handle_other env s1 client_id topic (env.print payload_json)

/-! ## Broadcast and queries -/

/-- The test a client passes to enter the snapshot of `websocket_manager_broadcast`. -/
def broadcast_selects (topic : CStr) (c : websocket_client_t) : Bool :=
  c.active && decide (c.conn ≠ 0) && decide (topic ∈ subscribed_topics c)

/-- The arrays `connections` and `client_ids` filled under the lock. -/
def broadcast_snapshot (clients : List websocket_client_t) (topic : CStr) : List (Nat × CStr) :=
  (clients.filter (broadcast_selects topic)).map (fun c => (c.conn, strncpy64 c.id))

/-- The send loop of `websocket_manager_broadcast` from index `i` on: the connection objects
after it, what it did, and `success_count`. -/
def broadcast_send (env : Env) (clients : List websocket_client_t) (json_str : CStr) :
    List (Nat × CStr) → Nat → Heap → Heap × List Event × Int
  | [], _, h => (h, [], 0)
  | (conn, id) :: rest, i, h =>
    if conn ≠ 0 ∧ (h conn).is_closing = false then
      if env.send_result i > 0 then
        let r := broadcast_send env clients json_str rest (i + 1) h
        (r.1, Event.send_text conn json_str :: r.2.1, r.2.2 + 1)
      else
        let m : Heap × List Event :=
          match find_client_by_id clients id with
          | none => (h, [])
          | some client_index =>
            if (client_at clients client_index).conn = 0 then (h, [Event.null_deref])
            else (mark_closing h (client_at clients client_index).conn, [])
        let r := broadcast_send env clients json_str rest (i + 1) m.1
        (r.1, Event.send_text conn json_str :: (m.2 ++ r.2.1), r.2.2)
    else broadcast_send env clients json_str rest (i + 1) h

def websocket_manager_broadcast (env : Env) (s : State) (topic : Option CStr)
    (message : Option websocket_message_t) : State × List Event × Int :=
  match ensure_initialized env s with
  | none => (s, [], 0)
  | some s0 =>
    match topic, message with
    | some t, some m =>
      let r := websocket_manager_cleanup_inactive_clients env.now s0
      let json_str := env.print (broadcast_json env m)
      let snapshot := broadcast_snapshot r.1.s_clients t
      let clients := r.1.s_clients.map
        (fun c => if broadcast_selects t c then touch env.now c else c)
      let l := broadcast_send env clients json_str snapshot 0 r.1.heap
      ({ r.1 with s_clients := clients, heap := l.1 }, r.2 ++ l.2.1, l.2.2)
    | _, _ => (s0, [], 0)

def websocket_manager_is_subscribed (env : Env) (s : State) (client_id topic : Option CStr) :
    State × Bool :=
  match ensure_initialized env s with
  | none => (s, false)
  | some s0 =>
    match client_id, topic with
    | some id, some t =>
      match find_client_by_id s0.s_clients id with
      | none => (s0, false)
      | some client_index =>
        (s0, decide (t ∈ subscribed_topics (client_at s0.s_clients client_index)))
    | _, _ => (s0, false)

/-- The test of both loops of `websocket_manager_get_subscribed_clients`. -/
def listed (topic : CStr) (c : websocket_client_t) : Bool :=
  c.active && decide (topic ∈ subscribed_topics c)

/-- The function `websocket_manager_get_subscribed_clients`; `out` is false for a NULL
`client_ids`; the last component is the array stored in `*client_ids`. -/
def websocket_manager_get_subscribed_clients (env : Env) (s : State) (topic : Option CStr)
    (out : Bool) : State × List Event × Int × List CStr :=
  match ensure_initialized env s with
  | none => (s, [], 0, [])
  | some s0 =>
    match topic, out with
    | some t, true =>
      let r := websocket_manager_cleanup_inactive_clients env.now s0
      let ids := (r.1.s_clients.filter (listed t)).map (fun c => c.id)
      (r.1, r.2, (ids.length : Int), ids)
    | _, _ => (s0, [], 0, [])

/-! ## Runs of the manager -/

/-- A call of a public function, with the outcome of the external calls it makes. -/
inductive Op where
  | init (env : Env) : Op
  | shutdown (env : Env) : Op
  | handle_open (env : Env) (c : Nat) : Op
  | handle_message (env : Env) (c : Nat) (data : CStr) : Op
  | handle_close (c : Nat) : Op
  | send_to_client (env : Env) (client_id : Option CStr) (message : Option websocket_message_t) : Op
  | broadcast (env : Env) (topic : Option CStr) (message : Option websocket_message_t) : Op
  | is_subscribed (env : Env) (client_id topic : Option CStr) : Op
  | get_subscribed_clients (env : Env) (topic : Option CStr) (out : Bool) : Op
  | register_handler (env : Env) (topic : Option CStr) (handler : Nat) : Op

/-- The state after a call. -/
def step (s : State) : Op → State
  | Op.init env => (websocket_manager_init env s).1
  | Op.shutdown env => (websocket_manager_shutdown env s).1
  | Op.handle_open env c => (websocket_manager_handle_open env s c).1
  | Op.handle_message env c data => (websocket_manager_handle_message env s c data).1
  | Op.handle_close c => websocket_manager_handle_close s c
  | Op.send_to_client env id m => (websocket_manager_send_to_client env s id m).1
  | Op.broadcast env t m => (websocket_manager_broadcast env s t m).1
  | Op.is_subscribed env id t => (websocket_manager_is_subscribed env s id t).1
  | Op.get_subscribed_clients env t out => (websocket_manager_get_subscribed_clients env s t out).1
  | Op.register_handler env t h => (websocket_manager_register_handler env s t h).1

/-- The state after a sequence of calls. -/
def run (s : State) (ops : List Op) : State := ops.foldl step s

/-- The state at program start: static storage is zeroed, `s_initialized` is false. -/
def boot (heap : Heap) : State :=
  { s_clients := List.replicate MAX_CLIENTS zero_client
    s_handlers := List.replicate MAX_HANDLERS zero_handler
    s_initialized := false
    heap := heap }

/-- The states the manager can be in: those a sequence of calls leads to from program start. -/
def Reachable (s : State) : Prop := ∃ heap ops, s = run (boot heap) ops

/-! ## Concrete inputs -/

/-- Every connection object is an open WebSocket on fd 3. -/
def open_heap : Heap := fun _ => { is_websocket := true, is_closing := false, fd := 3 }

/-- An environment in which every external call succeeds; the parser answers `json`. -/
def env_ok (now : Int) (uuid : CStr) (json : Option Json) : Env :=
  { now := now, mutex_init_ok := true, timedlock_ok := true, mutex_reset_ok := true,
    relock_ok := true, uuid := uuid, send_result := fun _ => 1, parse := fun _ => json,
    print := fun _ => [], registrations := [] }

/-- The parsed message `{"type": type, "topic": topic}`. -/
def envelope (type topic : CStr) : Json :=
  Json.object [(ascii "type", Json.string type), (ascii "topic", Json.string topic)]

/-- A topic of 64 bytes, one more than a `char[64]` entry holds. -/
def long_topic : CStr := List.replicate 64 97

/-! ## Invariants of the data model -/

/-- The connection references held by active slots, in slot order. -/
def active_conns (clients : List websocket_client_t) : List Nat :=
  (clients.filter (fun c => c.active)).map (fun c => c.conn)

/-- The ids held by active slots, in slot order. -/
def active_ids (clients : List websocket_client_t) : List CStr :=
  (clients.filter (fun c => c.active)).map (fun c => c.id)

/-- At most one active client per connection reference. -/
def UniqueConns (s : State) : Prop := (active_conns s.s_clients).Nodup

/-- At most one active client per id. -/
def UniqueIds (s : State) : Prop := (active_ids s.s_clients).Nodup

/-- Every id fits its field `char id[64]`: at most 63 bytes before the NUL. -/
def IdsFit (s : State) : Prop := ∀ c ∈ s.s_clients, c.id.length ≤ 63

/-- The identity of the active slots: id and connection reference, in slot order. -/
def idents (clients : List websocket_client_t) : List (CStr × Nat) :=
  (clients.filter (fun c => c.active)).map (fun c => (c.id, c.conn))

/-- Every free client slot has `topic_count` 0. -/
def IdleSlots (clients : List websocket_client_t) : Prop :=
  ∀ c ∈ clients, c.active = false → c.topic_count = 0

/-- Every free handler slot has a NULL callback. -/
def IdleHandlers (handlers : List websocket_handler_t) : Prop :=
  ∀ h ∈ handlers, h.active = false → h.handler = 0

/-- A table in which all 100 slots are active, slot `i` holding connection `i + 1`. -/
def full_table : List websocket_client_t :=
  (List.range MAX_CLIENTS).map fun i =>
    { id := [i], conn := i + 1, topics := List.replicate MAX_TOPICS [], topic_count := 0,
      active := true, last_activity := 0 }

/-- An initialized manager whose client table is full. -/
def full_state : State :=
  { s_clients := full_table, s_handlers := List.replicate MAX_HANDLERS zero_handler,
    s_initialized := true, heap := open_heap }

/-- A change of the client table that activates no slot and gives no active slot a new
identity, and that keeps free slots at `topic_count` 0. -/
def Benign (old new : List websocket_client_t) : Prop :=
  List.Sublist (idents new) (idents old) ∧ (IdleSlots old → IdleSlots new)

/-- A change of state whose client table change is `Benign` and that keeps free handler
slots at a NULL callback. -/
def Quiet (s t : State) : Prop :=
  Benign s.s_clients t.s_clients ∧ (IdleHandlers s.s_handlers → IdleHandlers t.s_handlers)

/-- An environment in which only the second `pthread_mutex_lock` of shutdown fails. -/
def env_no_relock : Env := { env_ok 0 [] none with relock_ok := false }

/-- A running manager with one client, on connection 7. -/
def one_client_state : State :=
  run (boot open_heap) [Op.handle_open (env_ok 0 (ascii "id-1") none) 7]

/-- The runs the connection invariant holds for: no shutdown, and every open is for a
connection reference that no active slot holds when the call is made. -/
def opens_fresh : State → List Op → Bool
  | _, [] => true
  | s, op :: ops =>
    (match op with
      | Op.handle_open _ c => decide (c ∉ active_conns s.s_clients)
      | Op.shutdown _ => false
      | _ => true) && opens_fresh (step s op) ops

/-- The message `{"type":"subscribe","topic":"t"}` arriving while the clock reads 1. -/
def subscribe_t : Env := env_ok 1 [] (some (envelope (ascii "subscribe") (ascii "t")))

/-- A run in which the transport opens connection 7, then connection 8, a message arrives on 7,
connection 7 closes, and 7 is opened again. -/
def tidy_run : List Op :=
  [Op.handle_open (env_ok 0 (ascii "id-1") none) 7, Op.handle_open (env_ok 0 (ascii "id-2") none) 8,
    Op.handle_message subscribe_t 7 [], Op.handle_close 7,
    Op.handle_open (env_ok 2 (ascii "id-3") none) 7]

/-- A run in which connection 7 is opened twice. -/
def double_open : List Op :=
  [Op.handle_open (env_ok 0 (ascii "id-1") none) 7, Op.handle_open (env_ok 0 (ascii "id-2") none) 7]

/-- A message with an empty JSON object as payload, for the examples that send one. -/
def hello : websocket_message_t :=
  { type := ascii "event", topic := ascii "t", payload := ascii "\x7b\x7d" }

/-- The state after `tidy_run` on a fresh manager: clients `id-3` (connection 7, slot 0) and
`id-2` (connection 8, slot 1). -/
def tidy_state : State := run (boot open_heap) tidy_run

/-- The state after `double_open` on a fresh manager: clients `id-1` and `id-2`, both on
connection 7. -/
def shared_state : State := run (boot open_heap) double_open

/-! ## Client creation -/

/-- Modelled from the spec: generate_uuid, called by generate_client_id, is declared in
video/onvif_discovery_messages.h and its body is not under src/.  The spec says of the id it
writes: "generate a fresh unique id", "unique among active clients".  The predicate holds of
the ids written by successive calls when they are pairwise distinct. -/
def generate_uuid_fresh (ids : List CStr) : Prop := ids.Nodup

/-- The slot `websocket_manager_handle_open` takes for the new client: the first free slot
after the sweep; `none` on the paths that return without creating a client. -/
def opened_slot (env : Env) (s : State) (c : Nat) : Option Nat :=
  match ensure_initialized env s with
  | none => none
  | some s0 =>
    if c = 0 then none
    else find_free_client_slot (websocket_manager_cleanup_inactive_clients env.now s0).1.s_clients

/-- The call `websocket_manager_handle_open(c)` creates a client: it takes a slot, and after
the call that slot is active with the connection, the generated id, no topics and the
current time. -/
def creates_client (env : Env) (s : State) (c : Nat) : Prop :=
  ∃ i, opened_slot env s c = some i ∧
    (client_at (websocket_manager_handle_open env s c).1.s_clients i).active = true ∧
    (client_at (websocket_manager_handle_open env s c).1.s_clients i).conn = c ∧
    (client_at (websocket_manager_handle_open env s c).1.s_clients i).id = env.uuid ∧
    (client_at (websocket_manager_handle_open env s c).1.s_clients i).topic_count = 0 ∧
    (client_at (websocket_manager_handle_open env s c).1.s_clients i).last_activity = env.now

/-- Every call of a sequence of `websocket_manager_handle_open` calls creates a client, and
after every call no two active clients have the same id. -/
def opens_create : State → List (Env × Nat) → Prop
  | _, [] => True
  | s, call :: rest =>
    creates_client call.1 s call.2 ∧
    UniqueIds (websocket_manager_handle_open call.1 s call.2).1 ∧
    opens_create (websocket_manager_handle_open call.1 s call.2).1 rest

/-- Two opens, for connections 7 and 8, the second an hour and a half after the first. -/
def two_opens : List (Env × Nat) :=
  [(env_ok 0 (ascii "id-1") none, 7), (env_ok 5400 (ascii "id-2") none, 8)]

/-! ## Subscriptions and broadcast -/

/-- A `subscribe` message for `topic` arriving on connection 7. -/
def subscribe_on_7 (topic : CStr) : Op :=
  Op.handle_message (env_ok 1 [] (some (envelope (ascii "subscribe") topic))) 7 []

/-- An `unsubscribe` message for `topic` arriving on connection 7. -/
def unsubscribe_on_7 (topic : CStr) : Op :=
  Op.handle_message (env_ok 1 [] (some (envelope (ascii "unsubscribe") topic))) 7 []

/-- The clients that, after the prologue and the sweep of `websocket_manager_broadcast`, are
active and have `topic` among their subscribed topics, in slot order. -/
def broadcast_targets (env : Env) (s : State) (topic : CStr) : List websocket_client_t :=
  match ensure_initialized env s with
  | none => []
  | some s0 =>
    (websocket_manager_cleanup_inactive_clients env.now s0).1.s_clients.filter (listed topic)

/-- The close frames the sweep of `websocket_manager_broadcast` sends. -/
def broadcast_sweep_events (env : Env) (s : State) : List Event :=
  match ensure_initialized env s with
  | none => []
  | some s0 => (websocket_manager_cleanup_inactive_clients env.now s0).2

/-- The number of positive results among `n` sends, the first being send number `i`. -/
def positive_results (env : Env) : Nat → Nat → Nat
  | _, 0 => 0
  | i, n + 1 => (if env.send_result i > 0 then 1 else 0) + positive_results env (i + 1) n

/-- An environment in which every `mg_ws_send` fails. -/
def env_send_fails : Env := { env_ok 3 [] none with send_result := fun _ => 0 }

/-- A run after which clients `id-3` (slot 0) and `id-2` (slot 1) are both subscribed to `t`
and both hold connection 7. -/
def shared_subscribers : State :=
  run (boot open_heap)
    [Op.handle_open (env_ok 0 (ascii "id-1") none) 7,
      Op.handle_open (env_ok 0 (ascii "id-2") none) 7,
      Op.handle_close 7, subscribe_on_7 (ascii "t"),
      Op.handle_open (env_ok 2 (ascii "id-3") none) 7, subscribe_on_7 (ascii "t")]

/-- A run after which clients `id-1` (connection 7) and `id-2` (connection 8) are both
subscribed to `t`. -/
def two_subscribers : State :=
  run (boot open_heap)
    [Op.handle_open (env_ok 0 (ascii "id-1") none) 7,
      Op.handle_open (env_ok 0 (ascii "id-2") none) 8,
      subscribe_on_7 (ascii "t"),
      Op.handle_message (env_ok 1 [] (some (envelope (ascii "subscribe") (ascii "t")))) 8 []]

/-! ## Handler registration and sends: concrete inputs -/

/-- The number of active handler slots. -/
def active_handler_count (handlers : List websocket_handler_t) : Nat :=
  (handlers.filter (fun h => h.active)).length

/-- Two registrations of the same topic on a fresh manager, with callbacks 5 and then 6. -/
def register_twice (topic : CStr) : State :=
  run (boot open_heap)
    [Op.register_handler (env_ok 0 [] none) (some topic) 5,
      Op.register_handler (env_ok 0 [] none) (some topic) 6]

/-- A handler table in which all 20 slots are active, slot `i` handling the one-byte topic
`[i]` with callback `i + 1`. -/
def full_handlers : List websocket_handler_t :=
  (List.range MAX_HANDLERS).map fun i => { topic := [i], handler := i + 1, active := true }

/-- An initialized manager without clients whose handler table is full. -/
def full_handler_state : State :=
  { s_clients := List.replicate MAX_CLIENTS zero_client, s_handlers := full_handlers,
    s_initialized := true, heap := open_heap }

/-! ## The sweep, slot by slot -/

/-- The connection objects as the loop of the sweep finds them when it reaches slot `i`:
slots `0 .. i - 1` have been examined. -/
def sweep_heap_at (now : Int) (s : State) (i : Nat) : Heap :=
  (for_each_client (cleanup_client now) (s.s_clients.take i) s.heap).2.1

/-- A running manager whose only client, on connection 7, was last active at time 0. -/
def stale_state : State :=
  run (boot open_heap) [Op.handle_open (env_ok 0 (ascii "id-1") none) 7, subscribe_on_7 (ascii "t")]

/-! ## Message validation -/

/-- The accepted messages in the words of the spec: a JSON value with a string `type`, a
string `topic`, and a `payload` that is absent or an object. -/
def well_formed_message (j : Json) : Prop :=
  (∃ type, cJSON_GetObjectItem j (ascii "type") = some (Json.string type)) ∧
  (∃ topic, cJSON_GetObjectItem j (ascii "topic") = some (Json.string topic)) ∧
  (cJSON_GetObjectItem j (ascii "payload") = none ∨
    ∃ members, cJSON_GetObjectItem j (ascii "payload") = some (Json.object members))

/-- Lines 503-642 of `websocket_manager_handle_message`: what the function does with a
validated message `(type, topic, payload item)` on an initialized manager. -/
def process_envelope (env : Env) (s : State) (c : Nat) (e : CStr × CStr × Json) :
    State × List Event :=
  match find_client_by_connection s.s_clients c with
  | none => (s, [])
  | some client_index =>
    let s1 := { s with s_clients := modify_slot (touch env.now) s.s_clients client_index }
    let client_id := strncpy64 (client_at s1.s_clients client_index).id
    if e.1 = ascii "subscribe" then handle_subscribe env s1 client_id e.2.1
    else if e.1 = ascii "unsubscribe" then handle_unsubscribe env s1 client_id e.2.1
    else handle_other env s1 client_id e.2.1 (env.print e.2.2)

/-- The parsed message `{"type": 1, "topic": "t"}`, whose type is not a string. -/
def numeric_type_message : Json :=
  Json.object [(ascii "type", Json.number 1), (ascii "topic", Json.string (ascii "t"))]

instance : Inhabited Json := ⟨Json.null⟩

/-! ## Subscription messages -/

/-- The state after the timestamp update of line 516 for the client in slot `i`. -/
def touched (env : Env) (s : State) (i : Nat) : State :=
  { s with s_clients := modify_slot (touch env.now) s.s_clients i }

/-- The acknowledgment created at lines 569-570. -/
def subscribed_ack : websocket_message_t :=
  { type := ascii "ack", topic := ascii "system",
    payload := ascii "\x7b\"message\":\"Subscribed\"\x7d" }

/-- The acknowledgment created at lines 609-610. -/
def unsubscribed_ack : websocket_message_t :=
  { type := ascii "ack", topic := ascii "system",
    payload := ascii "\x7b\"message\":\"Unsubscribed\"\x7d" }

/-- A running manager whose only client, on connection 7, is subscribed to `a`, `b` and
`c`, in that order. -/
def three_topics_state : State :=
  run (boot open_heap)
    [Op.handle_open (env_ok 0 (ascii "id-1") none) 7, subscribe_on_7 (ascii "a"),
      subscribe_on_7 (ascii "b"), subscribe_on_7 (ascii "c")]

/-- The topics `[0]`, `[1]`, ..., `[19]`. -/
def twenty_topics : List CStr := (List.range MAX_TOPICS).map fun i => [i]

/-- A running manager whose only client, on connection 7, holds MAX_TOPICS topics. -/
def full_topics_state : State :=
  run (boot open_heap)
    (Op.handle_open (env_ok 0 (ascii "id-1") none) 7 :: twenty_topics.map subscribe_on_7)

/-! ## The static-file handler: HLS requests without credentials

From `src/web/mongoose_server_static.c`, lines 64-112 of
`mongoose_server_handle_static_file`. -/

/-- The test `strstr(haystack, needle) != NULL`. -/
def strstr (haystack needle : CStr) : Bool :=
  haystack.tails.any (fun t => decide (t.take needle.length = needle))

/-- The flag `has_auth_cookie`: the Cookie header, when it fits the 1024-byte buffer
`cookie_str`, contains `auth=`. -/
def has_auth_cookie (cookie_header : Option CStr) : Bool :=
  match cookie_header with
  | none => false
  | some cookie => decide (cookie.length < 1024 - 1) && strstr cookie (ascii "auth=")

/-- The five `mg_printf` calls of lines 106-110, in order: what each writes to the
connection. -/
def unauthorized_writes : List CStr :=
  [ascii "HTTP/1.1 401 Unauthorized\r\n",
    ascii "WWW-Authenticate: Basic realm=\"LightNVR\"\r\n",
    ascii "Content-Type: application/json\r\n",
    ascii "Content-Length: 29\r\n\r\n",
    ascii "\x7b\"error\": \"Unauthorized\"\x7d\n"]

/-- The authentication gate of `mongoose_server_handle_static_file` for a URI starting with
`/hls/`: the bytes written to the connection when the request is answered 401, `none` when
the function goes on to serve the file. -/
def hls_auth_gate (auth_enabled : Bool) (auth_header cookie_header : Option CStr) :
    Option CStr :=
  let has_auth_header := auth_header.isSome
  if auth_enabled && !has_auth_header && !has_auth_cookie cookie_header then
    some unauthorized_writes.flatten
  else none

/-- The bytes of `text` after the first occurrence of `marker`, `none` without one. -/
def after_marker (marker : CStr) : CStr → Option CStr
  | [] => if marker = [] then some [] else none
  | b :: bs =>
    if (b :: bs).take marker.length = marker then some ((b :: bs).drop marker.length)
    else after_marker marker bs

/-- The number a run of ASCII digits denotes. -/
def decimal_value (digits : CStr) : Nat := digits.foldl (fun n d => 10 * n + (d - 48)) 0

/-- The value of the `Content-Length` header of an HTTP response. -/
def declared_content_length (response : CStr) : Option Nat :=
  (after_marker (ascii "Content-Length: ") response).map
    (fun rest => decimal_value (rest.takeWhile (fun b => decide (48 ≤ b ∧ b ≤ 57))))

/-- The body of an HTTP response: the bytes after the empty line that ends the header
block. -/
def http_body (response : CStr) : Option CStr := after_marker (ascii "\r\n\r\n") response

/-! ## The recordings API: pagination

From `src/web/api_handlers_recordings.c`.  An `int` is an integer; the result of an
arithmetic operation on `int`s is wrapped to 32 bits, two's complement (signed overflow is
undefined in C; wrap-around is what the usual targets compute). -/

def INT_MAX : Int := 2147483647

def INT_MIN : Int := -2147483648

/-- The `int` an arithmetic result is stored as. -/
def wrap_int (x : Int) : Int := (x + 2147483648) % 4294967296 - 2147483648

/-- The values an `int` can hold. -/
def is_int (x : Int) : Prop := INT_MIN ≤ x ∧ x ≤ INT_MAX

instance (x : Int) : Decidable (is_int x) := by unfold is_int; infer_instance

/-- The variable `page` after lines 200-206: `page_param` is `atoi(page_str)`, `none` when
the request has no `page` parameter. -/
def requested_page (page_param : Option Int) : Int :=
  match page_param with
  | some parsed_page => if parsed_page > 0 then parsed_page else 1
  | none => 1

/-- The variable `limit` after lines 208-218: `limit_param` is `atoi(limit_str)`, `none`
when the request has no `limit` parameter. -/
def requested_limit (limit_param : Option Int) : Int :=
  match limit_param with
  | some parsed_limit =>
    if parsed_limit > 0 ∧ parsed_limit ≤ 100 then parsed_limit
    else if parsed_limit > 100 then 100
    else 20
  | none => 20

/-- The pagination variables of `handle_get_recordings` after line 243. -/
structure page_window where
  limit : Int
  total_pages : Int
  page : Int
  offset : Int
  actual_limit : Int
  deriving DecidableEq, Repr

/-- Lines 200-243 of `handle_get_recordings`: the pagination variables computed from the
two query parameters and the result `total_count` of `get_recording_count`; `none` is the
500 response for a negative count. -/
def handle_get_recordings (page_param limit_param : Option Int) (total_count : Int) :
    Option page_window :=
  let page := requested_page page_param
  let limit := requested_limit limit_param
  if total_count < 0 then none
  else
    let total_pages := Int.tdiv (wrap_int (wrap_int (total_count + limit) - 1)) limit
    let total_pages := if total_pages = 0 then 1 else total_pages
    let page := if page > total_pages then total_pages else page
    let offset := wrap_int (wrap_int (page - 1) * limit)
    let actual_limit :=
      if wrap_int (offset + limit) ≤ total_count then limit else wrap_int (total_count - offset)
    let actual_limit := if actual_limit < 0 then 0 else actual_limit
    some { limit := limit, total_pages := total_pages, page := page, offset := offset,
           actual_limit := actual_limit }

/-- The function `get_recording_metadata_paginated`, for any record type.  The call
`get_recording_metadata(start_time, end_time, stream_name, temp_buffer, max_count)` leaves the
file: `fetch max_count` is its result and the content it leaves in `temp_buffer`, by
position.  The result is the return value and the content of the buffer `recordings` of the
caller.  The `malloc` of the temporary buffer is taken to succeed. -/
def get_recording_metadata_paginated {R : Type} (fetch : Int → Int × (Nat → R))
    (offset limit : Int) (recordings : Nat → R) : Int × (Nat → R) :=
  let r := fetch (wrap_int (offset + limit))
  let total_count := r.1
  if total_count < 0 then (-1, recordings)
  else
    let available := wrap_int (total_count - offset)
    let to_copy := if available > 0 then (if available < limit then available else limit) else 0
    if to_copy > 0 then
      (to_copy, fun k => if k < to_copy.toNat then r.2 (offset.toNat + k) else recordings k)
    else (to_copy, recordings)

/-- A database of five recordings `0 .. 4`: the call returns at most `max_count` of them. -/
def five_recordings (max_count : Int) : Int × (Nat → Nat) :=
  (if max_count < 5 then (if max_count < 0 then 0 else max_count) else 5, fun k => k)

/-! ## Further invariants of the client table -/

/-- Every active slot holds a non-NULL connection reference. -/
def ConnsLive (clients : List websocket_client_t) : Prop :=
  ∀ c ∈ clients, c.active = true → c.conn ≠ 0

/-- The runs without a call of `websocket_manager_shutdown`. -/
def without_shutdown : List Op → Bool
  | [] => true
  | Op.shutdown _ :: _ => false
  | _ :: ops => without_shutdown ops

/-- The slot keeps `topic_count` within its array `char topics[MAX_TOPICS][64]`. -/
def TopicsOk (c : websocket_client_t) : Prop :=
  c.topic_count ≤ MAX_TOPICS ∧ c.topics.length = MAX_TOPICS

/-- Every slot of the table keeps `topic_count` within its array. -/
def TopicsInv (clients : List websocket_client_t) : Prop := ∀ c ∈ clients, TopicsOk c

/-- The array `client_ids` that `websocket_manager_broadcast` fills under the lock (lines
921-939), after the prologue and the sweep: the ids of the snapshot, in snapshot order. -/
def broadcast_snapshot_ids (env : Env) (s : State) (topic : CStr) : List CStr :=
  match ensure_initialized env s with
  | none => []
  | some s0 =>
    (broadcast_snapshot (websocket_manager_cleanup_inactive_clients env.now s0).1.s_clients
      topic).map Prod.snd

/-- A change of state that keeps every `topic_count` within its array. -/
def KeepsTopics (s t : State) : Prop := TopicsInv s.s_clients → TopicsInv t.s_clients

/-! ## The send loop of broadcast, entry by entry -/

/-- The state after the sweep `websocket_manager_broadcast` runs at line 881. -/
def swept (env : Env) (s : State) : State :=
  (websocket_manager_cleanup_inactive_clients env.now s).1

/-- The client table while the send loop of `websocket_manager_broadcast` runs: the swept
table with `last_activity` of the selected clients updated (line 934). -/
def broadcast_table (env : Env) (s : State) (topic : CStr) : List websocket_client_t :=
  (swept env s).s_clients.map (fun c => if broadcast_selects topic c then touch env.now c else c)

/-- The index in the snapshot of the entry made for slot `i`: the number of selected slots
before it. -/
def snapshot_index (clients : List websocket_client_t) (topic : CStr) (i : Nat) : Nat :=
  ((clients.take i).filter (broadcast_selects topic)).length

/-- The connection objects as the send loop of `websocket_manager_broadcast` finds them when
it reaches entry `k` of the snapshot: entries `0 .. k - 1` have been handled. -/
def send_heap_at (env : Env) (s : State) (topic : CStr) (m : websocket_message_t) (k : Nat) :
    Heap :=
  (broadcast_send env (broadcast_table env s topic) (env.print (broadcast_json env m))
    ((broadcast_snapshot (swept env s).s_clients topic).take k) 0 (swept env s).heap).1

/-- Lines 955-961 of `websocket_manager_broadcast`, for one failed send: the client is
re-located by the copied id and its connection is marked closing. -/
def mark_for_cleanup (clients : List websocket_client_t) (id : CStr) (h : Heap) :
    Heap × List Event :=
  match find_client_by_id clients id with
  | none => (h, [])
  | some client_index =>
    if (client_at clients client_index).conn = 0 then (h, [Event.null_deref])
    else (mark_closing h (client_at clients client_index).conn, [])

/-! # Theorems -/

/-! ## Slots -/

theorem find_slot_eq_none {α : Type} (p : α → Bool) (l : List α) :
    find_slot p l = none ↔ ∀ x ∈ l, p x = false := by
  induction l with
  | nil => simp [find_slot]
  | cons x xs ih =>
    cases hp : p x <;> simp [find_slot, hp, ih]

/-- A successful search splits the table at the slot found. -/
theorem find_slot_eq_some {α : Type} (p : α → Bool) (l : List α) (i : Nat)
    (h : find_slot p l = some i) :
    ∃ pre x post, l = pre ++ x :: post ∧ pre.length = i ∧ p x = true ∧
      ∀ y ∈ pre, p y = false := by
  induction l generalizing i with
  | nil => simp [find_slot] at h
  | cons a as ih =>
    cases hp : p a with
    | true =>
      simp [find_slot, hp] at h
      exact ⟨[], a, as, rfl, by simpa using h, hp, by simp⟩
    | false =>
      simp [find_slot, hp] at h
      obtain ⟨j, hj, rfl⟩ := h
      obtain ⟨pre, x, post, rfl, hlen, hx, hpre⟩ := ih j hj
      refine ⟨a :: pre, x, post, rfl, by simp [hlen], hx, ?_⟩
      intro y hy
      rcases List.mem_cons.1 hy with rfl | hy
      · exact hp
      · exact hpre y hy

theorem modify_slot_split {α : Type} (f : α → α) (pre : List α) (x : α) (post : List α) :
    modify_slot f (pre ++ x :: post) pre.length = pre ++ f x :: post := by
  induction pre with
  | nil => rfl
  | cons a as ih => simp [modify_slot, ih]

theorem modify_slot_length {α : Type} (f : α → α) (l : List α) (i : Nat) :
    (modify_slot f l i).length = l.length := by
  induction l generalizing i with
  | nil => rfl
  | cons a as ih => cases i <;> simp [modify_slot, ih]

theorem client_at_split (pre : List websocket_client_t) (x : websocket_client_t)
    (post : List websocket_client_t) : client_at (pre ++ x :: post) pre.length = x := by
  induction pre with
  | nil => rfl
  | cons a as ih => simpa [client_at] using ih

/-! ## Initialization and shutdown -/

theorem shutdown_clears_flag (env : Env) (s : State) :
    (websocket_manager_shutdown env s).1.s_initialized = false := by
  unfold websocket_manager_shutdown
  cases hi : s.s_initialized <;> cases h1 : (env.timedlock_ok || env.mutex_reset_ok) <;>
    cases h2 : env.relock_ok <;> simp [hi, h1, h2]

theorem shutdown_of_not_initialized (env : Env) (s : State) (h : s.s_initialized = false) :
    websocket_manager_shutdown env s = (s, []) := by
  simp [websocket_manager_shutdown, h]

theorem ensure_initialized_of_initialized (env : Env) (s : State) (h : s.s_initialized = true) :
    ensure_initialized env s = some s := by
  simp [ensure_initialized, websocket_manager_is_initialized, h]

/-- C8: websocket_manager_init on an initialized manager returns 0 and changes nothing; on an
uninitialized manager, mutex construction succeeding, it returns 0, sets the flag and leaves
every client slot and every handler slot inactive, and a second call changes nothing. -/
theorem init_idempotent (env : Env) (s : State) :
    (s.s_initialized = true → websocket_manager_init env s = (s, 0)) ∧
    (s.s_initialized = false → env.mutex_init_ok = true →
      (websocket_manager_init env s).2 = 0 ∧
      (websocket_manager_init env s).1.s_initialized = true ∧
      (∀ c ∈ (websocket_manager_init env s).1.s_clients, c.active = false) ∧
      (∀ h ∈ (websocket_manager_init env s).1.s_handlers, h.active = false) ∧
      (websocket_manager_init env s).1.s_clients.length = MAX_CLIENTS ∧
      (websocket_manager_init env s).1.s_handlers.length = MAX_HANDLERS ∧
      ∀ env2, websocket_manager_init env2 (websocket_manager_init env s).1 =
        ((websocket_manager_init env s).1, 0)) := by
  refine ⟨fun h => by simp [websocket_manager_init, h], fun h hm => ?_⟩
  simp only [websocket_manager_init, h, hm]
  simp [zero_client, zero_handler]

theorem init_idempotent_witness :
    websocket_manager_init (env_ok 5 [] none)
        (websocket_manager_init (env_ok 0 [] none) (boot open_heap)).1 =
      ((websocket_manager_init (env_ok 0 [] none) (boot open_heap)).1, 0) :=
  ((init_idempotent (env_ok 0 [] none) (boot open_heap)).2 rfl rfl).2.2.2.2.2.2 _

/-- C9: websocket_manager_shutdown is idempotent: a second call leaves the state the first
call produced and does nothing to the outside world; on a manager that is not initialized
the call changes nothing (tables, flag and connection objects alike). -/
theorem shutdown_idempotent (env1 env2 : Env) (s : State) :
    websocket_manager_shutdown env2 (websocket_manager_shutdown env1 s).1 =
      ((websocket_manager_shutdown env1 s).1, []) ∧
    (s.s_initialized = false → websocket_manager_shutdown env1 s = (s, [])) :=
  ⟨shutdown_of_not_initialized env2 _ (shutdown_clears_flag env1 s),
    shutdown_of_not_initialized env1 s⟩

theorem shutdown_idempotent_witness :
    websocket_manager_shutdown (env_ok 0 [] none) (boot open_heap) = (boot open_heap, []) :=
  (shutdown_idempotent (env_ok 0 [] none) (env_ok 0 [] none) (boot open_heap)).2 rfl

/-! ## The sweep -/

theorem for_each_client_cons
    (body : Heap → websocket_client_t → websocket_client_t × Heap × List Event)
    (c : websocket_client_t) (cs : List websocket_client_t) (h : Heap) :
    for_each_client body (c :: cs) h =
      ((body h c).1 :: (for_each_client body cs (body h c).2.1).1,
        (for_each_client body cs (body h c).2.1).2.1,
        (body h c).2.2 ++ (for_each_client body cs (body h c).2.1).2.2) := rfl

theorem for_each_client_length
    (body : Heap → websocket_client_t → websocket_client_t × Heap × List Event)
    (cs : List websocket_client_t) (h : Heap) :
    (for_each_client body cs h).1.length = cs.length := by
  induction cs generalizing h with
  | nil => rfl
  | cons c cs ih => simp [for_each_client_cons, ih]

/-- What the sweep does to one slot: it keeps the slot as it is, or deactivates an active
slot; a slot it keeps active has a live connection and recent activity. -/
theorem cleanup_client_cases (now : Int) (h : Heap) (c : websocket_client_t) :
    (cleanup_client now h c = (c, h, []) ∧
      (c.active = true → c.conn ≠ 0 ∧ (h c.conn).is_closing = false ∧
        now - c.last_activity ≤ 3600)) ∨
    (c.active = true ∧ (cleanup_client now h c).1 = deactivate c ∧
      ((cleanup_client now h c).2.1 = h ∨
        (c.conn ≠ 0 ∧ (cleanup_client now h c).2.1 = mark_closing h c.conn))) := by
  unfold cleanup_client
  by_cases ha : c.active = true
  · by_cases h1 : c.conn = 0 ∨ (h c.conn).is_closing = true
    · right; simp [ha, h1]
    · by_cases h2 : now - c.last_activity > 3600
      · right
        by_cases h3 : c.conn ≠ 0 ∧ (h c.conn).is_websocket = true ∧ (h c.conn).is_closing = false
        · simp only [ha, h1, h2, h3]; simp [h3.1]
        · simp only [ha, h1, h2, h3]; simp
      · left
        push_neg at h1
        simp only [ha, h1, h2]
        simp at h1 h2
        simp [h1, h2]
  · left; simp [ha]

theorem mark_closing_other (h : Heap) (p q : Nat) (hq : q ≠ p) : mark_closing h p q = h q := by
  simp [mark_closing, heap_set, hq]

theorem mark_closing_same (h : Heap) (p : Nat) : (mark_closing h p p).is_closing = true := by
  simp [mark_closing, heap_set]

/-- The sweep writes only to connection objects of active slots. -/
theorem sweep_heap_frame (now : Int) (cs : List websocket_client_t) (h : Heap) (p : Nat)
    (hp : p ∉ active_conns cs) :
    (for_each_client (cleanup_client now) cs h).2.1 p = h p := by
  induction cs generalizing h with
  | nil => rfl
  | cons c cs ih =>
    rw [for_each_client_cons]
    have hp2 : p ∉ active_conns cs := by
      intro hmem
      apply hp
      unfold active_conns at hmem ⊢
      by_cases ha : c.active = true <;> simp [List.filter_cons, ha] at hmem ⊢
      · exact Or.inr hmem
      · exact hmem
    simp only []
    rw [ih _ hp2]
    rcases cleanup_client_cases now h c with ⟨he, _⟩ | ⟨ha, _, he | ⟨_, he⟩⟩
    · rw [he]
    · rw [he]
    · rw [he]
      apply mark_closing_other
      intro hpc
      apply hp
      simp [active_conns, List.filter_cons, ha, hpc]

/-- The sweep never activates a slot: the active slots after it are among those before it, in
the same order. -/
theorem sweep_active_sublist (now : Int) (cs : List websocket_client_t) (h : Heap) :
    List.Sublist ((for_each_client (cleanup_client now) cs h).1.filter (fun c => c.active))
      (cs.filter (fun c => c.active)) := by
  induction cs generalizing h with
  | nil => simp [for_each_client]
  | cons c cs ih =>
    rw [for_each_client_cons]
    rcases cleanup_client_cases now h c with ⟨he, _⟩ | ⟨ha, hd, _⟩
    · rw [he]
      by_cases ha : c.active = true
      · simp only [List.filter_cons, ha, if_true]
        exact (ih h).cons₂ c
      · simp only [List.filter_cons, ha]
        exact ih h
    · simp only [hd, List.filter_cons, ha, if_true]
      simp only [deactivate]
      exact ((ih _).cons c)

/-- The sweep leaves a table alone when every active slot has a live connection and recent
activity. -/
theorem sweep_identity (now : Int) (cs : List websocket_client_t) (h : Heap)
    (hall : ∀ c ∈ cs, c.active = true →
      c.conn ≠ 0 ∧ (h c.conn).is_closing = false ∧ now - c.last_activity ≤ 3600) :
    for_each_client (cleanup_client now) cs h = (cs, h, []) := by
  induction cs with
  | nil => rfl
  | cons c cs ih =>
    have hc : cleanup_client now h c = (c, h, []) := by
      unfold cleanup_client
      by_cases ha : c.active = true
      · obtain ⟨h1, h2, h3⟩ := hall c (List.mem_cons_self _ _) ha
        simp [ha, h1, h2, h3]
      · simp [ha]
    rw [for_each_client_cons, hc]
    simp only []
    rw [ih (fun c' hc' => hall c' (List.mem_cons_of_mem _ hc'))]
    rfl

/-- After the sweep, with at most one active slot per connection before it, every active slot
is a slot of the table before it, has a non-null connection that is not closing, and was
active within the timeout. -/
theorem sweep_survivors (now : Int) (cs : List websocket_client_t) (h : Heap)
    (hn : (active_conns cs).Nodup) :
    ∀ c ∈ (for_each_client (cleanup_client now) cs h).1, c.active = true →
      c ∈ cs ∧ c.conn ≠ 0 ∧
      ((for_each_client (cleanup_client now) cs h).2.1 c.conn).is_closing = false ∧
      now - c.last_activity ≤ 3600 := by
  induction cs generalizing h with
  | nil => simp [for_each_client]
  | cons c cs ih =>
    intro c' hc' hact
    rw [for_each_client_cons] at hc' ⊢
    simp only [] at hc' ⊢
    have hn2 : (active_conns cs).Nodup := by
      unfold active_conns at hn ⊢
      by_cases ha : c.active = true <;> simp [List.filter_cons, ha] at hn
      · exact hn.2
      · exact hn
    rcases List.mem_cons.1 hc' with heq | hmem
    · rcases cleanup_client_cases now h c with ⟨he, hk⟩ | ⟨_, hd, _⟩
      · rw [he] at heq ⊢
        simp only [] at heq ⊢
        subst heq
        obtain ⟨h1, h2, h3⟩ := hk hact
        refine ⟨List.mem_cons_self _ _, h1, ?_, h3⟩
        rw [sweep_heap_frame]
        · exact h2
        · unfold active_conns at hn ⊢
          simp [List.filter_cons, hact] at hn
          simpa using hn.1
      · rw [hd] at heq
        rw [heq] at hact
        simp [deactivate] at hact
    · obtain ⟨h1, h2, h3, h4⟩ := ih _ hn2 c' hmem hact
      exact ⟨List.mem_cons_of_mem _ h1, h2, h3, h4⟩

/-! ## Connection open on a full table -/

theorem sweep_state_identity (now : Int) (s : State)
    (hall : ∀ c ∈ s.s_clients, c.active = true →
      c.conn ≠ 0 ∧ (s.heap c.conn).is_closing = false ∧ now - c.last_activity ≤ 3600) :
    websocket_manager_cleanup_inactive_clients now s = (s, []) := by
  unfold websocket_manager_cleanup_inactive_clients
  rw [sweep_identity now s.s_clients s.heap hall]

/-- C5: on an initialized manager whose client slots are all active, each with a non-null
connection that is not closing and activity within the last 3600 seconds,
websocket_manager_handle_open creates no client, changes no slot and sends nothing. -/
theorem handle_open_table_full (env : Env) (s : State) (c : Nat)
    (hinit : s.s_initialized = true)
    (hfull : ∀ cl ∈ s.s_clients, cl.active = true ∧ cl.conn ≠ 0 ∧
      (s.heap cl.conn).is_closing = false ∧ env.now - cl.last_activity ≤ 3600) :
    websocket_manager_handle_open env s c = (s, []) := by
  unfold websocket_manager_handle_open
  rw [ensure_initialized_of_initialized env s hinit]
  by_cases hc : c = 0
  · simp [hc]
  · have hsweep := sweep_state_identity env.now s (fun cl hcl _ => (hfull cl hcl).2)
    have hfree : find_free_client_slot s.s_clients = none := by
      unfold find_free_client_slot
      rw [find_slot_eq_none]
      intro x hx
      simp [(hfull x hx).1]
    simp [hc, hsweep, hfree]

theorem handle_open_table_full_witness :
    full_state.s_clients.length = MAX_CLIENTS ∧
    websocket_manager_handle_open (env_ok 3600 (ascii "new") none) full_state 777 =
      (full_state, []) :=
  ⟨by decide, handle_open_table_full (env_ok 3600 (ascii "new") none) full_state 777 rfl
    (by decide)⟩

/-! ## Benign table changes -/

theorem idents_append (a b : List websocket_client_t) : idents (a ++ b) = idents a ++ idents b := by
  simp [idents]

theorem idents_cons (x : websocket_client_t) (l : List websocket_client_t) :
    idents (x :: l) = if x.active = true then (x.id, x.conn) :: idents l else idents l := by
  by_cases h : x.active = true <;> simp [idents, List.filter_cons, h]

theorem active_ids_eq (l : List websocket_client_t) : active_ids l = (idents l).map Prod.fst := by
  simp [active_ids, idents, List.map_map, Function.comp_def]

theorem active_conns_eq (l : List websocket_client_t) :
    active_conns l = (idents l).map Prod.snd := by
  simp [active_conns, idents, List.map_map, Function.comp_def]

theorem idents_modify_slot_same (f : websocket_client_t → websocket_client_t)
    (hf : ∀ x, (f x).active = x.active ∧ (f x).id = x.id ∧ (f x).conn = x.conn)
    (l : List websocket_client_t) (i : Nat) : idents (modify_slot f l i) = idents l := by
  induction l generalizing i with
  | nil => rfl
  | cons a as ih =>
    cases i with
    | zero => simp [modify_slot, idents_cons, hf]
    | succ n => simp [modify_slot, idents_cons, ih]

theorem idents_modify_slot_deactivate (l : List websocket_client_t) (i : Nat) :
    List.Sublist (idents (modify_slot deactivate l i)) (idents l) := by
  induction l generalizing i with
  | nil => simp [modify_slot]
  | cons a as ih =>
    cases i with
    | zero =>
      simp only [modify_slot, idents_cons]
      by_cases ha : a.active = true
      · simp [deactivate, ha]
      · simp [deactivate, ha]
    | succ n =>
      simp only [modify_slot, idents_cons]
      by_cases ha : a.active = true
      · simp only [ha, if_true]
        exact (ih n).cons₂ _
      · simp only [ha]
        exact ih n

theorem idle_modify_found (p : websocket_client_t → Bool)
    (f : websocket_client_t → websocket_client_t) (l : List websocket_client_t) (i : Nat)
    (hfind : find_slot p l = some i)
    (hp : ∀ x, p x = true → (f x).active = true ∨ (f x).topic_count = 0)
    (hidle : IdleSlots l) : IdleSlots (modify_slot f l i) := by
  obtain ⟨pre, x, post, rfl, rfl, hx, _⟩ := find_slot_eq_some p l i hfind
  rw [modify_slot_split]
  intro c hc hact
  simp only [List.mem_append, List.mem_cons] at hc
  rcases hc with hc | rfl | hc
  · exact hidle c (by simp [hc]) hact
  · rcases hp x hx with h1 | h1
    · rw [h1] at hact; cases hact
    · exact h1
  · exact hidle c (by simp [hc]) hact

theorem benign_refl (l : List websocket_client_t) : Benign l l :=
  ⟨List.Sublist.refl _, id⟩

theorem benign_trans {a b c : List websocket_client_t} (h1 : Benign a b) (h2 : Benign b c) :
    Benign a c :=
  ⟨h2.1.trans h1.1, fun h => h2.2 (h1.2 h)⟩

theorem benign_modify_found (p : websocket_client_t → Bool)
    (f : websocket_client_t → websocket_client_t) (l : List websocket_client_t) (i : Nat)
    (hfind : find_slot p l = some i) (hp : ∀ x, p x = true → x.active = true)
    (hf : ∀ x, (f x).active = x.active ∧ (f x).id = x.id ∧ (f x).conn = x.conn) :
    Benign l (modify_slot f l i) := by
  refine ⟨by rw [idents_modify_slot_same f hf], ?_⟩
  exact idle_modify_found p f l i hfind (fun x hx => Or.inl (by rw [(hf x).1]; exact hp x hx))

theorem benign_deactivate (p : websocket_client_t → Bool) (l : List websocket_client_t) (i : Nat)
    (hfind : find_slot p l = some i) : Benign l (modify_slot deactivate l i) :=
  ⟨idents_modify_slot_deactivate l i,
    idle_modify_found p deactivate l i hfind (fun _ _ => Or.inr rfl)⟩

theorem idents_replicate_zero (n : Nat) : idents (List.replicate n zero_client) = [] := by
  induction n with
  | zero => rfl
  | succ n ih =>
    rw [List.replicate_succ, idents_cons, ih]
    simp [zero_client]

theorem benign_zero (l : List websocket_client_t) (n : Nat) :
    Benign l (List.replicate n zero_client) := by
  refine ⟨by simp [idents_replicate_zero], fun _ c hc _ => ?_⟩
  rw [(List.mem_replicate.1 hc).2]
  rfl

theorem sweep_mem (now : Int) (cs : List websocket_client_t) (h : Heap) :
    ∀ c ∈ (for_each_client (cleanup_client now) cs h).1,
      c ∈ cs ∨ ∃ x ∈ cs, c = deactivate x := by
  induction cs generalizing h with
  | nil => simp [for_each_client]
  | cons a as ih =>
    intro c hc
    rw [for_each_client_cons] at hc
    rcases List.mem_cons.1 hc with heq | hmem
    · rcases cleanup_client_cases now h a with ⟨he, _⟩ | ⟨_, hd, _⟩
      · rw [he] at heq; exact Or.inl (by simp [heq])
      · rw [hd] at heq; exact Or.inr ⟨a, by simp, heq⟩
    · rcases ih _ c hmem with h1 | ⟨x, hx, h1⟩
      · exact Or.inl (List.mem_cons_of_mem _ h1)
      · exact Or.inr ⟨x, List.mem_cons_of_mem _ hx, h1⟩

theorem benign_sweep (now : Int) (cs : List websocket_client_t) (h : Heap) :
    Benign cs (for_each_client (cleanup_client now) cs h).1 := by
  refine ⟨(sweep_active_sublist now cs h).map _, fun hidle c hc hact => ?_⟩
  rcases sweep_mem now cs h c hc with h1 | ⟨x, _, h1⟩
  · exact hidle c h1 hact
  · rw [h1]; rfl

theorem benign_map_touch (now : Int) (sel : websocket_client_t → Bool)
    (l : List websocket_client_t) :
    Benign l (l.map (fun c => if sel c then touch now c else c)) := by
  have hid : idents (l.map (fun c => if sel c then touch now c else c)) = idents l := by
    induction l with
    | nil => rfl
    | cons a as ih =>
      simp only [List.map_cons, idents_cons, ih]
      by_cases hs : sel a = true <;> simp [hs, touch]
  refine ⟨by rw [hid], fun hidle c hc hact => ?_⟩
  obtain ⟨x, hx, rfl⟩ := List.mem_map.1 hc
  by_cases hs : sel x = true
  · simp only [hs, if_true] at hact ⊢
    exact hidle x hx hact
  · simp only [hs] at hact ⊢
    exact hidle x hx hact

/-! ## Quiet operations -/

theorem quiet_refl (s : State) : Quiet s s := ⟨benign_refl _, id⟩

theorem quiet_trans {a b c : State} (h1 : Quiet a b) (h2 : Quiet b c) : Quiet a c :=
  ⟨benign_trans h1.1 h2.1, fun h => h2.2 (h1.2 h)⟩

theorem quiet_clients (s : State) (cs : List websocket_client_t) (h : Benign s.s_clients cs) :
    Quiet s { s with s_clients := cs } := ⟨h, id⟩

theorem idle_handlers_replicate (n : Nat) : IdleHandlers (List.replicate n zero_handler) := by
  intro h hh _
  rw [(List.mem_replicate.1 hh).2]
  rfl

theorem quiet_init (env : Env) (s : State) : Quiet s (websocket_manager_init env s).1 := by
  unfold websocket_manager_init
  by_cases h1 : s.s_initialized = true
  · simp [h1, quiet_refl]
  · by_cases h2 : env.mutex_init_ok = true
    · simp only [h1, h2]
      exact ⟨benign_zero _ _, fun _ => idle_handlers_replicate _⟩
    · simp [h1, h2, quiet_refl]

theorem quiet_ensure (env : Env) (s s0 : State) (h : ensure_initialized env s = some s0) :
    Quiet s s0 := by
  unfold ensure_initialized at h
  by_cases h1 : websocket_manager_is_initialized s = true
  · simp [h1] at h; rw [← h]; exact quiet_refl s
  · simp only [h1] at h
    by_cases h2 : (websocket_manager_init env s).2 ≠ 0
    · simp [h2] at h
    · simp only [h2] at h
      simp at h
      rw [← h]; exact quiet_init env s

theorem find_client_by_id_active (x : websocket_client_t) (id : CStr)
    (h : (x.active && decide (x.id = id)) = true) : x.active = true := by
  simp at h; exact h.1

theorem find_client_by_connection_active (x : websocket_client_t) (c : Nat)
    (h : (x.active && decide (x.conn = c)) = true) : x.active = true := by
  simp at h; exact h.1

theorem quiet_send_to_client (env : Env) (s : State) (id : Option CStr)
    (m : Option websocket_message_t) :
    Quiet s (websocket_manager_send_to_client env s id m).1 := by
  unfold websocket_manager_send_to_client
  cases h0 : ensure_initialized env s with
  | none => exact quiet_refl s
  | some s0 =>
    have q0 := quiet_ensure env s s0 h0
    cases id with
    | none => exact q0
    | some id =>
      cases m with
      | none => exact q0
      | some m =>
        simp only []
        cases hf : find_client_by_id s0.s_clients id with
        | none => exact q0
        | some i =>
          simp only []
          by_cases hc : (client_at s0.s_clients i).conn = 0
          · simp only [hc, if_true]; exact q0
          · simp only [hc]
            refine quiet_trans q0 (quiet_clients _ _ ?_)
            exact benign_modify_found _ _ _ _ hf (fun x hx => find_client_by_id_active x id hx)
              (fun x => ⟨rfl, rfl, rfl⟩)

theorem idle_handlers_modify_found (p : websocket_handler_t → Bool)
    (f : websocket_handler_t → websocket_handler_t) (l : List websocket_handler_t) (i : Nat)
    (hfind : find_slot p l = some i) (hp : ∀ x, p x = true → (f x).active = true)
    (hidle : IdleHandlers l) : IdleHandlers (modify_slot f l i) := by
  obtain ⟨pre, x, post, rfl, rfl, hx, _⟩ := find_slot_eq_some p l i hfind
  rw [modify_slot_split]
  intro c hc hact
  simp only [List.mem_append, List.mem_cons] at hc
  rcases hc with hc | rfl | hc
  · exact hidle c (by simp [hc]) hact
  · rw [hp x hx] at hact; cases hact
  · exact hidle c (by simp [hc]) hact

theorem quiet_register_handler (env : Env) (s : State) (topic : Option CStr) (handler : Nat) :
    Quiet s (websocket_manager_register_handler env s topic handler).1 := by
  unfold websocket_manager_register_handler
  cases h0 : ensure_initialized env s with
  | none => exact quiet_refl s
  | some s0 =>
    have q0 := quiet_ensure env s s0 h0
    cases topic with
    | none => exact q0
    | some t =>
      simp only []
      by_cases hh : handler = 0
      · simp only [hh, if_true]; exact q0
      · simp only [hh]
        cases hf : find_handler_by_topic s0.s_handlers t with
        | some i =>
          refine quiet_trans q0 ⟨benign_refl _, ?_⟩
          exact idle_handlers_modify_found _ _ _ _ hf (fun x hx => by simp at hx; simp [hx.1])
        | none =>
          simp only []
          cases hg : find_free_handler_slot s0.s_handlers with
          | none => exact q0
          | some j =>
            refine quiet_trans q0 ⟨benign_refl _, ?_⟩
            exact idle_handlers_modify_found _ _ _ _ hg (fun x _ => rfl)

theorem quiet_register_websocket_handlers (env : Env) (s : State) :
    Quiet s (register_websocket_handlers env s) := by
  unfold register_websocket_handlers
  generalize env.registrations = regs
  induction regs generalizing s with
  | nil => exact quiet_refl s
  | cons r rs ih =>
    simp only [List.foldl_cons]
    exact quiet_trans (quiet_register_handler env s (some r.1) r.2) (ih _)

theorem quiet_handle_subscribe (env : Env) (s : State) (id topic : CStr) :
    Quiet s (handle_subscribe env s id topic).1 := by
  unfold handle_subscribe
  cases hf : find_client_by_id s.s_clients id with
  | none => exact quiet_refl s
  | some i =>
    simp only []
    split
    · exact quiet_refl s
    · split
      · exact quiet_refl s
      · refine quiet_trans (quiet_clients s _ ?_)
          (quiet_trans (quiet_send_to_client env _ _ _) (quiet_register_websocket_handlers env _))
        exact benign_modify_found _ _ _ _ hf (fun x hx => find_client_by_id_active x id hx)
          (fun x => ⟨rfl, rfl, rfl⟩)

theorem quiet_handle_unsubscribe (env : Env) (s : State) (id topic : CStr) :
    Quiet s (handle_unsubscribe env s id topic).1 := by
  unfold handle_unsubscribe
  cases hf : find_client_by_id s.s_clients id with
  | none => exact quiet_refl s
  | some i =>
    simp only []
    split
    · exact quiet_refl s
    · refine quiet_trans (quiet_clients s _ ?_) (quiet_send_to_client env _ _ _)
      exact benign_modify_found _ _ _ _ hf (fun x hx => find_client_by_id_active x id hx)
        (fun x => ⟨rfl, rfl, rfl⟩)

theorem quiet_handle_other (env : Env) (s : State) (id topic payload : CStr) :
    Quiet s (handle_other env s id topic payload).1 := by
  unfold handle_other
  split
  · exact quiet_refl s
  · simp only []
    split
    · exact quiet_register_websocket_handlers env s
    · exact quiet_register_websocket_handlers env s

theorem quiet_handle_message (env : Env) (s : State) (c : Nat) (data : CStr) :
    Quiet s (websocket_manager_handle_message env s c data).1 := by
  unfold websocket_manager_handle_message
  cases h0 : ensure_initialized env s with
  | none => exact quiet_refl s
  | some s0 =>
    have q0 := quiet_ensure env s s0 h0
    simp only []
    cases env.parse data with
    | none => exact q0
    | some json =>
      simp only []
      cases decode_envelope json with
      | none => exact q0
      | some e =>
        obtain ⟨type, topic, payload_json⟩ := e
        simp only []
        cases hf : find_client_by_connection s0.s_clients c with
        | none => exact q0
        | some i =>
          simp only []
          have q1 : Quiet s0 { s0 with s_clients := modify_slot (touch env.now) s0.s_clients i } :=
            quiet_clients s0 _ (benign_modify_found _ _ _ _ hf
              (fun x hx => find_client_by_connection_active x c hx) (fun x => ⟨rfl, rfl, rfl⟩))
          split
          · exact quiet_trans q0 (quiet_trans q1 (quiet_handle_subscribe env _ _ _))
          · split
            · exact quiet_trans q0 (quiet_trans q1 (quiet_handle_unsubscribe env _ _ _))
            · exact quiet_trans q0 (quiet_trans q1 (quiet_handle_other env _ _ _ _))

theorem quiet_handle_close (s : State) (c : Nat) : Quiet s (websocket_manager_handle_close s c) := by
  unfold websocket_manager_handle_close remove_client_by_connection
  split
  · exact quiet_refl s
  · split
    · exact quiet_refl s
    · cases hf : find_client_by_connection s.s_clients c with
      | none => exact quiet_refl s
      | some i => exact quiet_clients s _ (benign_deactivate _ _ _ hf)

theorem quiet_sweep (now : Int) (s : State) :
    Quiet s (websocket_manager_cleanup_inactive_clients now s).1 :=
  ⟨benign_sweep now s.s_clients s.heap, id⟩

theorem quiet_broadcast (env : Env) (s : State) (topic : Option CStr)
    (m : Option websocket_message_t) : Quiet s (websocket_manager_broadcast env s topic m).1 := by
  unfold websocket_manager_broadcast
  cases h0 : ensure_initialized env s with
  | none => exact quiet_refl s
  | some s0 =>
    have q0 := quiet_ensure env s s0 h0
    cases topic with
    | none => exact q0
    | some t =>
      cases m with
      | none => exact q0
      | some m =>
        refine quiet_trans q0 (quiet_trans (quiet_sweep env.now s0) ⟨?_, id⟩)
        exact benign_map_touch env.now (broadcast_selects t) _

theorem quiet_is_subscribed (env : Env) (s : State) (id topic : Option CStr) :
    Quiet s (websocket_manager_is_subscribed env s id topic).1 := by
  unfold websocket_manager_is_subscribed
  cases h0 : ensure_initialized env s with
  | none => exact quiet_refl s
  | some s0 =>
    have q0 := quiet_ensure env s s0 h0
    cases id with
    | none => exact q0
    | some id =>
      cases topic with
      | none => exact q0
      | some t =>
        simp only []
        cases find_client_by_id s0.s_clients id with
        | none => exact q0
        | some i => exact q0

theorem quiet_get_subscribed_clients (env : Env) (s : State) (topic : Option CStr) (out : Bool) :
    Quiet s (websocket_manager_get_subscribed_clients env s topic out).1 := by
  unfold websocket_manager_get_subscribed_clients
  cases h0 : ensure_initialized env s with
  | none => exact quiet_refl s
  | some s0 =>
    have q0 := quiet_ensure env s s0 h0
    cases topic with
    | none => exact q0
    | some t =>
      cases out with
      | false => exact q0
      | true => exact quiet_trans q0 (quiet_sweep env.now s0)

/-! ## Connection open -/

/-- What websocket_manager_handle_open does to the state: nothing beyond a quiet change, or a
quiet change followed by the activation of the first free slot for the new connection. -/
theorem handle_open_cases (env : Env) (s : State) (c : Nat) :
    Quiet s (websocket_manager_handle_open env s c).1 ∨
    (c ≠ 0 ∧ ∃ s1 pre x post, Quiet s s1 ∧ s1.s_clients = pre ++ x :: post ∧
      x.active = false ∧ (∀ y ∈ pre, y.active = true) ∧
      (websocket_manager_handle_open env s c).1 =
        { s1 with s_clients := pre ++ open_slot env c x :: post }) := by
  unfold websocket_manager_handle_open
  cases h0 : ensure_initialized env s with
  | none => exact Or.inl (quiet_refl s)
  | some s0 =>
    have q0 := quiet_ensure env s s0 h0
    simp only []
    by_cases hc : c = 0
    · simp only [hc, if_true]; exact Or.inl q0
    · simp only [hc]
      have q1 := quiet_trans q0 (quiet_sweep env.now s0)
      cases hf : find_free_client_slot (websocket_manager_cleanup_inactive_clients env.now s0).1.s_clients with
      | none => exact Or.inl q1
      | some slot =>
        right
        obtain ⟨pre, x, post, hl, hlen, hx, hpre⟩ := find_slot_eq_some _ _ _ hf
        refine ⟨hc, _, pre, x, post, q1, hl, by simpa using hx, fun y hy => by simpa using hpre y hy, ?_⟩
        simp only []
        rw [hl, ← hlen, modify_slot_split]
        simp

theorem idle_slots_open (env : Env) (c : Nat) (pre post : List websocket_client_t)
    (x : websocket_client_t) (h : IdleSlots (pre ++ x :: post)) :
    IdleSlots (pre ++ open_slot env c x :: post) := by
  intro y hy hact
  simp only [List.mem_append, List.mem_cons] at hy
  rcases hy with hy | rfl | hy
  · exact h y (by simp [hy]) hact
  · simp [open_slot] at hact
  · exact h y (by simp [hy]) hact

theorem idents_open (env : Env) (c : Nat) (pre post : List websocket_client_t)
    (x : websocket_client_t) (hx : x.active = false) :
    idents (pre ++ open_slot env c x :: post) = idents pre ++ (env.uuid, c) :: idents post ∧
    idents (pre ++ x :: post) = idents pre ++ idents post := by
  simp [idents_append, idents_cons, hx, open_slot, generate_client_id]

/-- Every public function keeps free client slots at `topic_count` 0 and free handler slots at
a NULL callback, websocket_manager_handle_open included. -/
theorem idle_handle_open (env : Env) (s : State) (c : Nat)
    (h : IdleSlots s.s_clients ∧ IdleHandlers s.s_handlers) :
    IdleSlots (websocket_manager_handle_open env s c).1.s_clients ∧
    IdleHandlers (websocket_manager_handle_open env s c).1.s_handlers := by
  rcases handle_open_cases env s c with q | ⟨_, s1, pre, x, post, q, hl, _, _, he⟩
  · exact ⟨q.1.2 h.1, q.2 h.2⟩
  · rw [he]
    refine ⟨idle_slots_open env c pre post x ?_, q.2 h.2⟩
    rw [← hl]; exact q.1.2 h.1

/-! ## Shutdown -/

theorem shutdown_client_fst (h : Heap) (c : websocket_client_t) :
    (shutdown_client h c).1 =
      if c.active = true then
        { c with active := false, topic_count := 0, topics := List.replicate MAX_TOPICS [] }
      else c := by
  unfold shutdown_client
  by_cases ha : c.active = true <;> simp [ha]

theorem shutdown_loop_mem (cs : List websocket_client_t) (h : Heap) :
    ∀ c ∈ (for_each_client shutdown_client cs h).1,
      c.active = false ∧ (c.topic_count = 0 ∨ c ∈ cs) := by
  induction cs generalizing h with
  | nil => simp [for_each_client]
  | cons a as ih =>
    intro c hc
    rw [for_each_client_cons] at hc
    rcases List.mem_cons.1 hc with heq | hmem
    · rw [shutdown_client_fst] at heq
      by_cases ha : a.active = true
      · simp only [ha, if_true] at heq
        rw [heq]; exact ⟨rfl, Or.inl rfl⟩
      · simp only [ha] at heq
        rw [heq]; exact ⟨by simpa using ha, Or.inr (List.mem_cons_self _ _)⟩
    · obtain ⟨h1, h2⟩ := ih _ c hmem
      exact ⟨h1, h2.imp id (List.mem_cons_of_mem _)⟩

theorem clear_conn_fields (c : websocket_client_t) :
    (clear_conn c).conn = 0 ∧ (clear_conn c).active = c.active ∧
    (clear_conn c).topic_count = c.topic_count := by
  unfold clear_conn
  by_cases h : c.conn = 0 <;> simp [h]

theorem idle_slots_clear_conn (cs : List websocket_client_t) (h : IdleSlots cs) :
    IdleSlots (cs.map clear_conn) := by
  intro c hc hact
  obtain ⟨x, hx, rfl⟩ := List.mem_map.1 hc
  rw [(clear_conn_fields x).2.2]
  exact h x hx (by rw [← (clear_conn_fields x).2.1]; exact hact)

theorem shutdown_handler_mem (hs : List websocket_handler_t) :
    ∀ h ∈ hs.map shutdown_handler, h.active = false ∧ (h.handler = 0 ∨ h ∈ hs) := by
  intro h hh
  obtain ⟨x, hx, rfl⟩ := List.mem_map.1 hh
  unfold shutdown_handler
  by_cases ha : x.active = true
  · simp [ha]
  · simp only [ha]
    exact ⟨by simpa using ha, Or.inr hx⟩

theorem idle_shutdown (env : Env) (s : State)
    (h : IdleSlots s.s_clients ∧ IdleHandlers s.s_handlers) :
    IdleSlots (websocket_manager_shutdown env s).1.s_clients ∧
    IdleHandlers (websocket_manager_shutdown env s).1.s_handlers := by
  unfold websocket_manager_shutdown
  by_cases hi : s.s_initialized = true
  · have hloop : IdleSlots (for_each_client shutdown_client s.s_clients s.heap).1 := by
      intro c hc hact
      rcases (shutdown_loop_mem s.s_clients s.heap c hc).2 with h0 | hm
      · exact h0
      · exact h.1 c hm hact
    have hhand : IdleHandlers (s.s_handlers.map shutdown_handler) := by
      intro x hx hact
      rcases (shutdown_handler_mem s.s_handlers x hx).2 with h0 | hm
      · exact h0
      · exact h.2 x hm hact
    by_cases h1 : (env.timedlock_ok || env.mutex_reset_ok) = true <;>
      by_cases h2 : env.relock_ok = true <;> simp only [hi, h1, h2] <;> simp
    · exact ⟨idle_slots_clear_conn _ hloop, hhand⟩
    · exact ⟨hloop, hhand⟩
    · exact ⟨idle_slots_clear_conn _ h.1, h.2⟩
    · exact h
  · simp [hi]; exact h

/-! ## Reachable states -/

theorem quiet_step (s : State) (op : Op)
    (hop : ∀ env c, op ≠ Op.handle_open env c) (hsh : ∀ env, op ≠ Op.shutdown env) :
    Quiet s (step s op) := by
  cases op with
  | init env => exact quiet_init env s
  | shutdown env => exact absurd rfl (hsh env)
  | handle_open env c => exact absurd rfl (hop env c)
  | handle_message env c data => exact quiet_handle_message env s c data
  | handle_close c => exact quiet_handle_close s c
  | send_to_client env id m => exact quiet_send_to_client env s id m
  | broadcast env t m => exact quiet_broadcast env s t m
  | is_subscribed env id t => exact quiet_is_subscribed env s id t
  | get_subscribed_clients env t out => exact quiet_get_subscribed_clients env s t out
  | register_handler env t h => exact quiet_register_handler env s t h

theorem idle_step (s : State) (op : Op)
    (h : IdleSlots s.s_clients ∧ IdleHandlers s.s_handlers) :
    IdleSlots (step s op).s_clients ∧ IdleHandlers (step s op).s_handlers := by
  cases op with
  | shutdown env => exact idle_shutdown env s h
  | handle_open env c => exact idle_handle_open env s c h
  | init env => exact ⟨(quiet_init env s).1.2 h.1, (quiet_init env s).2 h.2⟩
  | handle_message env c data =>
    exact ⟨(quiet_handle_message env s c data).1.2 h.1, (quiet_handle_message env s c data).2 h.2⟩
  | handle_close c => exact ⟨(quiet_handle_close s c).1.2 h.1, (quiet_handle_close s c).2 h.2⟩
  | send_to_client env id m =>
    exact ⟨(quiet_send_to_client env s id m).1.2 h.1, (quiet_send_to_client env s id m).2 h.2⟩
  | broadcast env t m =>
    exact ⟨(quiet_broadcast env s t m).1.2 h.1, (quiet_broadcast env s t m).2 h.2⟩
  | is_subscribed env id t =>
    exact ⟨(quiet_is_subscribed env s id t).1.2 h.1, (quiet_is_subscribed env s id t).2 h.2⟩
  | get_subscribed_clients env t out =>
    exact ⟨(quiet_get_subscribed_clients env s t out).1.2 h.1,
      (quiet_get_subscribed_clients env s t out).2 h.2⟩
  | register_handler env t hd =>
    exact ⟨(quiet_register_handler env s t hd).1.2 h.1, (quiet_register_handler env s t hd).2 h.2⟩

theorem idle_run (ops : List Op) (s : State)
    (h : IdleSlots s.s_clients ∧ IdleHandlers s.s_handlers) :
    IdleSlots (run s ops).s_clients ∧ IdleHandlers (run s ops).s_handlers := by
  induction ops generalizing s with
  | nil => exact h
  | cons op ops ih => exact ih (step s op) (idle_step s op h)

/-- In every reachable state a free client slot has `topic_count` 0 and a free handler slot
has a NULL callback. -/
theorem reachable_idle (s : State) (h : Reachable s) :
    IdleSlots s.s_clients ∧ IdleHandlers s.s_handlers := by
  obtain ⟨heap, ops, rfl⟩ := h
  apply idle_run
  constructor
  · intro c hc _
    rw [(List.mem_replicate.1 hc).2]; rfl
  · exact idle_handlers_replicate _

/-- C10, as the code has it: after websocket_manager_shutdown on an initialized manager, the
shared mutex acquired or successfully reconstructed and the later pthread_mutex_lock
succeeding, the flag is false, every client slot is inactive with a NULL connection and
topic_count 0, and every handler slot is inactive with a NULL callback. -/
theorem shutdown_clears_tables (env : Env) (s : State) (hreach : Reachable s)
    (hinit : s.s_initialized = true)
    (hmutex : env.timedlock_ok = true ∨ env.mutex_reset_ok = true)
    (hrelock : env.relock_ok = true) :
    (websocket_manager_shutdown env s).1.s_initialized = false ∧
    (∀ c ∈ (websocket_manager_shutdown env s).1.s_clients,
      c.active = false ∧ c.conn = 0 ∧ c.topic_count = 0) ∧
    (∀ h ∈ (websocket_manager_shutdown env s).1.s_handlers,
      h.active = false ∧ h.handler = 0) := by
  obtain ⟨hslots, hhandlers⟩ := reachable_idle s hreach
  refine ⟨shutdown_clears_flag env s, ?_, ?_⟩
  · have hm : (env.timedlock_ok || env.mutex_reset_ok) = true := by simpa using hmutex
    intro c hc
    simp only [websocket_manager_shutdown, hinit, hm, hrelock] at hc
    simp at hc
    obtain ⟨x, hx, rfl⟩ := hc
    obtain ⟨h1, h2⟩ := shutdown_loop_mem s.s_clients s.heap x hx
    obtain ⟨f1, f2, f3⟩ := clear_conn_fields x
    refine ⟨by rw [f2, h1], f1, ?_⟩
    rw [f3]
    rcases h2 with h0 | hm2
    · exact h0
    · exact hslots x hm2 h1
  · have hm : (env.timedlock_ok || env.mutex_reset_ok) = true := by simpa using hmutex
    intro h hh
    simp only [websocket_manager_shutdown, hinit, hm, hrelock] at hh
    simp at hh
    obtain ⟨x, hx, rfl⟩ := hh
    obtain ⟨h1, h2⟩ := shutdown_handler_mem s.s_handlers _ (List.mem_map_of_mem _ hx)
    refine ⟨h1, ?_⟩
    rcases h2 with h0 | hm2
    · exact h0
    · exact hhandlers _ hm2 h1

theorem shutdown_clears_tables_witness :
    (websocket_manager_shutdown (env_ok 9 [] none) one_client_state).1.s_initialized = false ∧
    (∀ c ∈ (websocket_manager_shutdown (env_ok 9 [] none) one_client_state).1.s_clients,
      c.active = false ∧ c.conn = 0 ∧ c.topic_count = 0) ∧
    (∀ h ∈ (websocket_manager_shutdown (env_ok 9 [] none) one_client_state).1.s_handlers,
      h.active = false ∧ h.handler = 0) :=
  shutdown_clears_tables (env_ok 9 [] none) one_client_state ⟨open_heap, _, rfl⟩ (by decide)
    (Or.inl rfl) rfl

/-- C10, as stated, fails: with the shared mutex acquired by the timed lock but the later
pthread_mutex_lock failing, websocket_manager_shutdown on a running manager with one client
leaves that slot holding its connection reference 7. -/
theorem shutdown_keeps_conn_when_relock_fails :
    Reachable one_client_state ∧ one_client_state.s_initialized = true ∧
    env_no_relock.timedlock_ok = true ∧
    (client_at (websocket_manager_shutdown env_no_relock one_client_state).1.s_clients 0).conn = 7 ∧
    ¬ (∀ c ∈ (websocket_manager_shutdown env_no_relock one_client_state).1.s_clients,
      c.active = false ∧ c.conn = 0 ∧ c.topic_count = 0) :=
  ⟨⟨open_heap, _, rfl⟩, by decide, rfl, by decide, by decide⟩

/-! ## One active client per connection -/

theorem unique_conns_of_quiet (s t : State) (q : Quiet s t) (h : UniqueConns s) :
    UniqueConns t := by
  unfold UniqueConns at h ⊢
  rw [active_conns_eq] at h ⊢
  exact (q.1.1.map Prod.snd).nodup h

theorem unique_conns_handle_open (env : Env) (s : State) (c : Nat) (h : UniqueConns s)
    (hc : c ∉ active_conns s.s_clients) :
    UniqueConns (websocket_manager_handle_open env s c).1 := by
  rcases handle_open_cases env s c with q | ⟨_, s1, pre, x, post, q, hl, hx, _, he⟩
  · exact unique_conns_of_quiet s _ q h
  · have hsub : List.Sublist (idents pre ++ idents post) (idents s.s_clients) := by
      have := q.1.1
      rw [hl, (idents_open env c pre post x hx).2] at this
      exact this
    unfold UniqueConns at h ⊢
    rw [active_conns_eq] at h hc ⊢
    rw [he]
    simp only []
    rw [(idents_open env c pre post x hx).1]
    have hn := (hsub.map Prod.snd).nodup h
    have hnot : c ∉ (idents pre ++ idents post).map Prod.snd :=
      fun hm => hc ((hsub.map Prod.snd).subset hm)
    simp only [List.map_append, List.map_cons] at hn hnot ⊢
    exact List.nodup_middle.2 (List.nodup_cons.2 ⟨hnot, hn⟩)

theorem unique_conns_run (ops : List Op) (s : State) (h : UniqueConns s)
    (hops : opens_fresh s ops = true) : UniqueConns (run s ops) := by
  induction ops generalizing s with
  | nil => exact h
  | cons op ops ih =>
    simp only [opens_fresh, Bool.and_eq_true] at hops
    refine ih (step s op) ?_ hops.2
    cases op with
    | handle_open env c =>
      exact unique_conns_handle_open env s c h (by simpa using hops.1)
    | shutdown env => simp at hops
    | init env => exact unique_conns_of_quiet s _ (quiet_init env s) h
    | handle_message env c data =>
      exact unique_conns_of_quiet s _ (quiet_handle_message env s c data) h
    | handle_close c => exact unique_conns_of_quiet s _ (quiet_handle_close s c) h
    | send_to_client env id m =>
      exact unique_conns_of_quiet s _ (quiet_send_to_client env s id m) h
    | broadcast env t m => exact unique_conns_of_quiet s _ (quiet_broadcast env s t m) h
    | is_subscribed env id t =>
      exact unique_conns_of_quiet s _ (quiet_is_subscribed env s id t) h
    | get_subscribed_clients env t out =>
      exact unique_conns_of_quiet s _ (quiet_get_subscribed_clients env s t out) h
    | register_handler env t hd =>
      exact unique_conns_of_quiet s _ (quiet_register_handler env s t hd) h

theorem unique_conns_boot (heap : Heap) : UniqueConns (boot heap) := by
  unfold UniqueConns
  rw [active_conns_eq]
  simp [boot, idents_replicate_zero]

/-- C7, as the code has it: in every state reached from websocket_manager_init through calls
of handle_open, handle_message, handle_close, broadcast, send_to_client and
get_subscribed_clients (also init, is_subscribed, register_handler), where every handle_open
is for a connection no active slot holds at that moment, no two active client slots hold the
same connection reference. -/
theorem unique_connection_invariant (heap : Heap) (env : Env) (ops : List Op)
    (hops : opens_fresh (websocket_manager_init env (boot heap)).1 ops = true) :
    UniqueConns (run (websocket_manager_init env (boot heap)).1 ops) :=
  unique_conns_run ops _
    (unique_conns_of_quiet _ _ (quiet_init env (boot heap)) (unique_conns_boot heap)) hops

theorem unique_connection_invariant_witness :
    active_conns (run (websocket_manager_init (env_ok 0 [] none) (boot open_heap)).1
      tidy_run).s_clients = [7, 8] ∧
    UniqueConns (run (websocket_manager_init (env_ok 0 [] none) (boot open_heap)).1 tidy_run) :=
  ⟨by decide, unique_connection_invariant open_heap (env_ok 0 [] none) tidy_run (by decide)⟩

/-- C7, as stated, fails: two websocket_manager_handle_open calls for connection 7 on a
freshly initialized manager leave slots 0 and 1 both active with connection reference 7. -/
theorem double_open_shares_connection :
    active_conns (run (websocket_manager_init (env_ok 0 [] none) (boot open_heap)).1
      double_open).s_clients = [7, 7] ∧
    ¬ UniqueConns (run (websocket_manager_init (env_ok 0 [] none) (boot open_heap)).1
      double_open) := by
  have h : active_conns (run (websocket_manager_init (env_ok 0 [] none) (boot open_heap)).1
      double_open).s_clients = [7, 7] := by decide
  refine ⟨h, ?_⟩
  unfold UniqueConns
  rw [h]
  decide

/-! ## Connection close -/

theorem active_ids_of_quiet (s t : State) (q : Quiet s t) :
    ∀ id ∈ active_ids t.s_clients, id ∈ active_ids s.s_clients := by
  intro id hid
  rw [active_ids_eq] at hid ⊢
  exact (q.1.1.map Prod.fst).subset hid

theorem active_ids_handle_open (env : Env) (s : State) (c : Nat) :
    ∀ id ∈ active_ids (websocket_manager_handle_open env s c).1.s_clients,
      id ∈ active_ids s.s_clients ∨ id = env.uuid := by
  intro id hid
  rcases handle_open_cases env s c with q | ⟨_, s1, pre, x, post, q, hl, hx, _, he⟩
  · exact Or.inl (active_ids_of_quiet s _ q id hid)
  · rw [he, active_ids_eq] at hid
    simp only [] at hid
    rw [(idents_open env c pre post x hx).1] at hid
    have hsub := q.1.1
    rw [hl, (idents_open env c pre post x hx).2] at hsub
    simp only [List.map_append, List.map_cons, List.mem_append, List.mem_cons] at hid
    rw [active_ids_eq]
    rcases hid with h1 | h1 | h1
    · exact Or.inl ((hsub.map Prod.fst).subset (by simp [h1]))
    · exact Or.inr h1
    · exact Or.inl ((hsub.map Prod.fst).subset (by simp [h1]))

theorem active_ids_clear_conn (cs : List websocket_client_t) :
    active_ids (cs.map clear_conn) = active_ids cs := by
  induction cs with
  | nil => rfl
  | cons a as ih =>
    unfold active_ids at ih ⊢
    have h1 : (clear_conn a).active = a.active := (clear_conn_fields a).2.1
    have h2 : (clear_conn a).id = a.id := by
      unfold clear_conn; by_cases h : a.conn = 0 <;> simp [h]
    by_cases ha : a.active = true
    · simp only [List.map_cons, List.filter_cons, h1, ha, if_true, h2, ih]
    · simp only [List.map_cons, List.filter_cons, h1, ha]
      simpa using ih

theorem active_ids_shutdown_loop (cs : List websocket_client_t) (h : Heap) :
    active_ids (for_each_client shutdown_client cs h).1 = [] := by
  unfold active_ids
  rw [List.map_eq_nil_iff, List.filter_eq_nil_iff]
  intro c hc
  simp [(shutdown_loop_mem cs h c hc).1]

theorem active_ids_shutdown (env : Env) (s : State) :
    ∀ id ∈ active_ids (websocket_manager_shutdown env s).1.s_clients,
      id ∈ active_ids s.s_clients := by
  intro id hid
  unfold websocket_manager_shutdown at hid
  by_cases hi : s.s_initialized = true
  · by_cases h1 : (env.timedlock_ok || env.mutex_reset_ok) = true <;>
      by_cases h2 : env.relock_ok = true <;> simp only [hi, h1, h2] at hid <;> simp at hid
    · rw [active_ids_clear_conn, active_ids_shutdown_loop] at hid
      cases hid
    · rw [active_ids_shutdown_loop] at hid
      cases hid
    · rw [active_ids_clear_conn] at hid
      exact hid
    · exact hid
  · simp [hi] at hid; exact hid

theorem active_ids_step (s : State) (op : Op) :
    ∀ id ∈ active_ids (step s op).s_clients,
      id ∈ active_ids s.s_clients ∨ ∃ env c, op = Op.handle_open env c ∧ id = env.uuid := by
  intro id hid
  cases op with
  | handle_open env c =>
    rcases active_ids_handle_open env s c id hid with h | h
    · exact Or.inl h
    · exact Or.inr ⟨env, c, rfl, h⟩
  | shutdown env => exact Or.inl (active_ids_shutdown env s id hid)
  | init env => exact Or.inl (active_ids_of_quiet s _ (quiet_init env s) id hid)
  | handle_message env c data =>
    exact Or.inl (active_ids_of_quiet s _ (quiet_handle_message env s c data) id hid)
  | handle_close c => exact Or.inl (active_ids_of_quiet s _ (quiet_handle_close s c) id hid)
  | send_to_client env i m =>
    exact Or.inl (active_ids_of_quiet s _ (quiet_send_to_client env s i m) id hid)
  | broadcast env t m =>
    exact Or.inl (active_ids_of_quiet s _ (quiet_broadcast env s t m) id hid)
  | is_subscribed env i t =>
    exact Or.inl (active_ids_of_quiet s _ (quiet_is_subscribed env s i t) id hid)
  | get_subscribed_clients env t out =>
    exact Or.inl (active_ids_of_quiet s _ (quiet_get_subscribed_clients env s t out) id hid)
  | register_handler env t hd =>
    exact Or.inl (active_ids_of_quiet s _ (quiet_register_handler env s t hd) id hid)

theorem absent_id_run (X : CStr) (ops : List Op) (s : State)
    (h : X ∉ active_ids s.s_clients)
    (hops : ∀ env c, Op.handle_open env c ∈ ops → env.uuid ≠ X) :
    X ∉ active_ids (run s ops).s_clients := by
  induction ops generalizing s with
  | nil => exact h
  | cons op ops ih =>
    refine ih (step s op) ?_ (fun env c hm => hops env c (List.mem_cons_of_mem _ hm))
    intro hm
    rcases active_ids_step s op X hm with h1 | ⟨env, c, rfl, h1⟩
    · exact h h1
    · exact hops env c (List.mem_cons_self _ _) h1.symm

theorem find_client_by_id_absent (cs : List websocket_client_t) (X : CStr)
    (h : X ∉ active_ids cs) : find_client_by_id cs X = none := by
  unfold find_client_by_id
  rw [find_slot_eq_none]
  intro x hx
  by_cases ha : x.active = true
  · have : x.id ≠ X := by
      intro he
      apply h
      unfold active_ids
      exact List.mem_map.2 ⟨x, List.mem_filter.2 ⟨hx, ha⟩, he⟩
    simp [this]
  · simp [ha]

theorem send_to_absent_client (env : Env) (s : State) (X : CStr)
    (m : Option websocket_message_t) (h : X ∉ active_ids s.s_clients) :
    (websocket_manager_send_to_client env s (some X) m).2.2 = false := by
  unfold websocket_manager_send_to_client
  cases h0 : ensure_initialized env s with
  | none => rfl
  | some s0 =>
    have hab : X ∉ active_ids s0.s_clients :=
      fun hm => h (active_ids_of_quiet s s0 (quiet_ensure env s s0 h0) X hm)
    cases m with
    | none => rfl
    | some m => simp [find_client_by_id_absent _ X hab]

theorem is_subscribed_absent_client (env : Env) (s : State) (X : CStr) (t : Option CStr)
    (h : X ∉ active_ids s.s_clients) :
    (websocket_manager_is_subscribed env s (some X) t).2 = false := by
  unfold websocket_manager_is_subscribed
  cases h0 : ensure_initialized env s with
  | none => rfl
  | some s0 =>
    have hab : X ∉ active_ids s0.s_clients :=
      fun hm => h (active_ids_of_quiet s s0 (quiet_ensure env s s0 h0) X hm)
    cases t with
    | none => rfl
    | some t => simp [find_client_by_id_absent _ X hab]

theorem listing_subset_active_ids (env : Env) (s : State) (t : Option CStr) (out : Bool) :
    ∀ id ∈ (websocket_manager_get_subscribed_clients env s t out).2.2.2,
      id ∈ active_ids s.s_clients := by
  intro id hid
  unfold websocket_manager_get_subscribed_clients at hid
  cases h0 : ensure_initialized env s with
  | none => simp [h0] at hid
  | some s0 =>
    have q0 := quiet_ensure env s s0 h0
    cases t with
    | none => simp [h0] at hid
    | some t =>
      cases out with
      | false => simp [h0] at hid
      | true =>
        simp only [h0] at hid
        obtain ⟨x, hx, rfl⟩ := List.mem_map.1 hid
        rw [List.mem_filter] at hx
        apply active_ids_of_quiet s _ (quiet_trans q0 (quiet_sweep env.now s0))
        unfold active_ids
        refine List.mem_map.2 ⟨x, List.mem_filter.2 ⟨hx.1, ?_⟩, rfl⟩
        have := hx.2
        simp [listed] at this
        simpa using this.1

/-- After websocket_manager_handle_close for the connection of a client, in a state with at
most one active client per id and per connection, no active slot holds the id of that
client. -/
theorem handle_close_removes_id (s : State) (c : Nat) (X : CStr)
    (hinit : s.s_initialized = true) (hc : c ≠ 0)
    (hids : UniqueIds s) (hconns : UniqueConns s)
    (hX : ∃ cl ∈ s.s_clients, cl.active = true ∧ cl.conn = c ∧ cl.id = X) :
    X ∉ active_ids (websocket_manager_handle_close s c).s_clients := by
  obtain ⟨cl, hcl, hact, hconn, hid⟩ := hX
  unfold websocket_manager_handle_close remove_client_by_connection
  simp only [websocket_manager_is_initialized, hinit, hc]
  cases hf : find_client_by_connection s.s_clients c with
  | none =>
    exfalso
    unfold find_client_by_connection at hf
    rw [find_slot_eq_none] at hf
    have := hf cl hcl
    simp [hact, hconn] at this
  | some i =>
    obtain ⟨pre, x, post, hl, hlen, hx, _⟩ := find_slot_eq_some _ _ _ hf
    simp only [Bool.and_eq_true, decide_eq_true_eq] at hx
    have hxmem : x ∈ s.s_clients.filter (fun c => c.active) :=
      List.mem_filter.2 ⟨by rw [hl]; simp, hx.1⟩
    have hclmem : cl ∈ s.s_clients.filter (fun c => c.active) := List.mem_filter.2 ⟨hcl, hact⟩
    have hsame : cl = x :=
      List.inj_on_of_nodup_map hconns hclmem hxmem (by rw [hconn, hx.2])
    subst hsame
    unfold UniqueIds at hids
    rw [active_ids_eq, hl] at hids
    simp only [Bool.not_true, Bool.false_eq_true, if_false]
    rw [hl, ← hlen, modify_slot_split, active_ids_eq]
    simp only [idents_append, idents_cons, hact, if_true, List.map_append, List.map_cons] at hids
    simp only [idents_append, idents_cons, deactivate, List.map_append]
    have := List.nodup_middle.1 hids
    rw [List.nodup_cons] at this
    simpa [hid] using this.1

/-- C4, as the code has it: in an initialized state with at most one active client per id and
per connection, after websocket_manager_handle_close(c) for the non-null connection c of an
active client with id X, and after any further calls among which no handle_open is assigned
the id X, get_subscribed_clients does not list X, send_to_client(X, m) returns false and
is_subscribed(X, t) returns false, for every topic t and message m. -/
theorem close_forgets_client (env : Env) (s : State) (c : Nat) (X : CStr) (ops : List Op)
    (t : Option CStr) (m : Option websocket_message_t) (out : Bool)
    (hinit : s.s_initialized = true) (hc : c ≠ 0)
    (hids : UniqueIds s) (hconns : UniqueConns s)
    (hX : ∃ cl ∈ s.s_clients, cl.active = true ∧ cl.conn = c ∧ cl.id = X)
    (hops : ∀ env0 c0, Op.handle_open env0 c0 ∈ ops → env0.uuid ≠ X) :
    X ∉ (websocket_manager_get_subscribed_clients env
      (run (websocket_manager_handle_close s c) ops) t out).2.2.2 ∧
    (websocket_manager_send_to_client env
      (run (websocket_manager_handle_close s c) ops) (some X) m).2.2 = false ∧
    (websocket_manager_is_subscribed env
      (run (websocket_manager_handle_close s c) ops) (some X) t).2 = false := by
  have habs := absent_id_run X ops _ (handle_close_removes_id s c X hinit hc hids hconns hX) hops
  exact ⟨fun hm => habs (listing_subset_active_ids env _ t out X hm),
    send_to_absent_client env _ X m habs, is_subscribed_absent_client env _ X t habs⟩

theorem close_forgets_client_witness :
    ascii "id-2" ∉ (websocket_manager_get_subscribed_clients (env_ok 3 [] none)
      (run (websocket_manager_handle_close tidy_state 8) [Op.handle_close 7])
      (some (ascii "t")) true).2.2.2 ∧
    (websocket_manager_send_to_client (env_ok 3 [] none)
      (run (websocket_manager_handle_close tidy_state 8) [Op.handle_close 7])
      (some (ascii "id-2")) (some hello)).2.2 = false ∧
    (websocket_manager_is_subscribed (env_ok 3 [] none)
      (run (websocket_manager_handle_close tidy_state 8) [Op.handle_close 7])
      (some (ascii "id-2")) (some (ascii "t"))).2 = false :=
  close_forgets_client (env_ok 3 [] none) tidy_state 8 (ascii "id-2") [Op.handle_close 7]
    (some (ascii "t")) (some hello) true (by decide) (by decide)
    (by unfold UniqueIds; decide) (by unfold UniqueConns; decide) (by decide)
    (by intro env0 c0 h; simp at h)

/-- C4, as stated, fails: after two opens of connection 7 (clients id-1 and id-2),
websocket_manager_handle_close(7) frees only the slot of id-1; connection 7 belongs to the
active client id-2, and websocket_manager_send_to_client for id-2 still returns true. -/
theorem close_leaves_second_client :
    Reachable shared_state ∧ shared_state.s_initialized = true ∧
    (∃ cl ∈ shared_state.s_clients, cl.active = true ∧ cl.conn = 7 ∧ cl.id = ascii "id-2") ∧
    (websocket_manager_send_to_client (env_ok 1 [] none)
      (websocket_manager_handle_close shared_state 7) (some (ascii "id-2")) (some hello)).2.2 =
        true :=
  ⟨⟨open_heap, _, rfl⟩, by decide, by decide, by decide⟩

/-! ## Client creation -/

theorem idents_length_of_full (l : List websocket_client_t)
    (h : find_free_client_slot l = none) : (idents l).length = l.length := by
  unfold find_free_client_slot at h
  rw [find_slot_eq_none] at h
  unfold idents
  rw [List.length_map, List.filter_eq_self.2]
  intro x hx
  simpa using h x hx

theorem sweep_state_fields (now : Int) (s : State) :
    (websocket_manager_cleanup_inactive_clients now s).1.s_initialized = s.s_initialized ∧
    (websocket_manager_cleanup_inactive_clients now s).1.s_clients.length = s.s_clients.length ∧
    (websocket_manager_cleanup_inactive_clients now s).1.s_handlers = s.s_handlers := by
  simp [websocket_manager_cleanup_inactive_clients, for_each_client_length]

/-- On an initialized manager with a free slot left, websocket_manager_handle_open for a
non-null connection takes the first free slot of the swept table. -/
theorem handle_open_creates (env : Env) (s : State) (c : Nat)
    (hinit : s.s_initialized = true) (hc : c ≠ 0)
    (hroom : (idents s.s_clients).length < s.s_clients.length) :
    ∃ pre x post,
      (websocket_manager_cleanup_inactive_clients env.now s).1.s_clients = pre ++ x :: post ∧
      x.active = false ∧ opened_slot env s c = some pre.length ∧
      (websocket_manager_handle_open env s c).1 =
        { (websocket_manager_cleanup_inactive_clients env.now s).1 with
          s_clients := pre ++ open_slot env c x :: post } := by
  unfold websocket_manager_handle_open opened_slot
  rw [ensure_initialized_of_initialized env s hinit]
  simp only [hc, if_false]
  cases hf : find_free_client_slot (websocket_manager_cleanup_inactive_clients env.now s).1.s_clients with
  | none =>
    exfalso
    have h1 := idents_length_of_full _ hf
    have h2 := (quiet_sweep env.now s).1.1.length_le
    have h3 := (sweep_state_fields env.now s).2.1
    omega
  | some slot =>
    obtain ⟨pre, x, post, hl, hlen, hx, _⟩ := find_slot_eq_some _ _ _ hf
    refine ⟨pre, x, post, hl, by simpa using hx, by rw [hlen], ?_⟩
    simp only []
    rw [hl, ← hlen, modify_slot_split]

theorem opens_create_of_room (calls : List (Env × Nat)) (s : State)
    (hinit : s.s_initialized = true)
    (hroom : (idents s.s_clients).length + calls.length ≤ s.s_clients.length)
    (hids : UniqueIds s)
    (hnew : ∀ id ∈ active_ids s.s_clients, id ∉ calls.map (fun call => call.1.uuid))
    (hconn : ∀ call ∈ calls, call.2 ≠ 0)
    (hfresh : generate_uuid_fresh (calls.map (fun call => call.1.uuid))) :
    opens_create s calls := by
  induction calls generalizing s with
  | nil => trivial
  | cons call rest ih =>
    obtain ⟨env, c⟩ := call
    simp only [List.length_cons] at hroom
    have hc : c ≠ 0 := hconn (env, c) (List.mem_cons_self _ _)
    obtain ⟨pre, x, post, hl, hx, hslot, he⟩ :=
      handle_open_creates env s c hinit hc (by omega)
    have hsub : List.Sublist (idents pre ++ idents post) (idents s.s_clients) := by
      have := (quiet_sweep env.now s).1.1
      rw [hl, (idents_open env c pre post x hx).2] at this
      exact this
    have hnodup := List.nodup_cons.1 hfresh
    simp only [List.map_cons] at hnodup
    have huuid : env.uuid ∉ active_ids s.s_clients :=
      fun hm => hnew _ hm (by simp)
    have hids2 : UniqueIds (websocket_manager_handle_open env s c).1 := by
      unfold UniqueIds at hids ⊢
      rw [active_ids_eq] at hids huuid ⊢
      rw [he]
      simp only []
      rw [(idents_open env c pre post x hx).1]
      have hn := (hsub.map Prod.fst).nodup hids
      have hnot : env.uuid ∉ (idents pre ++ idents post).map Prod.fst :=
        fun hm => huuid ((hsub.map Prod.fst).subset hm)
      simp only [List.map_append, List.map_cons] at hn hnot ⊢
      exact List.nodup_middle.2 (List.nodup_cons.2 ⟨hnot, hn⟩)
    refine ⟨⟨pre.length, hslot, ?_⟩, hids2, ?_⟩
    · rw [he]
      simp only []
      rw [client_at_split]
      simp [open_slot, generate_client_id]
    · apply ih
      · rw [he]; exact (sweep_state_fields env.now s).1.trans hinit
      · have hlen1 : (websocket_manager_handle_open env s c).1.s_clients.length =
            s.s_clients.length := by
          rw [he]
          simp only []
          have := (sweep_state_fields env.now s).2.1
          rw [hl] at this
          simpa using this
        have hlen2 : (idents (websocket_manager_handle_open env s c).1.s_clients).length ≤
            (idents s.s_clients).length + 1 := by
          rw [he]
          simp only []
          rw [(idents_open env c pre post x hx).1]
          have := hsub.length_le
          simp only [List.length_append, List.length_cons] at this ⊢
          omega
        show (idents (websocket_manager_handle_open env s c).1.s_clients).length + rest.length ≤
          (websocket_manager_handle_open env s c).1.s_clients.length
        omega
      · exact hids2
      · intro id hid hmem
        rcases active_ids_handle_open env s c id hid with h1 | h1
        · exact hnew id h1 (by simp [hmem])
        · exact hnodup.1 (h1 ▸ hmem)
      · exact fun call hcall => hconn call (List.mem_cons_of_mem _ hcall)
      · exact hnodup.2

/-- C6: on a freshly initialized manager, in every sequence of at most MAX_CLIENTS (100)
websocket_manager_handle_open calls for non-null connections, with the ids generate_uuid
writes pairwise distinct, every call creates a client carrying the generated id, and after
every call there is at most one active client per id. -/
theorem opens_create_distinct_clients (env0 : Env) (s : State) (calls : List (Env × Nat))
    (hs : s.s_initialized = false) (hm : env0.mutex_init_ok = true)
    (hlen : calls.length ≤ MAX_CLIENTS) (hconn : ∀ call ∈ calls, call.2 ≠ 0)
    (hfresh : generate_uuid_fresh (calls.map (fun call => call.1.uuid))) :
    opens_create (websocket_manager_init env0 s).1 calls := by
  have hst : (websocket_manager_init env0 s).1 =
      { s with s_clients := List.replicate MAX_CLIENTS zero_client,
               s_handlers := List.replicate MAX_HANDLERS zero_handler,
               s_initialized := true } := by
    simp [websocket_manager_init, hs, hm]
  rw [hst]
  apply opens_create_of_room
  · rfl
  · simp only [idents_replicate_zero, List.length_replicate, List.length_nil]
    omega
  · unfold UniqueIds
    rw [active_ids_eq]
    simp [idents_replicate_zero]
  · intro id hid
    rw [active_ids_eq] at hid
    simp [idents_replicate_zero] at hid
  · exact hconn
  · exact hfresh

theorem opens_create_distinct_clients_witness :
    opens_create (websocket_manager_init (env_ok 0 [] none) (boot open_heap)).1 two_opens :=
  opens_create_distinct_clients (env_ok 0 [] none) (boot open_heap) two_opens rfl rfl
    (by decide) (by decide) (by unfold generate_uuid_fresh; decide)

/-! ## Topics longer than a table entry -/

/-- C1 at a failing input: two `subscribe` messages for a 64-byte topic leave the client with
topic_count 2 and two equal entries, the 63-byte truncation of the topic, while two
`subscribe` messages for the topic `t` leave exactly one entry. -/
theorem subscribe_twice_long_topic :
    subscribed_topics (client_at
      (run one_client_state [subscribe_on_7 long_topic]).s_clients 0) =
        [strncpy64 long_topic] ∧
    (client_at (run one_client_state
      [subscribe_on_7 long_topic, subscribe_on_7 long_topic]).s_clients 0).topic_count = 2 ∧
    subscribed_topics (client_at (run one_client_state
      [subscribe_on_7 long_topic, subscribe_on_7 long_topic]).s_clients 0) =
        [strncpy64 long_topic, strncpy64 long_topic] ∧
    subscribed_topics (client_at (run one_client_state
      [subscribe_on_7 (ascii "t"), subscribe_on_7 (ascii "t")]).s_clients 0) = [ascii "t"] := by
  decide

/-- C2 at a failing input: the client on connection 7 has no topics; after a `subscribe` and
then an `unsubscribe` message for a 64-byte topic its topic_count is 1 and its topic list holds
the 63-byte truncation, while for the topic `t` the same two messages leave it empty. -/
theorem subscribe_unsubscribe_long_topic :
    (client_at one_client_state.s_clients 0).topic_count = 0 ∧
    long_topic ∉ subscribed_topics (client_at one_client_state.s_clients 0) ∧
    (client_at (run one_client_state
      [subscribe_on_7 long_topic, unsubscribe_on_7 long_topic]).s_clients 0).topic_count = 1 ∧
    subscribed_topics (client_at (run one_client_state
      [subscribe_on_7 long_topic, unsubscribe_on_7 long_topic]).s_clients 0) =
        [strncpy64 long_topic] ∧
    subscribed_topics (client_at (run one_client_state
      [subscribe_on_7 (ascii "t"), unsubscribe_on_7 (ascii "t")]).s_clients 0) = [] := by
  decide

/-! ## Broadcast -/

set_option maxRecDepth 8000

/-- C3, as stated, fails: clients id-3 and id-2 are active, subscribed to `t` and share
connection 7; when the first send fails, websocket_manager_broadcast marks connection 7
closing and attempts no send for the second client. -/
theorem broadcast_skips_shared_connection :
    Reachable shared_subscribers ∧
    (broadcast_targets env_send_fails shared_subscribers (ascii "t")).map (fun c => c.id) =
      [ascii "id-3", ascii "id-2"] ∧
    (websocket_manager_broadcast env_send_fails shared_subscribers (some (ascii "t"))
      (some hello)).2.1 = [Event.send_text 7 []] :=
  ⟨⟨open_heap, _, rfl⟩, by decide, by decide⟩

theorem find_client_before (p : websocket_client_t → Bool) (pre : List websocket_client_t)
    (x : websocket_client_t) (post : List websocket_client_t) (hx : p x = true) :
    ∃ k y, find_slot p (pre ++ x :: post) = some k ∧ y ∈ pre ++ [x] ∧ p y = true ∧
      client_at (pre ++ x :: post) k = y := by
  induction pre with
  | nil => exact ⟨0, x, by simp [find_slot, hx], by simp, hx, rfl⟩
  | cons a as ih =>
    by_cases ha : p a = true
    · exact ⟨0, a, by simp [find_slot, ha], by simp, ha, rfl⟩
    · obtain ⟨k, y, hk, hy, hpy, hat⟩ := ih
      refine ⟨k + 1, y, by simp [find_slot, ha, hk], by simp at hy ⊢; tauto, hpy, ?_⟩
      simpa [client_at] using hat

theorem positive_results_le (env : Env) (i n : Nat) : positive_results env i n ≤ n := by
  induction n generalizing i with
  | zero => simp [positive_results]
  | succ n ih =>
    have := ih (i + 1)
    unfold positive_results
    split <;> omega

theorem broadcast_snapshot_cons (c : websocket_client_t) (cs : List websocket_client_t)
    (t : CStr) :
    broadcast_snapshot (c :: cs) t =
      if broadcast_selects t c = true then (c.conn, strncpy64 c.id) :: broadcast_snapshot cs t
      else broadcast_snapshot cs t := by
  by_cases h : broadcast_selects t c = true <;> simp [broadcast_snapshot, List.filter_cons, h]

/-- The send loop over the snapshot of a table suffix: with at most one active slot per
connection, live connections on every active slot of the suffix and ids that fit their field,
it sends one frame per selected client, in slot order, and counts the positive results. -/
theorem broadcast_send_suffix (env : Env) (clients : List websocket_client_t) (json : CStr)
    (t : CStr) (hn : (active_conns clients).Nodup)
    (hconn : ∀ c ∈ clients, c.active = true → c.conn ≠ 0)
    (hfit : ∀ c ∈ clients, c.id.length ≤ 63) :
    ∀ (suffix pre : List websocket_client_t) (i : Nat) (h : Heap),
      clients = pre ++ suffix →
      (∀ c ∈ suffix, c.active = true → (h c.conn).is_closing = false) →
      (broadcast_send env clients json (broadcast_snapshot suffix t) i h).2 =
        ((suffix.filter (broadcast_selects t)).map (fun c => Event.send_text c.conn json),
          ((positive_results env i (suffix.filter (broadcast_selects t)).length : Nat) : Int)) := by
  intro suffix
  induction suffix with
  | nil =>
    intro pre i h _ _
    simp [broadcast_snapshot, broadcast_send, positive_results]
  | cons c cs ih =>
    intro pre i h hsplit hlive
    have hsplit2 : clients = (pre ++ [c]) ++ cs := by simp [hsplit]
    have hlive2 : ∀ c' ∈ cs, c'.active = true → (h c'.conn).is_closing = false :=
      fun c' hc' => hlive c' (List.mem_cons_of_mem _ hc')
    rw [broadcast_snapshot_cons]
    by_cases hsel : broadcast_selects t c = true
    · have hact : c.active = true := by
        simp [broadcast_selects] at hsel; exact hsel.1.1
      have hc0 : c.conn ≠ 0 := by
        simp [broadcast_selects] at hsel; exact hsel.1.2
      have hopen : (h c.conn).is_closing = false := hlive c (List.mem_cons_self _ _) hact
      simp only [hsel, if_true, List.filter_cons, List.map_cons, List.length_cons]
      unfold broadcast_send
      simp only [hc0, hopen, ne_eq, not_false_eq_true, and_self, if_true]
      by_cases hres : env.send_result i > 0
      · simp only [hres, if_true]
        have := ih (pre ++ [c]) (i + 1) h hsplit2 hlive2
        rw [Prod.ext_iff] at this
        simp only [] at this
        rw [Prod.ext_iff]
        simp only [this.1, this.2, positive_results, hres, if_true]
        refine ⟨trivial, ?_⟩
        push_cast
        omega
      · simp only [hres, if_false]
        have hid : strncpy64 c.id = c.id :=
          List.take_of_length_le (hfit c (by rw [hsplit]; simp))
        obtain ⟨k, y, hk, hy, hpy, hat⟩ :=
          find_client_before (fun c' => c'.active && decide (c'.id = c.id)) pre c cs
            (by simp [hact])
        have hyact : y.active = true := by
          simp only [Bool.and_eq_true] at hpy; exact hpy.1
        have hymem : y ∈ clients := by
          rw [hsplit2]; exact List.mem_append_left _ hy
        have hy0 : y.conn ≠ 0 := hconn y hymem hyact
        have hfind : find_client_by_id clients (strncpy64 c.id) = some k := by
          rw [hid, hsplit]; exact hk
        have hat2 : client_at clients k = y := by rw [hsplit]; exact hat
        simp only [hfind, hat2, hy0, if_false]
        have hlive3 : ∀ c' ∈ cs, c'.active = true →
            (mark_closing h y.conn c'.conn).is_closing = false := by
          intro c' hc' hact'
          rw [mark_closing_other]
          · exact hlive2 c' hc' hact'
          · intro heq
            rw [hsplit2] at hn
            unfold active_conns at hn
            rw [List.filter_append, List.map_append] at hn
            have hdis := (List.nodup_append.1 hn).2.2
            exact hdis (List.mem_map.2 ⟨y, List.mem_filter.2 ⟨hy, hyact⟩, rfl⟩)
              (List.mem_map.2 ⟨c', List.mem_filter.2 ⟨hc', hact'⟩, heq⟩)
        have := ih (pre ++ [c]) (i + 1) (mark_closing h y.conn) hsplit2 hlive3
        rw [Prod.ext_iff] at this
        simp only [] at this
        rw [Prod.ext_iff]
        simp only [this.1, this.2, positive_results, hres, if_false, List.nil_append]
        refine ⟨trivial, ?_⟩
        push_cast
        omega
    · simp only [hsel, List.filter_cons]
      exact ih (pre ++ [c]) i h hsplit2 hlive2

theorem ensure_clients (env : Env) (s s0 : State) (h : ensure_initialized env s = some s0) :
    s0.s_clients = s.s_clients ∨ s0.s_clients = List.replicate MAX_CLIENTS zero_client := by
  unfold ensure_initialized at h
  by_cases h1 : websocket_manager_is_initialized s = true
  · simp [h1] at h; rw [← h]; exact Or.inl rfl
  · simp only [h1] at h
    by_cases h2 : (websocket_manager_init env s).2 ≠ 0
    · simp [h2] at h
    · simp only [h2] at h
      simp at h
      rw [← h]
      unfold websocket_manager_init
      simp only [websocket_manager_is_initialized] at h1
      by_cases h3 : env.mutex_init_ok = true
      · simp [h1, h3]
      · simp [h1, h3]

theorem filter_map_touch (now : Int) (t : CStr) {β : Type} (g : websocket_client_t → β)
    (hg : ∀ c, g (touch now c) = g c) (l : List websocket_client_t) :
    ((l.map (fun c => if broadcast_selects t c then touch now c else c)).filter
        (broadcast_selects t)).map g =
      (l.filter (broadcast_selects t)).map g := by
  induction l with
  | nil => rfl
  | cons a as ih =>
    by_cases hs : broadcast_selects t a = true
    · have hs2 : broadcast_selects t (touch now a) = true := by
        simpa [broadcast_selects, touch, subscribed_topics] using hs
      simp only [List.map_cons, hs, if_true, List.filter_cons, hs2, hg, ih]
    · simp only [List.map_cons]
      rw [if_neg hs, List.filter_cons, if_neg hs, List.filter_cons, if_neg hs]
      exact ih

theorem idents_map_touch (now : Int) (sel : websocket_client_t → Bool)
    (l : List websocket_client_t) :
    idents (l.map (fun c => if sel c then touch now c else c)) = idents l := by
  induction l with
  | nil => rfl
  | cons a as ih =>
    simp only [List.map_cons, idents_cons, ih]
    by_cases hs : sel a = true <;> simp [hs, touch]

/-- C3, as the code has it: in a state with at most one active client per connection (ids
fitting their 64-byte field, the table having MAX_CLIENTS slots), websocket_manager_broadcast
sends, after the close frames of the sweep, exactly one frame to each client that after the
sweep is active and has the topic in its topic list, in slot order and to no one else; the
connections are pairwise distinct; the return value is the number of positive send results,
at most the number of those clients, itself at most MAX_CLIENTS. -/
theorem broadcast_delivers (env : Env) (s : State) (topic : CStr) (m : websocket_message_t)
    (hconns : UniqueConns s) (hfit : IdsFit s) (hlen : s.s_clients.length = MAX_CLIENTS) :
    (websocket_manager_broadcast env s (some topic) (some m)).2.1 =
      broadcast_sweep_events env s ++
        (broadcast_targets env s topic).map
          (fun c => Event.send_text c.conn (env.print (broadcast_json env m))) ∧
    ((broadcast_targets env s topic).map (fun c => c.conn)).Nodup ∧
    (websocket_manager_broadcast env s (some topic) (some m)).2.2 =
      ((positive_results env 0 (broadcast_targets env s topic).length : Nat) : Int) ∧
    positive_results env 0 (broadcast_targets env s topic).length ≤
      (broadcast_targets env s topic).length ∧
    (broadcast_targets env s topic).length ≤ MAX_CLIENTS := by
  unfold websocket_manager_broadcast broadcast_sweep_events broadcast_targets
  cases h0 : ensure_initialized env s with
  | none => simp [positive_results]
  | some s0 =>
    simp only []
    have q0 := quiet_ensure env s s0 h0
    have hu0 : UniqueConns s0 := unique_conns_of_quiet s s0 q0 hconns
    have hfit0 : ∀ c ∈ s0.s_clients, c.id.length ≤ 63 := by
      intro c hc
      rcases ensure_clients env s s0 h0 with he | he
      · rw [he] at hc; exact hfit c hc
      · rw [he] at hc
        rw [(List.mem_replicate.1 hc).2]
        simp [zero_client]
    have hlen0 : s0.s_clients.length = MAX_CLIENTS := by
      rcases ensure_clients env s s0 h0 with he | he
      · rw [he]; exact hlen
      · rw [he]; simp
    have hsurv := sweep_survivors env.now s0.s_clients s0.heap hu0
    have hu1 : (active_conns
        (websocket_manager_cleanup_inactive_clients env.now s0).1.s_clients).Nodup :=
      unique_conns_of_quiet s0 _ (quiet_sweep env.now s0) hu0
    have hr : (websocket_manager_cleanup_inactive_clients env.now s0).1.s_clients =
        (for_each_client (cleanup_client env.now) s0.s_clients s0.heap).1 := rfl
    have hrh : (websocket_manager_cleanup_inactive_clients env.now s0).1.heap =
        (for_each_client (cleanup_client env.now) s0.s_clients s0.heap).2.1 := rfl
    have hfit1 : ∀ c ∈ (websocket_manager_cleanup_inactive_clients env.now s0).1.s_clients,
        c.id.length ≤ 63 := by
      intro c hc
      rcases sweep_mem env.now s0.s_clients s0.heap c hc with h1 | ⟨x, hx, h1⟩
      · exact hfit0 c h1
      · rw [h1]; exact hfit0 x hx
    generalize hR : (websocket_manager_cleanup_inactive_clients env.now s0).1.s_clients = R
      at hu1 hr hfit1 ⊢
    generalize hH : (websocket_manager_cleanup_inactive_clients env.now s0).1.heap = H at hrh ⊢
    rw [← hr, ← hrh] at hsurv
    have hsel : ∀ c ∈ R, broadcast_selects topic c = listed topic c := by
      intro c hc
      unfold broadcast_selects listed
      by_cases ha : c.active = true
      · have := (hsurv c hc ha).2.1
        simp [ha, this]
      · simp [ha]
    have hfilter : R.filter (broadcast_selects topic) = R.filter (listed topic) :=
      List.filter_congr hsel
    have hsnap : broadcast_snapshot R topic =
        broadcast_snapshot
          (R.map (fun c => if broadcast_selects topic c then touch env.now c else c)) topic := by
      unfold broadcast_snapshot
      exact (filter_map_touch env.now topic (fun c => (c.conn, strncpy64 c.id))
        (fun _ => rfl) R).symm
    have hmain := broadcast_send_suffix env
      (R.map (fun c => if broadcast_selects topic c then touch env.now c else c))
      (env.print (broadcast_json env m)) topic
      (by
        rw [active_conns_eq, idents_map_touch, ← active_conns_eq]
        exact hu1)
      (by
        intro c hc hact
        obtain ⟨x, hx, rfl⟩ := List.mem_map.1 hc
        by_cases hs : broadcast_selects topic x = true
        · simp only [hs, if_true] at hact ⊢
          exact (hsurv x hx hact).2.1
        · simp only [hs] at hact ⊢
          exact (hsurv x hx hact).2.1)
      (by
        intro c hc
        obtain ⟨x, hx, rfl⟩ := List.mem_map.1 hc
        by_cases hs : broadcast_selects topic x = true
        · simp only [hs, if_true]; exact hfit1 x hx
        · simp only [hs]; exact hfit1 x hx)
      (R.map (fun c => if broadcast_selects topic c then touch env.now c else c)) [] 0 H
      (by simp)
      (by
        intro c hc hact
        obtain ⟨x, hx, rfl⟩ := List.mem_map.1 hc
        by_cases hs : broadcast_selects topic x = true
        · simp only [hs, if_true] at hact ⊢
          exact (hsurv x hx hact).2.2.1
        · simp only [hs] at hact ⊢
          exact (hsurv x hx hact).2.2.1)
    rw [← hsnap] at hmain
    rw [filter_map_touch env.now topic
      (fun c => Event.send_text c.conn (env.print (broadcast_json env m))) (fun _ => rfl) R]
      at hmain
    have hlenf : ((R.map (fun c => if broadcast_selects topic c then touch env.now c else c)).filter
        (broadcast_selects topic)).length = (R.filter (broadcast_selects topic)).length := by
      have := congrArg List.length
        (filter_map_touch env.now topic (fun c => c.conn) (fun _ => rfl) R)
      simpa using this
    rw [hlenf, hfilter] at hmain
    rw [Prod.ext_iff] at hmain
    simp only [] at hmain
    refine ⟨by rw [hmain.1], ?_, hmain.2, positive_results_le _ _ _, ?_⟩
    · have hsub : List.Sublist (R.filter (listed topic)) (R.filter (fun c => c.active)) := by
        have : R.filter (listed topic) =
            (R.filter (fun c => c.active)).filter (listed topic) := by
          rw [List.filter_filter]
          apply List.filter_congr
          intro c _
          unfold listed
          by_cases ha : c.active = true <;> simp [ha]
        rw [this]
        exact List.filter_sublist _
      exact (hsub.map _).nodup hu1
    · have h1 : (R.filter (listed topic)).length ≤ R.length := List.length_filter_le _ _
      have h2 : R.length = s0.s_clients.length := by
        rw [hr]; exact for_each_client_length _ _ _
      omega

theorem broadcast_delivers_witness :
    (websocket_manager_broadcast env_send_fails two_subscribers (some (ascii "t"))
      (some hello)).2.1 = [Event.send_text 7 [], Event.send_text 8 []] ∧
    (websocket_manager_broadcast env_send_fails two_subscribers (some (ascii "t"))
      (some hello)).2.2 = 0 := by
  have h := broadcast_delivers env_send_fails two_subscribers (ascii "t") hello
    (by unfold UniqueConns; decide) (by unfold IdsFit; decide) (by decide)
  have ht : (broadcast_targets env_send_fails two_subscribers (ascii "t")).map
      (fun c => c.conn) = [7, 8] := by decide
  have hs : broadcast_sweep_events env_send_fails two_subscribers = [] := by decide
  refine ⟨?_, ?_⟩
  · rw [h.1, hs]
    have := congrArg (List.map (fun p => Event.send_text p
      (env_send_fails.print (broadcast_json env_send_fails hello)))) ht
    simpa [List.map_map, Function.comp_def] using this
  · rw [h.2.2.1]
    have hl := congrArg List.length ht
    simp only [List.length_map] at hl
    rw [hl]
    decide

/-! ## Handler registration -/

/-- C11 at a failing input: registering a 64-byte topic twice takes two slots, both holding
the 63-byte truncation, and no handler is found for the topic; registering the topic `t`
twice keeps one slot and replaces the callback. -/
theorem register_twice_long_topic :
    active_handler_count (run (boot open_heap)
      [Op.register_handler (env_ok 0 [] none) (some long_topic) 5]).s_handlers = 1 ∧
    (websocket_manager_register_handler (env_ok 0 [] none)
      (run (boot open_heap) [Op.register_handler (env_ok 0 [] none) (some long_topic) 5])
      (some long_topic) 6).2 = 0 ∧
    active_handler_count (register_twice long_topic).s_handlers = 2 ∧
    (handler_at (register_twice long_topic).s_handlers 0).topic = strncpy64 long_topic ∧
    (handler_at (register_twice long_topic).s_handlers 1).topic = strncpy64 long_topic ∧
    lookup_handler (register_twice long_topic).s_handlers long_topic = none ∧
    active_handler_count (register_twice (ascii "t")).s_handlers = 1 ∧
    lookup_handler (register_twice (ascii "t")).s_handlers (ascii "t") = some 6 := by
  decide

/-- C12: once the initialization prologue has passed, leaving state `s0` (which is `s` on an
initialized manager), websocket_manager_register_handler returns -1 and leaves `s0` as it is
when topic or handler is NULL, or when no active slot holds the topic and every slot is
active; in every other case it returns 0. -/
theorem register_handler_result (env : Env) (s s0 : State) (topic : Option CStr)
    (handler : Nat) (h0 : ensure_initialized env s = some s0) :
    (s.s_initialized = true → s0 = s) ∧
    ((topic = none ∨ handler = 0 ∨
        ∃ t, topic = some t ∧ (∀ x ∈ s0.s_handlers, ¬ (x.active = true ∧ x.topic = t)) ∧
          ∀ x ∈ s0.s_handlers, x.active = true) →
      websocket_manager_register_handler env s topic handler = (s0, -1)) ∧
    (¬ (topic = none ∨ handler = 0 ∨
        ∃ t, topic = some t ∧ (∀ x ∈ s0.s_handlers, ¬ (x.active = true ∧ x.topic = t)) ∧
          ∀ x ∈ s0.s_handlers, x.active = true) →
      (websocket_manager_register_handler env s topic handler).2 = 0) := by
  refine ⟨fun hi => ?_, fun hbad => ?_, fun hgood => ?_⟩
  · rw [ensure_initialized_of_initialized env s hi] at h0
    exact (Option.some.inj h0).symm
  · unfold websocket_manager_register_handler
    rw [h0]
    rcases hbad with rfl | hbad
    · rfl
    · cases topic with
      | none => rfl
      | some t =>
        simp only []
        rcases hbad with rfl | ⟨t', ht, hno, hall⟩
        · simp
        · cases Option.some.inj ht
          by_cases hh : handler = 0
          · simp [hh]
          · have h1 : find_handler_by_topic s0.s_handlers t = none := by
              unfold find_handler_by_topic
              rw [find_slot_eq_none]
              intro x hx
              have := hno x hx
              by_cases ha : x.active = true
              · have hne : ¬ x.topic = t := fun he => this ⟨ha, he⟩
                simp [ha, hne]
              · simp [ha]
            have h2 : find_free_handler_slot s0.s_handlers = none := by
              unfold find_free_handler_slot
              rw [find_slot_eq_none]
              intro x hx
              simp [hall x hx]
            simp [hh, h1, h2]
  · unfold websocket_manager_register_handler
    rw [h0]
    cases topic with
    | none => exact absurd (Or.inl rfl) hgood
    | some t =>
      simp only []
      by_cases hh : handler = 0
      · exact absurd (Or.inr (Or.inl hh)) hgood
      · simp only [hh, if_false]
        cases hf : find_handler_by_topic s0.s_handlers t with
        | some i => rfl
        | none =>
          simp only []
          cases hg : find_free_handler_slot s0.s_handlers with
          | some j => rfl
          | none =>
            exfalso
            apply hgood
            refine Or.inr (Or.inr ⟨t, rfl, ?_, ?_⟩)
            · unfold find_handler_by_topic at hf
              rw [find_slot_eq_none] at hf
              intro x hx hboth
              have := hf x hx
              simp [hboth.1, hboth.2] at this
            · unfold find_free_handler_slot at hg
              rw [find_slot_eq_none] at hg
              intro x hx
              simpa using hg x hx

theorem register_handler_result_witness :
    full_handler_state.s_handlers.length = MAX_HANDLERS ∧
    websocket_manager_register_handler (env_ok 0 [] none) full_handler_state
      (some (ascii "new")) 9 = (full_handler_state, -1) ∧
    (websocket_manager_register_handler (env_ok 0 [] none) full_handler_state
      (some [3]) 9).2 = 0 := by
  have h := register_handler_result (env_ok 0 [] none) full_handler_state full_handler_state
  refine ⟨by decide, ?_, ?_⟩
  · exact (h (some (ascii "new")) 9 rfl).2.1
      (Or.inr (Or.inr ⟨ascii "new", rfl, by decide, by decide⟩))
  · refine (h (some [3]) 9 rfl).2.2 ?_
    rintro (h1 | h1 | ⟨t, ht, hno, _⟩)
    · cases h1
    · cases h1
    · cases Option.some.inj ht
      exact hno { topic := [3], handler := 4, active := true } (by decide) ⟨rfl, rfl⟩

/-! ## Sends to one client -/

theorem ensure_cases (env : Env) (s : State) :
    (s.s_initialized = true ∧ ensure_initialized env s = some s) ∨
    (s.s_initialized = false ∧ ensure_initialized env s = none) ∨
    (s.s_initialized = false ∧ ∃ s0, ensure_initialized env s = some s0 ∧
      s0.s_initialized = true ∧ s0.s_clients = List.replicate MAX_CLIENTS zero_client ∧
      s0.s_handlers = List.replicate MAX_HANDLERS zero_handler ∧ s0.heap = s.heap) := by
  by_cases hi : s.s_initialized = true
  · exact Or.inl ⟨hi, ensure_initialized_of_initialized env s hi⟩
  · right
    have hf : s.s_initialized = false := by simpa using hi
    by_cases hm : env.mutex_init_ok = true
    · right
      refine ⟨hf, { s with s_clients := List.replicate MAX_CLIENTS zero_client,
                           s_handlers := List.replicate MAX_HANDLERS zero_handler,
                           s_initialized := true }, ?_, rfl, rfl, rfl, rfl⟩
      simp [ensure_initialized, websocket_manager_is_initialized, websocket_manager_init, hf, hm]
    · left
      refine ⟨hf, ?_⟩
      simp [ensure_initialized, websocket_manager_is_initialized, websocket_manager_init, hf, hm]

theorem find_client_by_id_eq_none (cs : List websocket_client_t) (X : CStr) :
    find_client_by_id cs X = none ↔ ∀ c ∈ cs, ¬ (c.active = true ∧ c.id = X) := by
  unfold find_client_by_id
  rw [find_slot_eq_none]
  constructor
  · intro h c hc hboth
    have := h c hc
    simp [hboth.1, hboth.2] at this
  · intro h c hc
    by_cases ha : c.active = true
    · have hne : ¬ c.id = X := fun he => h c hc ⟨ha, he⟩
      simp [ha, hne]
    · simp [ha]

/-- C14: on a manager that is initialized (or has no active client while it is not),
websocket_manager_send_to_client returns false if and only if the id or the message is NULL,
no active client has the id, or the client found for the id has a NULL connection; in every
other case it returns true. -/
theorem send_to_client_result (env : Env) (s : State) (id : Option CStr)
    (m : Option websocket_message_t)
    (hs : s.s_initialized = true ∨ ∀ c ∈ s.s_clients, c.active = false) :
    ((websocket_manager_send_to_client env s id m).2.2 = false ↔
      (id = none ∨ m = none ∨
        ∃ X, id = some X ∧
          ((∀ c ∈ s.s_clients, ¬ (c.active = true ∧ c.id = X)) ∨
            ∃ i, find_client_by_id s.s_clients X = some i ∧
              (client_at s.s_clients i).conn = 0))) ∧
    ((websocket_manager_send_to_client env s id m).2.2 = true ↔
      ¬ (id = none ∨ m = none ∨
        ∃ X, id = some X ∧
          ((∀ c ∈ s.s_clients, ¬ (c.active = true ∧ c.id = X)) ∨
            ∃ i, find_client_by_id s.s_clients X = some i ∧
              (client_at s.s_clients i).conn = 0))) := by
  suffices main : ((websocket_manager_send_to_client env s id m).2.2 = false ↔
      (id = none ∨ m = none ∨
        ∃ X, id = some X ∧
          ((∀ c ∈ s.s_clients, ¬ (c.active = true ∧ c.id = X)) ∨
            ∃ i, find_client_by_id s.s_clients X = some i ∧
              (client_at s.s_clients i).conn = 0))) from
    ⟨main, by rw [← main, Bool.not_eq_false]⟩
  cases id with
  | none =>
    simp only [true_or, iff_true]
    unfold websocket_manager_send_to_client
    cases ensure_initialized env s <;> rfl
  | some X =>
    cases m with
    | none =>
      simp only [true_or, or_true, iff_true]
      unfold websocket_manager_send_to_client
      cases ensure_initialized env s <;> rfl
    | some msg =>
      have hnone : ∀ (hno : ∀ c ∈ s.s_clients, c.active = false),
          ∀ c ∈ s.s_clients, ¬ (c.active = true ∧ c.id = X) := by
        intro hno c hc hboth
        rw [hno c hc] at hboth
        exact Bool.noConfusion hboth.1
      rcases ensure_cases env s with ⟨hi, he⟩ | ⟨hi, he⟩ | ⟨hi, s0, he, _, hcl, _, _⟩
      · unfold websocket_manager_send_to_client
        rw [he]
        simp only []
        cases hf : find_client_by_id s.s_clients X with
        | none =>
          simp only [true_iff]
          exact Or.inr (Or.inr ⟨X, rfl, Or.inl ((find_client_by_id_eq_none _ _).1 hf)⟩)
        | some i =>
          simp only []
          by_cases hc : (client_at s.s_clients i).conn = 0
          · simp only [hc, if_true, true_iff]
            exact Or.inr (Or.inr ⟨X, rfl, Or.inr ⟨i, hf, hc⟩⟩)
          · simp only [hc, if_false]
            constructor
            · intro h; cases h
            · rintro (h | h | ⟨X', hX, h | ⟨j, hj, hz⟩⟩)
              · cases h
              · cases h
              · cases Option.some.inj hX
                rw [(find_client_by_id_eq_none _ _).2 h] at hf
                cases hf
              · cases Option.some.inj hX
                rw [hf] at hj
                cases Option.some.inj hj
                exact absurd hz hc
      · have hno : ∀ c ∈ s.s_clients, c.active = false := by
          rcases hs with h | h
          · rw [h] at hi; cases hi
          · exact h
        unfold websocket_manager_send_to_client
        rw [he]
        simp only [true_iff]
        exact Or.inr (Or.inr ⟨X, rfl, Or.inl (hnone hno)⟩)
      · have hno : ∀ c ∈ s.s_clients, c.active = false := by
          rcases hs with h | h
          · rw [h] at hi; cases hi
          · exact h
        have hf : find_client_by_id s0.s_clients X = none := by
          rw [find_client_by_id_eq_none, hcl]
          intro c hc hboth
          rw [(List.mem_replicate.1 hc).2] at hboth
          exact Bool.noConfusion hboth.1
        unfold websocket_manager_send_to_client
        rw [he]
        simp only [hf, true_iff]
        exact Or.inr (Or.inr ⟨X, rfl, Or.inl (hnone hno)⟩)

theorem send_to_client_result_witness :
    (websocket_manager_send_to_client env_send_fails two_subscribers (some (ascii "id-2"))
      (some hello)).2.2 = true ∧
    (websocket_manager_send_to_client env_send_fails two_subscribers (some (ascii "id-9"))
      (some hello)).2.2 = false := by
  have h := fun id => (send_to_client_result env_send_fails two_subscribers id (some hello)
    (Or.inl (by decide))).1
  refine ⟨?_, ?_⟩
  · cases hr : (websocket_manager_send_to_client env_send_fails two_subscribers
      (some (ascii "id-2")) (some hello)).2.2 with
    | true => rfl
    | false =>
      exfalso
      rcases (h (some (ascii "id-2"))).1 hr with h1 | h1 | ⟨X, hX, h1 | ⟨i, hi, hz⟩⟩
      · cases h1
      · cases h1
      · cases Option.some.inj hX
        exact h1 (client_at two_subscribers.s_clients 1) (by decide) (by decide)
      · cases Option.some.inj hX
        have h2 : find_client_by_id two_subscribers.s_clients (ascii "id-2") = some 1 := by
          decide
        rw [h2] at hi
        cases Option.some.inj hi
        revert hz
        decide
  · exact (h (some (ascii "id-9"))).2
      (Or.inr (Or.inr ⟨ascii "id-9", rfl, Or.inl (by decide)⟩))

/-! ## The sweep, slot by slot -/

theorem client_at_cons_succ (x : websocket_client_t) (l : List websocket_client_t) (i : Nat) :
    client_at (x :: l) (i + 1) = client_at l i := by
  simp [client_at]

theorem client_at_modify_slot_ne (f : websocket_client_t → websocket_client_t)
    (l : List websocket_client_t) (i k : Nat) (h : i ≠ k) :
    client_at (modify_slot f l k) i = client_at l i := by
  induction l generalizing i k with
  | nil => rfl
  | cons a as ih =>
    cases k with
    | zero =>
      cases i with
      | zero => exact absurd rfl h
      | succ j => simp [modify_slot, client_at_cons_succ]
    | succ k =>
      cases i with
      | zero => rfl
      | succ j =>
        simp only [modify_slot, client_at_cons_succ]
        exact ih j k (fun he => h (by rw [he]))

theorem client_at_modify_slot_same (f : websocket_client_t → websocket_client_t)
    (l : List websocket_client_t) (i : Nat) (h : i < l.length) :
    client_at (modify_slot f l i) i = f (client_at l i) := by
  induction l generalizing i with
  | nil => simp at h
  | cons a as ih =>
    cases i with
    | zero => rfl
    | succ j =>
      simp only [modify_slot, client_at_cons_succ]
      exact ih j (by simpa using h)

theorem client_at_map (f : websocket_client_t → websocket_client_t)
    (l : List websocket_client_t) (i : Nat) (h : i < l.length) :
    client_at (l.map f) i = f (client_at l i) := by
  induction l generalizing i with
  | nil => simp at h
  | cons a as ih =>
    cases i with
    | zero => rfl
    | succ j =>
      simp only [List.map_cons, client_at_cons_succ]
      exact ih j (by simpa using h)

theorem client_at_mem (l : List websocket_client_t) (i : Nat) (h : i < l.length) :
    client_at l i ∈ l := by
  induction l generalizing i with
  | nil => simp at h
  | cons a as ih =>
    cases i with
    | zero => exact List.mem_cons_self _ _
    | succ j =>
      rw [client_at_cons_succ]
      exact List.mem_cons_of_mem _ (ih j (by simpa using h))

theorem take_append_client_at (l : List websocket_client_t) (i : Nat) (h : i < l.length) :
    l = l.take i ++ client_at l i :: l.drop (i + 1) := by
  induction l generalizing i with
  | nil => simp at h
  | cons a as ih =>
    cases i with
    | zero => rfl
    | succ j =>
      rw [client_at_cons_succ]
      simp only [List.take_succ_cons, List.drop_succ_cons, List.cons_append]
      exact congrArg _ (ih j (by simpa using h))

/-- The slot the sweep leaves at index `i` is what the loop body makes of the slot it finds
there, with the connection objects as left by the slots before it. -/
theorem sweep_slot_at (now : Int) (cs : List websocket_client_t) (h : Heap) (i : Nat)
    (hi : i < cs.length) :
    client_at (for_each_client (cleanup_client now) cs h).1 i =
      (cleanup_client now (for_each_client (cleanup_client now) (cs.take i) h).2.1
        (client_at cs i)).1 := by
  induction cs generalizing i h with
  | nil => simp at hi
  | cons c cs ih =>
    cases i with
    | zero => rfl
    | succ j =>
      rw [for_each_client_cons, client_at_cons_succ, client_at_cons_succ, List.take_succ_cons,
        for_each_client_cons]
      exact ih _ j (by simpa using hi)

/-- The loop body of the sweep on one slot. -/
theorem cleanup_client_spec (now : Int) (h : Heap) (c : websocket_client_t) :
    ((cleanup_client now h c).1.active = true ↔
      c.active = true ∧ c.conn ≠ 0 ∧ (h c.conn).is_closing = false ∧
        now - c.last_activity ≤ 3600) ∧
    ((cleanup_client now h c).1.active = true → (cleanup_client now h c).1 = c) ∧
    (c.active = true → (cleanup_client now h c).1.active = false →
      (cleanup_client now h c).1 = deactivate c) ∧
    (c.active = false → (cleanup_client now h c).1 = c) := by
  rcases cleanup_client_cases now h c with ⟨he, hk⟩ | ⟨ha, hd, _⟩
  · rw [he]
    refine ⟨⟨fun hact => ⟨hact, hk hact⟩, fun hall => hall.1⟩, fun _ => rfl, ?_, fun _ => rfl⟩
    intro ha hf
    rw [ha] at hf
    cases hf
  · rw [hd]
    refine ⟨⟨fun hact => by simp [deactivate] at hact, ?_⟩,
      fun hact => by simp [deactivate] at hact, fun _ _ => rfl, ?_⟩
    · rintro ⟨_, h1, h2, h3⟩
      exfalso
      have hne : (cleanup_client now h c).1 ≠ c := by
        rw [hd]
        intro heq
        have := congrArg websocket_client_t.active heq
        simp [deactivate, ha] at this
      apply hne
      unfold cleanup_client
      have h3' : ¬ (3600 < now - c.last_activity) := by omega
      simp [ha, h1, h2, h3']
    · intro hf
      rw [ha] at hf
      cases hf

/-- C17: the inactive-client sweep run at time `now` leaves slot `i` active if and only if
it was active before, its connection reference is non-null, the connection is not closing
when the loop reaches the slot, and now - last_activity <= 3600; a slot that stays active is
unchanged, a slot that was not active is unchanged, and a slot it deactivates gets a NULL
connection reference and topic_count 0 (nothing else changes).  With at most one active
client per connection, the closing flag the loop reads is the one from before the sweep. -/
theorem sweep_slot_outcome (now : Int) (s : State) (i : Nat) (hi : i < s.s_clients.length) :
    ((client_at (websocket_manager_cleanup_inactive_clients now s).1.s_clients i).active = true ↔
      (client_at s.s_clients i).active = true ∧ (client_at s.s_clients i).conn ≠ 0 ∧
        (sweep_heap_at now s i (client_at s.s_clients i).conn).is_closing = false ∧
        now - (client_at s.s_clients i).last_activity ≤ 3600) ∧
    ((client_at (websocket_manager_cleanup_inactive_clients now s).1.s_clients i).active = true →
      client_at (websocket_manager_cleanup_inactive_clients now s).1.s_clients i =
        client_at s.s_clients i) ∧
    ((client_at s.s_clients i).active = false →
      client_at (websocket_manager_cleanup_inactive_clients now s).1.s_clients i =
        client_at s.s_clients i) ∧
    ((client_at s.s_clients i).active = true →
      (client_at (websocket_manager_cleanup_inactive_clients now s).1.s_clients i).active = false →
      client_at (websocket_manager_cleanup_inactive_clients now s).1.s_clients i =
        { client_at s.s_clients i with active := false, conn := 0, topic_count := 0 }) ∧
    (UniqueConns s → (client_at s.s_clients i).active = true →
      sweep_heap_at now s i (client_at s.s_clients i).conn =
        s.heap (client_at s.s_clients i).conn) := by
  have hslot : client_at (websocket_manager_cleanup_inactive_clients now s).1.s_clients i =
      (cleanup_client now (sweep_heap_at now s i) (client_at s.s_clients i)).1 :=
    sweep_slot_at now s.s_clients s.heap i hi
  obtain ⟨h1, h2, h3, h4⟩ := cleanup_client_spec now (sweep_heap_at now s i) (client_at s.s_clients i)
  rw [hslot]
  refine ⟨h1, h2, h4, h3, ?_⟩
  intro hu hact
  unfold sweep_heap_at
  apply sweep_heap_frame
  intro hmem
  unfold UniqueConns at hu
  rw [take_append_client_at s.s_clients i hi] at hu
  unfold active_conns at hu hmem
  rw [List.filter_append, List.map_append, List.filter_cons] at hu
  simp only [hact, if_true, List.map_cons] at hu
  exact (List.nodup_append.1 hu).2.2 hmem (List.mem_cons_self _ _)

theorem sweep_slot_outcome_witness :
    (client_at (websocket_manager_cleanup_inactive_clients 3600 stale_state).1.s_clients 0).active
      = true ∧
    (client_at (websocket_manager_cleanup_inactive_clients 3602 stale_state).1.s_clients 0).active
      = false := by
  have h1 := sweep_slot_outcome 3600 stale_state 0 (by decide)
  have h2 := sweep_slot_outcome 3602 stale_state 0 (by decide)
  refine ⟨h1.1.2 (by decide), ?_⟩
  cases hr : (client_at (websocket_manager_cleanup_inactive_clients 3602
      stale_state).1.s_clients 0).active with
  | false => rfl
  | true =>
    have := (h2.1.1 hr).2.2.2
    revert this
    decide

/-! ## Sweep-triggering calls -/

theorem client_at_of_length_le (l : List websocket_client_t) (i : Nat) (h : l.length ≤ i) :
    client_at l i = zero_client := by
  induction l generalizing i with
  | nil => rfl
  | cons a as ih =>
    cases i with
    | zero => simp at h
    | succ j =>
      rw [client_at_cons_succ]
      exact ih j (by simpa using h)

theorem lt_length_of_active (l : List websocket_client_t) (i : Nat)
    (h : (client_at l i).active = true) : i < l.length := by
  by_contra hge
  rw [client_at_of_length_le l i (by omega)] at h
  cases h

theorem sweep_drops_stale (now : Int) (s : State) (i : Nat)
    (hact : (client_at s.s_clients i).active = true)
    (hold : now - (client_at s.s_clients i).last_activity > 3600) :
    (client_at (websocket_manager_cleanup_inactive_clients now s).1.s_clients i).active = false := by
  have hi := lt_length_of_active _ _ hact
  have hslot : client_at (websocket_manager_cleanup_inactive_clients now s).1.s_clients i =
      (cleanup_client now (sweep_heap_at now s i) (client_at s.s_clients i)).1 :=
    sweep_slot_at now s.s_clients s.heap i hi
  rw [hslot]
  cases hr : (cleanup_client now (sweep_heap_at now s i) (client_at s.s_clients i)).1.active with
  | false => rfl
  | true =>
    have := ((cleanup_client_spec now (sweep_heap_at now s i) (client_at s.s_clients i)).1.1
      hr).2.2.2
    omega

/-- C13: on an initialized manager, an active client whose last_activity is more than 3600
seconds before the current time has an inactive slot after the next
websocket_manager_handle_open (for a non-null connection; unless that call takes the slot for
the new client), websocket_manager_broadcast or websocket_manager_get_subscribed_clients
(with non-null arguments), no close having been handled. -/
theorem stale_client_swept (env : Env) (s : State) (i : Nat)
    (hinit : s.s_initialized = true)
    (hact : (client_at s.s_clients i).active = true)
    (hold : env.now - (client_at s.s_clients i).last_activity > 3600) :
    (∀ c, c ≠ 0 →
      (client_at (websocket_manager_handle_open env s c).1.s_clients i).active = false ∨
        opened_slot env s c = some i) ∧
    (∀ t m,
      (client_at (websocket_manager_broadcast env s (some t) (some m)).1.s_clients i).active
        = false) ∧
    (∀ t,
      (client_at (websocket_manager_get_subscribed_clients env s (some t) true).1.s_clients
        i).active = false) := by
  have hsw := sweep_drops_stale env.now s i hact hold
  have hens := ensure_initialized_of_initialized env s hinit
  have hi : i < (websocket_manager_cleanup_inactive_clients env.now s).1.s_clients.length := by
    rw [(sweep_state_fields env.now s).2.1]
    exact lt_length_of_active _ _ hact
  refine ⟨fun c hc => ?_, fun t m => ?_, fun t => ?_⟩
  · unfold websocket_manager_handle_open opened_slot
    rw [hens]
    simp only [hc, if_false]
    cases hf : find_free_client_slot
        (websocket_manager_cleanup_inactive_clients env.now s).1.s_clients with
    | none => exact Or.inl hsw
    | some k =>
      by_cases hik : i = k
      · exact Or.inr (by rw [hik])
      · left
        simp only []
        rw [client_at_modify_slot_ne _ _ _ _ hik]
        exact hsw
  · unfold websocket_manager_broadcast
    rw [hens]
    simp only []
    rw [client_at_map _ _ _ hi]
    have hns : broadcast_selects t
        (client_at (websocket_manager_cleanup_inactive_clients env.now s).1.s_clients i)
          = false := by
      simp [broadcast_selects, hsw]
    rw [hns]
    exact hsw
  · unfold websocket_manager_get_subscribed_clients
    rw [hens]
    exact hsw

theorem stale_client_swept_witness :
    (client_at (websocket_manager_broadcast (env_ok 5000 [] none) stale_state
      (some (ascii "t")) (some hello)).1.s_clients 0).active = false :=
  (stale_client_swept (env_ok 5000 [] none) stale_state 0 (by decide) (by decide)
    (by decide)).2.1 (ascii "t") hello

/-! ## Message validation -/

theorem cJSON_IsString_iff (a : Json) : cJSON_IsString a = true ↔ ∃ s, a = Json.string s := by
  cases a <;> simp [cJSON_IsString]

theorem cJSON_IsObject_iff (a : Json) :
    cJSON_IsObject a = true ↔ ∃ members, a = Json.object members := by
  cases a <;> simp [cJSON_IsObject]

theorem decode_envelope_iff (j : Json) :
    well_formed_message j ↔ ∃ e, decode_envelope j = some e := by
  unfold well_formed_message decode_envelope
  generalize cJSON_GetObjectItem j (ascii "type") = ty
  generalize cJSON_GetObjectItem j (ascii "topic") = tp
  generalize cJSON_GetObjectItem j (ascii "payload") = pl
  cases ty with
  | none => simp
  | some a =>
    cases tp with
    | none => simp
    | some b =>
      simp only []
      by_cases ha : cJSON_IsString a = true
      · by_cases hb : cJSON_IsString b = true
        · obtain ⟨sa, rfl⟩ := (cJSON_IsString_iff a).1 ha
          obtain ⟨sb, rfl⟩ := (cJSON_IsString_iff b).1 hb
          cases pl with
          | none => simp [cJSON_IsString]
          | some p =>
            by_cases hp : cJSON_IsObject p = true
            · obtain ⟨ms, rfl⟩ := (cJSON_IsObject_iff p).1 hp
              simp [cJSON_IsString, cJSON_IsObject]
            · have hno : ¬ ∃ members, p = Json.object members :=
                fun h => hp ((cJSON_IsObject_iff p).2 h)
              simp [cJSON_IsString, hp, hno]
        · have hno : ¬ ∃ s, b = Json.string s := fun h => hb ((cJSON_IsString_iff b).2 h)
          simp [ha, hb, hno]
      · have hno : ¬ ∃ s, a = Json.string s := fun h => ha ((cJSON_IsString_iff a).2 h)
        simp [ha, hno]

theorem handle_message_of_decoded (env : Env) (s : State) (c : Nat) (data : CStr) (j : Json)
    (e : CStr × CStr × Json) (hinit : s.s_initialized = true)
    (hp : env.parse data = some j) (hd : decode_envelope j = some e) :
    websocket_manager_handle_message env s c data = process_envelope env s c e := by
  obtain ⟨type, topic, payload⟩ := e
  unfold websocket_manager_handle_message process_envelope
  rw [ensure_initialized_of_initialized env s hinit]
  simp only [hp, hd]
  try rfl

theorem decode_envelope_absent_payload (j k : Json)
    (htype : cJSON_GetObjectItem j (ascii "type") = cJSON_GetObjectItem k (ascii "type"))
    (htopic : cJSON_GetObjectItem j (ascii "topic") = cJSON_GetObjectItem k (ascii "topic"))
    (hj : cJSON_GetObjectItem j (ascii "payload") = none)
    (hk : cJSON_GetObjectItem k (ascii "payload") = some (Json.object [])) :
    decode_envelope j = decode_envelope k := by
  unfold decode_envelope
  rw [htype, htopic, hj, hk]
  simp [cJSON_IsObject]

/-- C15: on an initialized manager, websocket_manager_handle_message processes a message
(runs lines 503-642 on it) if it parses as JSON with a string `type`, a string `topic` and a
`payload` that is absent or an object, and only then; a message without payload is handled
exactly as the message with the same type and topic and payload `{}`; every other message is
dropped, the state (all client and handler slots) staying as it is and nothing being sent. -/
theorem message_validation (env : Env) (s : State) (c : Nat) (data : CStr)
    (hinit : s.s_initialized = true) :
    (∀ j, env.parse data = some j → well_formed_message j →
      ∃ e, decode_envelope j = some e ∧
        websocket_manager_handle_message env s c data = process_envelope env s c e) ∧
    (∀ j, env.parse data = some j → (∃ e, decode_envelope j = some e) →
      well_formed_message j) ∧
    (∀ j k other, env.parse data = some j → env.parse other = some k →
      cJSON_GetObjectItem j (ascii "type") = cJSON_GetObjectItem k (ascii "type") →
      cJSON_GetObjectItem j (ascii "topic") = cJSON_GetObjectItem k (ascii "topic") →
      cJSON_GetObjectItem j (ascii "payload") = none →
      cJSON_GetObjectItem k (ascii "payload") = some (Json.object []) →
      websocket_manager_handle_message env s c data =
        websocket_manager_handle_message env s c other) ∧
    ((¬ ∃ j, env.parse data = some j ∧ well_formed_message j) →
      websocket_manager_handle_message env s c data = (s, [])) := by
  refine ⟨fun j hp hw => ?_, fun j _ he => (decode_envelope_iff j).2 he, ?_, fun hbad => ?_⟩
  · obtain ⟨e, he⟩ := (decode_envelope_iff j).1 hw
    exact ⟨e, he, handle_message_of_decoded env s c data j e hinit hp he⟩
  · intro j k other hj hk h1 h2 h3 h4
    have hdec := decode_envelope_absent_payload j k h1 h2 h3 h4
    unfold websocket_manager_handle_message
    rw [ensure_initialized_of_initialized env s hinit]
    simp only [hj, hk, hdec]
  · unfold websocket_manager_handle_message
    rw [ensure_initialized_of_initialized env s hinit]
    simp only []
    cases hp : env.parse data with
    | none => rfl
    | some j =>
      simp only []
      cases hd : decode_envelope j with
      | none => rfl
      | some e =>
        exact absurd ⟨j, hp, (decode_envelope_iff j).2 ⟨e, hd⟩⟩ hbad

theorem message_validation_witness :
    websocket_manager_handle_message (env_ok 9 [] (some numeric_type_message))
      one_client_state 7 [] = (one_client_state, []) := by
  refine (message_validation (env_ok 9 [] (some numeric_type_message)) one_client_state 7 []
    (by decide)).2.2.2 ?_
  rintro ⟨j, hj, hw⟩
  have hjeq : j = numeric_type_message := (Option.some.inj hj).symm
  subst hjeq
  obtain ⟨⟨ty, hty⟩, _⟩ := hw
  simp [numeric_type_message, cJSON_GetObjectItem, ascii] at hty

/-! ## Activity timestamps -/

theorem client_at_modify_slot_cases (f : websocket_client_t → websocket_client_t)
    (l : List websocket_client_t) (i k : Nat) :
    client_at (modify_slot f l k) i = client_at l i ∨
    client_at (modify_slot f l k) i = f (client_at l i) := by
  by_cases hik : i = k
  · by_cases hlt : i < l.length
    · right; rw [← hik]; exact client_at_modify_slot_same f l i hlt
    · left
      rw [client_at_of_length_le l i (by omega),
        client_at_of_length_le _ i (by rw [modify_slot_length]; omega)]
  · exact Or.inl (client_at_modify_slot_ne f l i k hik)

theorem stamp_modify (now : Int) (f : websocket_client_t → websocket_client_t)
    (hf : ∀ x, x.last_activity = now → (f x).last_activity = now)
    (l : List websocket_client_t) (i k : Nat) (h : (client_at l i).last_activity = now) :
    (client_at (modify_slot f l k) i).last_activity = now := by
  rcases client_at_modify_slot_cases f l i k with he | he
  · rw [he]; exact h
  · rw [he]; exact hf _ h

theorem stamp_send_to_client (env : Env) (s : State) (id : Option CStr)
    (m : Option websocket_message_t) (i : Nat) (hinit : s.s_initialized = true)
    (h : (client_at s.s_clients i).last_activity = env.now) :
    (websocket_manager_send_to_client env s id m).1.s_initialized = true ∧
    (client_at (websocket_manager_send_to_client env s id m).1.s_clients i).last_activity =
      env.now := by
  unfold websocket_manager_send_to_client
  rw [ensure_initialized_of_initialized env s hinit]
  cases id with
  | none => exact ⟨hinit, h⟩
  | some id =>
    cases m with
    | none => exact ⟨hinit, h⟩
    | some m =>
      simp only []
      cases find_client_by_id s.s_clients id with
      | none => exact ⟨hinit, h⟩
      | some k =>
        simp only []
        split
        · exact ⟨hinit, h⟩
        · exact ⟨hinit, stamp_modify env.now _ (fun _ _ => rfl) _ _ _ h⟩

theorem register_handler_keeps_clients (env : Env) (s : State) (topic : Option CStr)
    (handler : Nat) (hinit : s.s_initialized = true) :
    (websocket_manager_register_handler env s topic handler).1.s_initialized = true ∧
    (websocket_manager_register_handler env s topic handler).1.s_clients = s.s_clients ∧
    (websocket_manager_register_handler env s topic handler).1.heap = s.heap := by
  unfold websocket_manager_register_handler
  rw [ensure_initialized_of_initialized env s hinit]
  cases topic with
  | none => exact ⟨hinit, rfl, rfl⟩
  | some t =>
    simp only []
    split
    · exact ⟨hinit, rfl, rfl⟩
    · cases find_handler_by_topic s.s_handlers t with
      | some k => exact ⟨hinit, rfl, rfl⟩
      | none =>
        simp only []
        cases find_free_handler_slot s.s_handlers with
        | none => exact ⟨hinit, rfl, rfl⟩
        | some k => exact ⟨hinit, rfl, rfl⟩

theorem register_websocket_handlers_keeps_clients (env : Env) (s : State)
    (hinit : s.s_initialized = true) :
    (register_websocket_handlers env s).s_initialized = true ∧
    (register_websocket_handlers env s).s_clients = s.s_clients ∧
    (register_websocket_handlers env s).heap = s.heap := by
  unfold register_websocket_handlers
  generalize env.registrations = regs
  induction regs generalizing s with
  | nil => exact ⟨hinit, rfl, rfl⟩
  | cons r rs ih =>
    simp only [List.foldl_cons]
    obtain ⟨h1, h2, h3⟩ := register_handler_keeps_clients env s (some r.1) r.2 hinit
    obtain ⟨g1, g2, g3⟩ := ih _ h1
    exact ⟨g1, g2.trans h2, g3.trans h3⟩

theorem stamp_handle_subscribe (env : Env) (s : State) (id topic : CStr) (i : Nat)
    (hinit : s.s_initialized = true)
    (h : (client_at s.s_clients i).last_activity = env.now) :
    (client_at (handle_subscribe env s id topic).1.s_clients i).last_activity = env.now := by
  unfold handle_subscribe
  cases find_client_by_id s.s_clients id with
  | none => exact h
  | some k =>
    simp only []
    split
    · exact h
    · split
      · exact h
      · simp only []
        have h1 := stamp_send_to_client env
          { s with s_clients := modify_slot (add_topic topic) s.s_clients k } (some id)
          (websocket_message_create (some (ascii "ack")) (some (ascii "system"))
            (some (ascii "\x7b\"message\":\"Subscribed\"\x7d"))) i hinit
          (stamp_modify env.now (add_topic topic) (fun _ hx => hx) _ _ _ h)
        rw [(register_websocket_handlers_keeps_clients env _ h1.1).2.1]
        exact h1.2

theorem stamp_handle_unsubscribe (env : Env) (s : State) (id topic : CStr) (i : Nat)
    (hinit : s.s_initialized = true)
    (h : (client_at s.s_clients i).last_activity = env.now) :
    (client_at (handle_unsubscribe env s id topic).1.s_clients i).last_activity = env.now := by
  unfold handle_unsubscribe
  cases find_client_by_id s.s_clients id with
  | none => exact h
  | some k =>
    simp only []
    split
    · exact h
    · next j _ =>
      exact (stamp_send_to_client env
        { s with s_clients := modify_slot (remove_topic j) s.s_clients k } (some id) _ i hinit
        (stamp_modify env.now (remove_topic j) (fun _ hx => hx) _ _ _ h)).2

theorem stamp_handle_other (env : Env) (s : State) (id topic payload : CStr) (i : Nat)
    (hinit : s.s_initialized = true)
    (h : (client_at s.s_clients i).last_activity = env.now) :
    (client_at (handle_other env s id topic payload).1.s_clients i).last_activity = env.now := by
  have hk := (register_websocket_handlers_keeps_clients env s hinit).2.1
  unfold handle_other
  split
  · exact h
  · simp only []
    split
    · rw [hk]; exact h
    · rw [hk]; exact h

theorem find_slot_lt_length {α : Type} (p : α → Bool) (l : List α) (i : Nat)
    (h : find_slot p l = some i) : i < l.length := by
  obtain ⟨pre, x, post, rfl, rfl, _, _⟩ := find_slot_eq_some p l i h
  simp

/-- C16, as the code has it: on an initialized manager, after a message that passes
validation the client websocket_manager_handle_message locates for the connection has
last_activity equal to the current time; so has the client websocket_manager_send_to_client
finds for an id, when its connection is non-null; so has every client selected by
websocket_manager_broadcast. -/
theorem activity_stamped (env : Env) (s : State) (hinit : s.s_initialized = true) :
    (∀ c data j e i, env.parse data = some j → decode_envelope j = some e →
      find_client_by_connection s.s_clients c = some i →
      (client_at (websocket_manager_handle_message env s c data).1.s_clients i).last_activity
        = env.now) ∧
    (∀ X m i, find_client_by_id s.s_clients X = some i → (client_at s.s_clients i).conn ≠ 0 →
      (client_at (websocket_manager_send_to_client env s (some X) (some m)).1.s_clients
        i).last_activity = env.now) ∧
    (∀ t m, ∀ cl ∈ (websocket_manager_broadcast env s (some t) (some m)).1.s_clients,
      broadcast_selects t cl = true → cl.last_activity = env.now) := by
  refine ⟨?_, ?_, ?_⟩
  · intro c data j e i hp hd hf
    rw [handle_message_of_decoded env s c data j e hinit hp hd]
    unfold process_envelope
    rw [hf]
    simp only []
    have hst : (client_at (modify_slot (touch env.now) s.s_clients i) i).last_activity =
        env.now := by
      rw [client_at_modify_slot_same _ _ _ (find_slot_lt_length _ _ _ hf)]
      rfl
    split
    · exact stamp_handle_subscribe env _ _ _ i hinit hst
    · split
      · exact stamp_handle_unsubscribe env _ _ _ i hinit hst
      · exact stamp_handle_other env _ _ _ _ i hinit hst
  · intro X m i hf hc
    unfold websocket_manager_send_to_client
    rw [ensure_initialized_of_initialized env s hinit]
    simp only [hf, hc, if_false]
    rw [client_at_modify_slot_same _ _ _ (find_slot_lt_length _ _ _ hf)]
    rfl
  · intro t m cl hcl hsel
    unfold websocket_manager_broadcast at hcl
    rw [ensure_initialized_of_initialized env s hinit] at hcl
    simp only [] at hcl
    obtain ⟨x, _, rfl⟩ := List.mem_map.1 hcl
    by_cases hs : broadcast_selects t x = true
    · simp only [hs, if_true]; rfl
    · simp only [hs] at hsel
      exact absurd hsel hs

theorem activity_stamped_witness :
    (client_at (websocket_manager_handle_message
      (env_ok 77 [] (some (envelope (ascii "ping") (ascii "t")))) one_client_state 7
        []).1.s_clients 0).last_activity = 77 :=
  (activity_stamped (env_ok 77 [] (some (envelope (ascii "ping") (ascii "t")))) one_client_state
    (by decide)).1 7 [] (envelope (ascii "ping") (ascii "t"))
      (ascii "ping", ascii "t", Json.object []) 0 rfl rfl (by decide)

/-- C16, as stated, fails: a message that does not parse, delivered at time 50 on the
connection of the active client of slot 0, leaves the last_activity of that client at 0; so
does a message whose `type` is not a string. -/
theorem malformed_message_keeps_last_activity :
    (client_at one_client_state.s_clients 0).active = true ∧
    (client_at one_client_state.s_clients 0).conn = 7 ∧
    (client_at (websocket_manager_handle_message (env_ok 50 [] none) one_client_state 7
      [123, 34]).1.s_clients 0).last_activity = 0 ∧
    (client_at (websocket_manager_handle_message (env_ok 50 [] (some numeric_type_message))
      one_client_state 7 []).1.s_clients 0).last_activity = 0 := by
  decide

/-! ## Topic lists -/

theorem shift_topics_get (ts : List CStr) (j m q : Nat) (h : j + m < ts.length) :
    (shift_topics ts j m)[q]? = if j ≤ q ∧ q < j + m then ts[q + 1]? else ts[q]? := by
  induction m generalizing ts j with
  | zero =>
    have : ¬ (j ≤ q ∧ q < j + 0) := by omega
    rw [if_neg this]
    rfl
  | succ m ih =>
    unfold shift_topics
    rw [ih (ts.set j (ts.getD (j + 1) [])) (j + 1) (by rw [List.length_set]; omega)]
    have hlt : j + 1 < ts.length := by omega
    have hj1 : ts.getD (j + 1) [] = ts[j + 1] := by
      rw [List.getD_eq_getElem?_getD, List.getElem?_eq_getElem (by omega)]
      rfl
    by_cases h1 : j + 1 ≤ q ∧ q < j + 1 + m
    · have h2 : j ≤ q ∧ q < j + (m + 1) := by omega
      rw [if_pos h1, if_pos h2, List.getElem?_set_ne (by omega)]
    · rw [if_neg h1]
      by_cases hq : q = j
      · subst hq
        have h2 : q ≤ q ∧ q < q + (m + 1) := by omega
        rw [if_pos h2, List.getElem?_set, if_pos rfl, if_pos (by omega), hj1,
          List.getElem?_eq_getElem (by omega)]
      · have h2 : ¬ (j ≤ q ∧ q < j + (m + 1)) := by omega
        rw [if_neg h2, List.getElem?_set_ne (fun he => hq he.symm)]

/-- The shift loop followed by `topic_count--` removes entry `k` from the live entries and
keeps the others in order. -/
theorem shift_topics_take (ts : List CStr) (k n : Nat) (hk : k < n) (hn : n ≤ ts.length) :
    (shift_topics ts k (n - 1 - k)).take (n - 1) = (ts.take n).eraseIdx k := by
  apply List.ext_getElem?
  intro q
  rw [List.getElem?_take, List.getElem?_eraseIdx, shift_topics_get ts k (n - 1 - k) q
    (by omega)]
  by_cases hq : q < n - 1
  · rw [if_pos hq]
    by_cases hqk : q < k
    · have h1 : ¬ (k ≤ q ∧ q < k + (n - 1 - k)) := by omega
      rw [if_neg h1, if_pos hqk, List.getElem?_take, if_pos (by omega)]
    · have h1 : k ≤ q ∧ q < k + (n - 1 - k) := by omega
      rw [if_pos h1, if_neg hqk, List.getElem?_take, if_pos (by omega)]
  · rw [if_neg hq]
    by_cases hqk : q < k
    · omega
    · rw [if_neg hqk, List.getElem?_take, if_neg (by omega)]

theorem find_slot_eraseIdx (t : CStr) (l : List CStr) (k : Nat)
    (h : find_slot (fun x => decide (x = t)) l = some k) :
    l.eraseIdx k = l.erase t ∧ t ∈ l ∧ k < l.length := by
  induction l generalizing k with
  | nil => simp [find_slot] at h
  | cons a as ih =>
    by_cases ha : a = t
    · simp [find_slot, ha] at h
      subst h
      simp [ha]
    · simp [find_slot, ha] at h
      obtain ⟨j, hj, rfl⟩ := h
      obtain ⟨h1, h2, h3⟩ := ih j hj
      refine ⟨?_, List.mem_cons_of_mem _ h2, by simpa using h3⟩
      rw [List.eraseIdx_cons_succ, h1, List.erase_cons_tail]
      simpa using ha

theorem find_slot_of_mem (t : CStr) (l : List CStr) (h : t ∈ l) :
    ∃ k, find_slot (fun x => decide (x = t)) l = some k := by
  cases hf : find_slot (fun x => decide (x = t)) l with
  | some k => exact ⟨k, rfl⟩
  | none =>
    rw [find_slot_eq_none] at hf
    have := hf t h
    simp at this

theorem subscribed_topics_add_topic (topic : CStr) (c : websocket_client_t)
    (h : c.topic_count < c.topics.length) :
    subscribed_topics (add_topic topic c) = subscribed_topics c ++ [strncpy64 topic] := by
  unfold subscribed_topics add_topic
  simp only []
  rw [List.take_succ, List.getElem?_set, if_pos rfl, if_pos h]
  simp only [Option.toList]
  congr 1
  apply List.ext_getElem?
  intro q
  rw [List.getElem?_take, List.getElem?_take]
  by_cases hq : q < c.topic_count
  · rw [if_pos hq, if_pos hq, List.getElem?_set_ne (by omega)]
  · rw [if_neg hq, if_neg hq]

theorem subscribed_topics_remove_topic (k : Nat) (c : websocket_client_t)
    (hk : k < c.topic_count) (hn : c.topic_count ≤ c.topics.length) :
    subscribed_topics (remove_topic k c) = (subscribed_topics c).eraseIdx k := by
  unfold subscribed_topics remove_topic
  exact shift_topics_take c.topics k c.topic_count hk hn

theorem find_slot_modify_slot {α : Type} (p : α → Bool) (f : α → α) (hf : ∀ x, p (f x) = p x)
    (l : List α) (k : Nat) : find_slot p (modify_slot f l k) = find_slot p l := by
  induction l generalizing k with
  | nil => rfl
  | cons a as ih =>
    cases k with
    | zero => simp [modify_slot, find_slot, hf]
    | succ k => simp [modify_slot, find_slot, ih]

theorem modify_slot_modify_slot {α : Type} (f g : α → α) (l : List α) (k : Nat) :
    modify_slot g (modify_slot f l k) k = modify_slot (fun x => g (f x)) l k := by
  induction l generalizing k with
  | nil => rfl
  | cons a as ih =>
    cases k with
    | zero => rfl
    | succ k => simp [modify_slot, ih]

theorem find_slot_split {α : Type} (p : α → Bool) (pre : List α) (x : α) (post : List α)
    (hpre : ∀ y ∈ pre, p y = false) (hx : p x = true) :
    find_slot p (pre ++ x :: post) = some pre.length := by
  induction pre with
  | nil => simp [find_slot, hx]
  | cons a as ih =>
    have ha : p a = false := hpre a (List.mem_cons_self _ _)
    simp [find_slot, ha, ih (fun y hy => hpre y (List.mem_cons_of_mem _ hy))]

/-- With ids that are pairwise distinct among active clients and fit their field, the lookup
by the copied id finds the slot the lookup by connection found. -/
theorem relookup_by_id (s : State) (c i : Nat)
    (hf : find_client_by_connection s.s_clients c = some i)
    (hids : UniqueIds s) (hfit : IdsFit s) :
    find_client_by_id s.s_clients (strncpy64 (client_at s.s_clients i).id) = some i ∧
    (client_at s.s_clients i).active = true ∧ (client_at s.s_clients i).conn = c ∧
    i < s.s_clients.length := by
  obtain ⟨pre, x, post, hl, hlen, hx, _⟩ := find_slot_eq_some _ _ _ hf
  simp only [Bool.and_eq_true, decide_eq_true_eq] at hx
  have hat : client_at s.s_clients i = x := by rw [hl, ← hlen]; exact client_at_split pre x post
  have hxfit : strncpy64 x.id = x.id :=
    List.take_of_length_le (hfit x (by rw [hl]; simp))
  refine ⟨?_, by rw [hat]; exact hx.1, by rw [hat]; exact hx.2, by rw [hl, ← hlen]; simp⟩
  rw [hat, hxfit]
  unfold find_client_by_id
  rw [hl, ← hlen]
  apply find_slot_split
  · intro y hy
    by_cases hya : y.active = true
    · have hne : ¬ y.id = x.id := by
        intro he
        unfold UniqueIds active_ids at hids
        rw [hl, List.filter_append, List.map_append, List.filter_cons] at hids
        simp only [hx.1, if_true, List.map_cons] at hids
        exact (List.nodup_append.1 hids).2.2
          (List.mem_map.2 ⟨y, List.mem_filter.2 ⟨hy, hya⟩, he⟩) (List.mem_cons_self _ _)
      simp [hya, hne]
    · simp [hya]
  · simp [hx.1]

/-! ## Subscription messages -/

theorem send_to_client_found (env : Env) (s : State) (X : CStr) (m : websocket_message_t)
    (i : Nat) (hinit : s.s_initialized = true)
    (hf : find_client_by_id s.s_clients X = some i) (hc : (client_at s.s_clients i).conn ≠ 0) :
    websocket_manager_send_to_client env s (some X) (some m) =
      ({ s with s_clients := modify_slot (touch env.now) s.s_clients i },
        [Event.send_text (client_at s.s_clients i).conn (env.print (send_json env m))], true) := by
  unfold websocket_manager_send_to_client
  rw [ensure_initialized_of_initialized env s hinit]
  simp only [hf, hc, if_false]

theorem find_client_by_id_modify (f : websocket_client_t → websocket_client_t)
    (hf : ∀ x, (f x).active = x.active ∧ (f x).id = x.id)
    (cs : List websocket_client_t) (X : CStr) (k : Nat) :
    find_client_by_id (modify_slot f cs k) X = find_client_by_id cs X := by
  unfold find_client_by_id
  apply find_slot_modify_slot
  intro x
  rw [(hf x).1, (hf x).2]

/-- The `subscribe` branch for a client found in slot `i` whose topic list is full or holds
the topic already: nothing happens. -/
theorem handle_subscribe_skip (env : Env) (s : State) (id topic : CStr) (i : Nat)
    (hf : find_client_by_id s.s_clients id = some i)
    (hno : ¬ ((client_at s.s_clients i).topic_count < MAX_TOPICS ∧
        topic ∉ subscribed_topics (client_at s.s_clients i))) :
    handle_subscribe env s id topic = (s, []) := by
  unfold handle_subscribe
  rw [hf]
  simp only []
  by_cases h1 : (client_at s.s_clients i).topic_count ≥ MAX_TOPICS
  · rw [if_pos h1]
  · rw [if_neg h1]
    have h2 : topic ∈ subscribed_topics (client_at s.s_clients i) := by
      by_contra h2
      exact hno ⟨by omega, h2⟩
    rw [if_pos h2]

/-- The `subscribe` branch for a client found in slot `i` with a non-null connection, room
in its topic list and the topic not in it: the topic is appended, the ack sent, the handlers
registered. -/
theorem handle_subscribe_found (env : Env) (s : State) (id topic : CStr) (i : Nat)
    (hinit : s.s_initialized = true)
    (hf : find_client_by_id s.s_clients id = some i)
    (hc : (client_at s.s_clients i).conn ≠ 0)
    (h1 : (client_at s.s_clients i).topic_count < MAX_TOPICS)
    (h2 : topic ∉ subscribed_topics (client_at s.s_clients i)) :
    handle_subscribe env s id topic =
      (register_websocket_handlers env
        { s with s_clients :=
            modify_slot (fun x => touch env.now (add_topic topic x)) s.s_clients i },
        [Event.send_text (client_at s.s_clients i).conn
          (env.print (send_json env subscribed_ack)), Event.register_handlers]) := by
  have hi := find_slot_lt_length _ _ _ hf
  unfold handle_subscribe
  rw [hf]
  simp only []
  rw [if_neg (by omega), if_neg h2]
  have hsend := send_to_client_found env
    { s with s_clients := modify_slot (add_topic topic) s.s_clients i } id subscribed_ack i
    hinit (by
      show find_client_by_id (modify_slot (add_topic topic) s.s_clients i) id = some i
      rw [find_client_by_id_modify (add_topic topic) (fun _ => ⟨rfl, rfl⟩)]
      exact hf)
    (by
      show (client_at (modify_slot (add_topic topic) s.s_clients i) i).conn ≠ 0
      rw [client_at_modify_slot_same _ _ _ hi]
      exact hc)
  have hmsg : websocket_message_create (some (ascii "ack")) (some (ascii "system"))
      (some (ascii "\x7b\"message\":\"Subscribed\"\x7d")) = some subscribed_ack := rfl
  simp only [hmsg, hsend]
  rw [modify_slot_modify_slot, client_at_modify_slot_same _ _ _ hi]
  rfl

/-- The `unsubscribe` branch for a client found in slot `i` whose topic list does not hold
the topic: nothing happens. -/
theorem handle_unsubscribe_skip (env : Env) (s : State) (id topic : CStr) (i : Nat)
    (hf : find_client_by_id s.s_clients id = some i)
    (hk : find_slot (fun t => decide (t = topic)) (subscribed_topics (client_at s.s_clients i))
      = none) :
    handle_unsubscribe env s id topic = (s, []) := by
  unfold handle_unsubscribe
  rw [hf]
  simp only [hk]

/-- The `unsubscribe` branch for a client found in slot `i` with a non-null connection whose
topic list holds the topic first at index `k`: that entry is removed and the ack sent. -/
theorem handle_unsubscribe_found (env : Env) (s : State) (id topic : CStr) (i k : Nat)
    (hinit : s.s_initialized = true)
    (hf : find_client_by_id s.s_clients id = some i)
    (hc : (client_at s.s_clients i).conn ≠ 0)
    (hk : find_slot (fun t => decide (t = topic)) (subscribed_topics (client_at s.s_clients i))
      = some k) :
    handle_unsubscribe env s id topic =
      ({ s with s_clients :=
          modify_slot (fun x => touch env.now (remove_topic k x)) s.s_clients i },
        [Event.send_text (client_at s.s_clients i).conn
          (env.print (send_json env unsubscribed_ack))]) := by
  have hi := find_slot_lt_length _ _ _ hf
  unfold handle_unsubscribe
  rw [hf]
  simp only [hk]
  have hsend := send_to_client_found env
    { s with s_clients := modify_slot (remove_topic k) s.s_clients i } id unsubscribed_ack i
    hinit (by
      show find_client_by_id (modify_slot (remove_topic k) s.s_clients i) id = some i
      rw [find_client_by_id_modify (remove_topic k) (fun _ => ⟨rfl, rfl⟩)]
      exact hf)
    (by
      show (client_at (modify_slot (remove_topic k) s.s_clients i) i).conn ≠ 0
      rw [client_at_modify_slot_same _ _ _ hi]
      exact hc)
  have hmsg : websocket_message_create (some (ascii "ack")) (some (ascii "system"))
      (some (ascii "\x7b\"message\":\"Unsubscribed\"\x7d")) = some unsubscribed_ack := rfl
  simp only [hmsg, hsend]
  rw [modify_slot_modify_slot, client_at_modify_slot_same _ _ _ hi]
  rfl

/-- A validated message on the connection of the client in slot `i`: the state after the
timestamp update, and the lookup by the copied id, which finds slot `i` again. -/
theorem located_client (env : Env) (s : State) (c i : Nat)
    (hf : find_client_by_connection s.s_clients c = some i)
    (hids : UniqueIds s) (hfit : IdsFit s) :
    find_client_by_id (touched env s i).s_clients
      (strncpy64 (client_at (touched env s i).s_clients i).id) = some i ∧
    client_at (touched env s i).s_clients i = touch env.now (client_at s.s_clients i) ∧
    (client_at (touched env s i).s_clients i).conn = c := by
  obtain ⟨h1, _, h3, h4⟩ := relookup_by_id s c i hf hids hfit
  have hat : client_at (touched env s i).s_clients i = touch env.now (client_at s.s_clients i) :=
    client_at_modify_slot_same _ _ _ h4
  refine ⟨?_, hat, by rw [hat]; exact h3⟩
  rw [hat]
  show find_client_by_id (modify_slot (touch env.now) s.s_clients i) _ = some i
  rw [find_client_by_id_modify (touch env.now) (fun _ => ⟨rfl, rfl⟩)]
  exact h1

theorem handle_message_subscribe (env : Env) (s : State) (c : Nat) (data : CStr) (j : Json)
    (topic : CStr) (payload : Json) (i : Nat) (hinit : s.s_initialized = true)
    (hp : env.parse data = some j)
    (hd : decode_envelope j = some (ascii "subscribe", topic, payload))
    (hf : find_client_by_connection s.s_clients c = some i) :
    websocket_manager_handle_message env s c data =
      handle_subscribe env (touched env s i)
        (strncpy64 (client_at (touched env s i).s_clients i).id) topic := by
  rw [handle_message_of_decoded env s c data j _ hinit hp hd]
  unfold process_envelope
  rw [hf]
  simp only [if_true]
  rfl

theorem handle_message_unsubscribe (env : Env) (s : State) (c : Nat) (data : CStr) (j : Json)
    (topic : CStr) (payload : Json) (i : Nat) (hinit : s.s_initialized = true)
    (hp : env.parse data = some j)
    (hd : decode_envelope j = some (ascii "unsubscribe", topic, payload))
    (hf : find_client_by_connection s.s_clients c = some i) :
    websocket_manager_handle_message env s c data =
      handle_unsubscribe env (touched env s i)
        (strncpy64 (client_at (touched env s i).s_clients i).id) topic := by
  rw [handle_message_of_decoded env s c data j _ hinit hp hd]
  unfold process_envelope
  rw [hf]
  have hne : ¬ (ascii "unsubscribe" = ascii "subscribe") := by decide
  simp only [hne, if_false, if_true]
  rfl

/-- C19: on an initialized manager (ids pairwise distinct among active clients and fitting
their field), a `subscribe` message on the connection of a client whose topic_count equals
MAX_TOPICS (20) changes only the last_activity of that client: its topic list and topic_count
are as before, and nothing is sent, so no ack. -/
theorem subscribe_at_capacity (env : Env) (s : State) (c : Nat) (data : CStr) (j : Json)
    (topic : CStr) (payload : Json) (i : Nat) (hinit : s.s_initialized = true)
    (hp : env.parse data = some j)
    (hd : decode_envelope j = some (ascii "subscribe", topic, payload))
    (hf : find_client_by_connection s.s_clients c = some i)
    (hids : UniqueIds s) (hfit : IdsFit s)
    (hfull : (client_at s.s_clients i).topic_count = MAX_TOPICS) :
    websocket_manager_handle_message env s c data = (touched env s i, []) ∧
    (client_at (touched env s i).s_clients i).topics = (client_at s.s_clients i).topics ∧
    (client_at (touched env s i).s_clients i).topic_count =
      (client_at s.s_clients i).topic_count := by
  obtain ⟨h1, h2, _⟩ := located_client env s c i hf hids hfit
  refine ⟨?_, by rw [h2]; rfl, by rw [h2]; rfl⟩
  rw [handle_message_subscribe env s c data j topic payload i hinit hp hd hf]
  apply handle_subscribe_skip env _ _ _ i h1
  rw [h2]
  rintro ⟨h3, _⟩
  simp only [touch] at h3
  omega

theorem subscribe_at_capacity_witness :
    (client_at full_topics_state.s_clients 0).topic_count = 20 ∧
    websocket_manager_handle_message
      (env_ok 9 [] (some (envelope (ascii "subscribe") (ascii "one-more")))) full_topics_state 7
        [] = (touched (env_ok 9 [] (some (envelope (ascii "subscribe") (ascii "one-more"))))
          full_topics_state 0, []) :=
  ⟨by decide, (subscribe_at_capacity
    (env_ok 9 [] (some (envelope (ascii "subscribe") (ascii "one-more")))) full_topics_state 7 []
    (envelope (ascii "subscribe") (ascii "one-more")) (ascii "one-more") (Json.object []) 0
    (by decide) rfl rfl (by decide) (by unfold UniqueIds; decide) (by unfold IdsFit; decide)
    (by decide)).1⟩

/-- C20: on an initialized manager (ids pairwise distinct among active clients and fitting
their field), for a `subscribe` message on the non-null connection of a client whose topic
array has MAX_TOPICS entries: when the client has room and does not hold the topic, the
truncated topic is appended, topic_count grows by one, and the ack (type `ack`, topic
`system`, payload message `Subscribed`) is sent on that connection, followed by the handler
registration pass; otherwise, in particular when the topic is already present, only
last_activity changes and nothing is sent.  So the ack is sent if and only if the topic was
appended. -/
theorem subscribe_ack_iff_appended (env : Env) (s : State) (c : Nat) (data : CStr) (j : Json)
    (topic : CStr) (payload : Json) (i : Nat) (hinit : s.s_initialized = true)
    (hp : env.parse data = some j)
    (hd : decode_envelope j = some (ascii "subscribe", topic, payload))
    (hf : find_client_by_connection s.s_clients c = some i)
    (hids : UniqueIds s) (hfit : IdsFit s) (hc : c ≠ 0)
    (harr : (client_at s.s_clients i).topics.length = MAX_TOPICS) :
    ((client_at s.s_clients i).topic_count < MAX_TOPICS ∧
        topic ∉ subscribed_topics (client_at s.s_clients i) →
      (websocket_manager_handle_message env s c data).2 =
        [Event.send_text c (env.print (send_json env subscribed_ack)),
          Event.register_handlers] ∧
      subscribed_topics
          (client_at (websocket_manager_handle_message env s c data).1.s_clients i) =
        subscribed_topics (client_at s.s_clients i) ++ [strncpy64 topic] ∧
      (client_at (websocket_manager_handle_message env s c data).1.s_clients i).topic_count =
        (client_at s.s_clients i).topic_count + 1) ∧
    (¬ ((client_at s.s_clients i).topic_count < MAX_TOPICS ∧
        topic ∉ subscribed_topics (client_at s.s_clients i)) →
      websocket_manager_handle_message env s c data = (touched env s i, [])) ∧
    (Event.send_text c (env.print (send_json env subscribed_ack)) ∈
        (websocket_manager_handle_message env s c data).2 ↔
      subscribed_topics
          (client_at (websocket_manager_handle_message env s c data).1.s_clients i) =
        subscribed_topics (client_at s.s_clients i) ++ [strncpy64 topic]) := by
  obtain ⟨h1, h2, h3⟩ := located_client env s c i hf hids hfit
  have hi : i < s.s_clients.length := find_slot_lt_length _ _ _ hf
  have hmsg := handle_message_subscribe env s c data j topic payload i hinit hp hd hf
  have hyes : (client_at s.s_clients i).topic_count < MAX_TOPICS ∧
        topic ∉ subscribed_topics (client_at s.s_clients i) →
      (websocket_manager_handle_message env s c data).2 =
        [Event.send_text c (env.print (send_json env subscribed_ack)),
          Event.register_handlers] ∧
      subscribed_topics
          (client_at (websocket_manager_handle_message env s c data).1.s_clients i) =
        subscribed_topics (client_at s.s_clients i) ++ [strncpy64 topic] ∧
      (client_at (websocket_manager_handle_message env s c data).1.s_clients i).topic_count =
        (client_at s.s_clients i).topic_count + 1 := by
    rintro ⟨hroom, hnew⟩
    have hbranch := handle_subscribe_found env (touched env s i)
      (strncpy64 (client_at (touched env s i).s_clients i).id) topic i hinit h1
      (by rw [h3]; exact hc) (by rw [h2]; exact hroom) (by rw [h2]; exact hnew)
    have hkeep : ∀ st : State, st.s_initialized = true →
        (register_websocket_handlers env st).s_clients = st.s_clients :=
      fun st h => (register_websocket_handlers_keeps_clients env st h).2.1
    rw [hmsg, hbranch]
    simp only []
    rw [hkeep (State.mk
      (modify_slot (fun x => touch env.now (add_topic topic x)) (touched env s i).s_clients i)
      (touched env s i).s_handlers (touched env s i).s_initialized (touched env s i).heap) hinit]
    simp only []
    rw [client_at_modify_slot_same _ _ _ (by
      show i < (modify_slot (touch env.now) s.s_clients i).length
      rw [modify_slot_length]; exact hi), h3, h2]
    refine ⟨rfl, ?_, rfl⟩
    have := subscribed_topics_add_topic topic (touch env.now (client_at s.s_clients i))
      (by
        show (client_at s.s_clients i).topic_count < (client_at s.s_clients i).topics.length
        rw [harr]; exact hroom)
    exact this
  have hno : ¬ ((client_at s.s_clients i).topic_count < MAX_TOPICS ∧
        topic ∉ subscribed_topics (client_at s.s_clients i)) →
      websocket_manager_handle_message env s c data = (touched env s i, []) := by
    intro hskip
    rw [hmsg]
    apply handle_subscribe_skip env _ _ _ i h1
    rw [h2]
    exact hskip
  refine ⟨hyes, hno, ?_⟩
  by_cases hcase : (client_at s.s_clients i).topic_count < MAX_TOPICS ∧
      topic ∉ subscribed_topics (client_at s.s_clients i)
  · obtain ⟨e1, e2, _⟩ := hyes hcase
    rw [e1, e2]
    simp
  · rw [hno hcase, h2]
    constructor
    · intro hmem
      cases hmem
    · intro heq
      exfalso
      have hlen := congrArg List.length heq
      simp [subscribed_topics, touch] at hlen

theorem subscribe_ack_iff_appended_witness :
    (websocket_manager_handle_message
      (env_ok 9 [] (some (envelope (ascii "subscribe") (ascii "d")))) three_topics_state 7 []).2 =
      [Event.send_text 7 [], Event.register_handlers] ∧
    subscribed_topics (client_at (websocket_manager_handle_message
      (env_ok 9 [] (some (envelope (ascii "subscribe") (ascii "d")))) three_topics_state 7
        []).1.s_clients 0) = [ascii "a", ascii "b", ascii "c", ascii "d"] := by
  have h := (subscribe_ack_iff_appended
    (env_ok 9 [] (some (envelope (ascii "subscribe") (ascii "d")))) three_topics_state 7 []
    (envelope (ascii "subscribe") (ascii "d")) (ascii "d") (Json.object []) 0
    (by decide) rfl rfl (by decide) (by unfold UniqueIds; decide) (by unfold IdsFit; decide)
    (by decide) (by decide)).1 (by decide)
  refine ⟨h.1, ?_⟩
  rw [h.2.1]
  decide

/-- C18: on an initialized manager (ids pairwise distinct among active clients and fitting
their field), for an `unsubscribe` message on the non-null connection of a client whose
topic_count does not exceed its topic array: when the topic is in the topic list of the
client, its first occurrence is removed, the remaining topics keep their order, topic_count
drops by one and exactly one frame is sent, the ack on topic `system`; when the topic is not
in the list, only last_activity changes and nothing is sent. -/
theorem unsubscribe_removes_first (env : Env) (s : State) (c : Nat) (data : CStr) (j : Json)
    (topic : CStr) (payload : Json) (i : Nat) (hinit : s.s_initialized = true)
    (hp : env.parse data = some j)
    (hd : decode_envelope j = some (ascii "unsubscribe", topic, payload))
    (hf : find_client_by_connection s.s_clients c = some i)
    (hids : UniqueIds s) (hfit : IdsFit s) (hc : c ≠ 0)
    (hcount : (client_at s.s_clients i).topic_count ≤ (client_at s.s_clients i).topics.length) :
    (topic ∈ subscribed_topics (client_at s.s_clients i) →
      (websocket_manager_handle_message env s c data).2 =
        [Event.send_text c (env.print (send_json env unsubscribed_ack))] ∧
      (client_at (websocket_manager_handle_message env s c data).1.s_clients i).topic_count + 1
        = (client_at s.s_clients i).topic_count ∧
      ∃ k, find_slot (fun t => decide (t = topic)) (subscribed_topics (client_at s.s_clients i))
          = some k ∧
        subscribed_topics
            (client_at (websocket_manager_handle_message env s c data).1.s_clients i) =
          (subscribed_topics (client_at s.s_clients i)).eraseIdx k ∧
        (subscribed_topics (client_at s.s_clients i)).eraseIdx k =
          (subscribed_topics (client_at s.s_clients i)).erase topic) ∧
    (topic ∉ subscribed_topics (client_at s.s_clients i) →
      websocket_manager_handle_message env s c data = (touched env s i, [])) := by
  obtain ⟨h1, h2, h3⟩ := located_client env s c i hf hids hfit
  have hi : i < s.s_clients.length := find_slot_lt_length _ _ _ hf
  have hmsg := handle_message_unsubscribe env s c data j topic payload i hinit hp hd hf
  constructor
  · intro hmem
    obtain ⟨k, hk⟩ := find_slot_of_mem topic _ hmem
    obtain ⟨e1, _, e3⟩ := find_slot_eraseIdx topic _ k hk
    have hklt : k < (client_at s.s_clients i).topic_count := by
      simp only [subscribed_topics, List.length_take] at e3
      omega
    have hbranch := handle_unsubscribe_found env (touched env s i)
      (strncpy64 (client_at (touched env s i).s_clients i).id) topic i k hinit h1
      (by rw [h3]; exact hc) (by rw [h2]; exact hk)
    rw [hmsg, hbranch]
    simp only []
    rw [client_at_modify_slot_same _ _ _ (by
      show i < (modify_slot (touch env.now) s.s_clients i).length
      rw [modify_slot_length]; exact hi), h3, h2]
    refine ⟨rfl, ?_, k, hk, ?_, e1⟩
    · show (client_at s.s_clients i).topic_count - 1 + 1 = (client_at s.s_clients i).topic_count
      omega
    · exact subscribed_topics_remove_topic k (touch env.now (client_at s.s_clients i)) hklt hcount
  · intro hnot
    rw [hmsg]
    apply handle_unsubscribe_skip env _ _ _ i h1
    rw [h2, find_slot_eq_none]
    intro x hx
    have hne : x ≠ topic := fun he => hnot (he ▸ hx)
    simpa using hne

theorem unsubscribe_removes_first_witness :
    (websocket_manager_handle_message
      (env_ok 9 [] (some (envelope (ascii "unsubscribe") (ascii "b")))) three_topics_state 7
        []).2 = [Event.send_text 7 []] ∧
    (client_at (websocket_manager_handle_message
      (env_ok 9 [] (some (envelope (ascii "unsubscribe") (ascii "b")))) three_topics_state 7
        []).1.s_clients 0).topic_count + 1 = 3 := by
  have h := (unsubscribe_removes_first
    (env_ok 9 [] (some (envelope (ascii "unsubscribe") (ascii "b")))) three_topics_state 7 []
    (envelope (ascii "unsubscribe") (ascii "b")) (ascii "b") (Json.object []) 0
    (by decide) rfl rfl (by decide) (by unfold UniqueIds; decide) (by unfold IdsFit; decide)
    (by decide) (by decide)).1 (by decide)
  exact ⟨h.1, h.2.1⟩

/-! ## C30: the 401 response for HLS requests -/

/-- C30 at a failing input: with authentication enabled, an `/hls/` request without
Authorization header and without Cookie header is answered 401; the response declares
Content-Length 29, and the body after the header block, the JSON text plus the newline, has
26 bytes. -/
theorem unauthorized_content_length_mismatch :
    (hls_auth_gate true none none).isSome = true ∧
    (hls_auth_gate true none none).bind declared_content_length = some 29 ∧
    (hls_auth_gate true none none).bind http_body =
      some (ascii "\x7b\"error\": \"Unauthorized\"\x7d\n") ∧
    ((hls_auth_gate true none none).bind http_body).map List.length = some 26 := by
  decide

/-! ## C24: the welcome frames -/

/-- C24: for an id of at most 63 bytes, the fallback string `simple_welcome` equals the
primary `welcome_message`, both being the welcome envelope with that id as `client_id`; and
when the primary send on a WebSocket connection returns a non-positive result, the two frames
sent are the primary message and then the fallback. -/
theorem fallback_welcome_equal (id : CStr) (hid : id.length ≤ 63) :
    simple_welcome id = welcome_message id ∧
    welcome_message id =
      ascii "\x7b\"type\":\"welcome\",\"topic\":\"system\",\"payload\":\x7b\"client_id\":\"" ++ id ++
        ascii "\"\x7d\x7d" ∧
    (∀ (env : Env) (h : Heap) (c : Nat), c ≠ 0 → (h c).is_websocket = true →
      env.send_result 0 ≤ 0 →
      welcome_events env h c id =
        [Event.send_text c (welcome_message id), Event.send_text c (simple_welcome id)]) := by
  have l1 : (ascii "\x7b\"client_id\":\"").length = 14 := by decide
  have l2 : (ascii "\"\x7d").length = 2 := by decide
  have l3 : (ascii "\x7b\"type\":\"welcome\",\"topic\":\"system\",\"payload\":").length = 45 := by
    decide
  have l4 : (ascii "\x7d").length = 1 := by decide
  have l5 : (ascii
      "\x7b\"type\":\"welcome\",\"topic\":\"system\",\"payload\":\x7b\"client_id\":\"").length = 59 := by
    decide
  have l6 : (ascii "\"\x7d\x7d").length = 3 := by decide
  have e1 : ascii "\x7b\"type\":\"welcome\",\"topic\":\"system\",\"payload\":\x7b\"client_id\":\"" =
      ascii "\x7b\"type\":\"welcome\",\"topic\":\"system\",\"payload\":" ++
        ascii "\x7b\"client_id\":\"" := by decide
  have e2 : ascii "\"\x7d\x7d" = ascii "\"\x7d" ++ ascii "\x7d" := by decide
  have hp : welcome_payload id = ascii "\x7b\"client_id\":\"" ++ id ++ ascii "\"\x7d" := by
    unfold welcome_payload snprintf
    apply List.take_of_length_le
    simp only [List.length_append, l1, l2]
    omega
  have hw : welcome_message id =
      ascii "\x7b\"type\":\"welcome\",\"topic\":\"system\",\"payload\":\x7b\"client_id\":\"" ++ id ++
        ascii "\"\x7d\x7d" := by
    unfold welcome_message snprintf
    rw [hp, List.take_of_length_le]
    · rw [e1, e2]
      simp only [List.append_assoc]
    · simp only [List.length_append, l1, l2, l3, l4]
      omega
  have hs : simple_welcome id =
      ascii "\x7b\"type\":\"welcome\",\"topic\":\"system\",\"payload\":\x7b\"client_id\":\"" ++ id ++
        ascii "\"\x7d\x7d" := by
    unfold simple_welcome snprintf
    apply List.take_of_length_le
    simp only [List.length_append, l5, l6]
    omega
  refine ⟨by rw [hs, hw], hw, ?_⟩
  intro env h c hc hws hres
  unfold welcome_events
  rw [if_pos ⟨hc, hws⟩, if_pos hres]

theorem fallback_welcome_equal_witness :
    simple_welcome (ascii "id-1") = welcome_message (ascii "id-1") ∧
    welcome_message (ascii "id-1") =
      ascii "\x7b\"type\":\"welcome\",\"topic\":\"system\",\"payload\":\x7b\"client_id\":\"id-1\"\x7d\x7d" := by
  have h := fallback_welcome_equal (ascii "id-1") (by decide)
  refine ⟨h.1, ?_⟩
  rw [h.2.1]
  decide

/-! ## C28: pagination of the recordings list -/

theorem wrap_int_of_is_int (x : Int) (h : is_int x) : wrap_int x = x := by
  unfold is_int INT_MIN INT_MAX at h
  unfold wrap_int
  omega

theorem requested_limit_cases (limit_param : Option Int) :
    1 ≤ requested_limit limit_param ∧ requested_limit limit_param ≤ 100 ∧
    ((limit_param = none ∨ ∃ v, limit_param = some v ∧ v ≤ 0) →
      requested_limit limit_param = 20) ∧
    (∀ v, limit_param = some v → 100 < v → requested_limit limit_param = 100) ∧
    (∀ v, limit_param = some v → 1 ≤ v → v ≤ 100 → requested_limit limit_param = v) := by
  unfold requested_limit
  cases limit_param with
  | none => simp
  | some v =>
    simp only [Option.some.injEq, false_or, exists_eq_left', forall_eq', reduceCtorEq]
    refine ⟨?_, ?_, ?_, ?_, ?_⟩
    · split
      · omega
      · split <;> omega
    · split
      · omega
      · split <;> omega
    · intro hv
      rw [if_neg (by omega), if_neg (by omega)]
    · intro hv
      rw [if_neg (by omega), if_pos (by omega)]
    · intro h1 h2
      rw [if_pos (by omega)]

theorem requested_page_pos (page_param : Option Int) : 1 ≤ requested_page page_param := by
  unfold requested_page
  cases page_param with
  | none => simp
  | some v =>
    simp only []
    split <;> omega

/-- The quotient `(t + l - 1) / l` is the ceiling of `t / l`. -/
theorem ceil_div_bounds (t l : Int) (hl : 0 < l) (ht : 0 ≤ t) :
    ((t + l - 1) / l - 1) * l < t ∧ t ≤ (t + l - 1) / l * l ∧ 0 ≤ (t + l - 1) / l := by
  have h1 := Int.ediv_add_emod (t + l - 1) l
  have h2 := Int.emod_nonneg (t + l - 1) (by omega : l ≠ 0)
  have h3 := Int.emod_lt_of_pos (t + l - 1) hl
  have h4 : 0 ≤ (t + l - 1) / l := Int.ediv_nonneg (by omega) (by omega)
  have e1 : ((t + l - 1) / l - 1) * l = l * ((t + l - 1) / l) - l := by ring
  have e2 : (t + l - 1) / l * l = l * ((t + l - 1) / l) := by ring
  rw [e1, e2]
  refine ⟨by linarith, by linarith, h4⟩

theorem ceil_div_eq (t l : Int) (hl : 0 < l) (ht : 0 ≤ t) :
    ⌈(t : ℚ) / (l : ℚ)⌉ = (t + l - 1) / l := by
  obtain ⟨h1, h2, _⟩ := ceil_div_bounds t l hl ht
  have hlq : (0 : ℚ) < (l : ℚ) := by exact_mod_cast hl
  rw [Int.ceil_eq_iff]
  constructor
  · rw [lt_div_iff₀ hlq]
    have : ((((t + l - 1) / l - 1) * l : Int) : ℚ) < (t : ℚ) := by exact_mod_cast h1
    push_cast at this
    linarith
  · rw [div_le_iff₀ hlq]
    have : ((t : Int) : ℚ) ≤ (((t + l - 1) / l * l : Int) : ℚ) := by exact_mod_cast h2
    push_cast at this
    linarith

/-- C28, within the range of `int`: for every total_count >= 0 with total_count + limit not
above INT_MAX and every pair of query parameters, handle_get_recordings computes a limit in
1..100 (20 when the parameter is absent or not positive, 100 when it exceeds 100),
total_pages = max(1, ceil(total_count / limit)), a served page with 1 <= page <= total_pages
(the requested page, capped), offset = (page - 1) * limit, 0 <= actual_limit <= limit,
offset + actual_limit <= total_count, and actual_limit >= 1 when total_count > 0. -/
theorem recordings_page_window (page_param limit_param : Option Int) (total_count : Int)
    (h0 : 0 ≤ total_count) (hmax : total_count + requested_limit limit_param ≤ INT_MAX) :
    ∃ w, handle_get_recordings page_param limit_param total_count = some w ∧
      w.limit = requested_limit limit_param ∧ 1 ≤ w.limit ∧ w.limit ≤ 100 ∧
      ((limit_param = none ∨ ∃ v, limit_param = some v ∧ v ≤ 0) → w.limit = 20) ∧
      (∀ v, limit_param = some v → 100 < v → w.limit = 100) ∧
      w.total_pages = max 1 ⌈(total_count : ℚ) / (w.limit : ℚ)⌉ ∧
      w.page = min (requested_page page_param) w.total_pages ∧
      1 ≤ w.page ∧ w.page ≤ w.total_pages ∧
      w.offset = (w.page - 1) * w.limit ∧
      0 ≤ w.actual_limit ∧ w.actual_limit ≤ w.limit ∧
      w.offset + w.actual_limit ≤ total_count ∧
      (0 < total_count → 1 ≤ w.actual_limit) := by
  obtain ⟨hl1, hl2, hdef, hcap, _⟩ := requested_limit_cases limit_param
  have hp := requested_page_pos page_param
  generalize hlq : requested_limit limit_param = l at *
  generalize hpq : requested_page page_param = p at *
  obtain ⟨hq1, hq2, hq3⟩ := ceil_div_bounds total_count l (by omega) h0
  have hceil := ceil_div_eq total_count l (by omega) h0
  unfold INT_MAX at hmax
  have hw1 : wrap_int (wrap_int (total_count + l) - 1) = total_count + l - 1 := by
    rw [wrap_int_of_is_int (total_count + l) (by unfold is_int INT_MIN INT_MAX; omega),
      wrap_int_of_is_int _ (by unfold is_int INT_MIN INT_MAX; omega)]
  have htd : Int.tdiv (total_count + l - 1) l = (total_count + l - 1) / l :=
    Int.tdiv_eq_ediv (by omega) (by omega)
  generalize hq : (total_count + l - 1) / l = q at *
  -- the number of pages and the served page
  have htp : 1 ≤ (if q = 0 then 1 else q) ∧ ((if q = 0 then 1 else q) - 1) * l < total_count ∨
      (total_count = 0 ∧ (if q = 0 then (1 : Int) else q) = 1) := by
    by_cases hz : q = 0
    · right
      rw [hz] at hq2
      rw [if_pos hz]
      exact ⟨by omega, rfl⟩
    · left
      rw [if_neg hz]
      exact ⟨by omega, hq1⟩
  have hmaxq : (if q = 0 then (1 : Int) else q) = max 1 q := by
    by_cases hz : q = 0
    · rw [if_pos hz, hz]; rfl
    · rw [if_neg hz, max_eq_right (by omega)]
  generalize htpd : (if q = 0 then (1 : Int) else q) = tp at *
  have htp1 : 1 ≤ tp := by
    rcases htp with h | h
    · exact h.1
    · omega
  have hpage : (if p > tp then tp else p) = min p tp := by
    by_cases hgt : p > tp
    · rw [if_pos hgt, min_eq_right (by omega)]
    · rw [if_neg hgt, min_eq_left (by omega)]
  generalize hsd : min p tp = sp at *
  have hsp : 1 ≤ sp ∧ sp ≤ tp := by
    rw [← hsd]
    exact ⟨le_min hp htp1, min_le_right _ _⟩
  -- the offset stays below the count
  have hmono : (sp - 1) * l ≤ (tp - 1) * l :=
    Int.mul_le_mul_of_nonneg_right (by omega) (by omega)
  have hnn : 0 ≤ (sp - 1) * l := Int.mul_nonneg (by omega) (by omega)
  have hoff : (sp - 1) * l ≤ total_count ∧ (0 < total_count → (sp - 1) * l < total_count) := by
    rcases htp with h | h
    · exact ⟨by omega, fun _ => by omega⟩
    · have : (tp - 1) * l = 0 := by rw [h.2]; simp
      exact ⟨by omega, fun hpos => by omega⟩
  have hw2 : wrap_int (wrap_int (sp - 1) * l) = (sp - 1) * l := by
    rw [wrap_int_of_is_int (sp - 1) (by
      unfold is_int INT_MIN INT_MAX
      have : sp - 1 ≤ (sp - 1) * l := by nlinarith
      omega)]
    exact wrap_int_of_is_int _ (by unfold is_int INT_MIN INT_MAX; omega)
  generalize hod : (sp - 1) * l = o at *
  have hw3 : wrap_int (o + l) = o + l :=
    wrap_int_of_is_int _ (by unfold is_int INT_MIN INT_MAX; omega)
  have hw4 : wrap_int (total_count - o) = total_count - o :=
    wrap_int_of_is_int _ (by unfold is_int INT_MIN INT_MAX; omega)
  refine ⟨{ limit := l, total_pages := tp, page := sp, offset := o,
            actual_limit :=
              if (if o + l ≤ total_count then l else total_count - o) < 0 then 0
              else (if o + l ≤ total_count then l else total_count - o) },
    ?_, rfl, hl1, hl2, hdef, hcap, ?_, hsd.symm, hsp.1, hsp.2, hod.symm, ?_⟩
  · unfold handle_get_recordings
    simp only [hlq, hpq, not_lt.2 h0, if_false, hw1, htd, hq, htpd, hpage, hsd, hw2, hod, hw3,
      hw4]
  · rw [hceil, hmaxq]
  · by_cases hfull : o + l ≤ total_count
    · simp only [if_pos hfull]
      rw [if_neg (by omega)]
      exact ⟨by omega, le_refl _, hfull, fun _ => hl1⟩
    · simp only [if_neg hfull]
      rw [if_neg (by omega)]
      exact ⟨by omega, by omega, by omega, fun hpos => by have := hoff.2 hpos; omega⟩

theorem recordings_page_window_witness :
    ∃ w, handle_get_recordings (some 3) none 45 = some w ∧
      1 ≤ w.page ∧ w.page ≤ w.total_pages ∧ w.offset = (w.page - 1) * w.limit ∧
      w.offset + w.actual_limit ≤ 45 := by
  obtain ⟨w, hw, _, _, _, _, _, _, _, h1, h2, h3, _, _, h4, _⟩ :=
    recordings_page_window (some 3) none 45 (by decide) (by decide)
  exact ⟨w, hw, h1, h2, h3, h4⟩

/-- C28, as stated, fails at the top of the range of `int`: with total_count = 2147483647,
limit = 100 and page 1 the sum total_count + limit wraps around; total_pages and the served
page come out as -21474835 and the offset is negative. -/
theorem recordings_page_window_overflow :
    (0 : Int) ≤ 2147483647 ∧
    handle_get_recordings (some 1) (some 100) 2147483647 =
      some { limit := 100, total_pages := -21474835, page := -21474835, offset := -2147483600,
             actual_limit := 100 } := by
  decide

/-! ## C29: one page of recording metadata -/

/-- C29: for `int` arguments offset >= 0 and limit >= 1 and an `int` count `n` returned by
the get_recording_metadata call (made for a buffer of offset + limit records),
get_recording_metadata_paginated returns -1 and leaves the buffer of the caller alone when
n < 0; otherwise it returns min(limit, max(0, n - offset)), which is between 0 and limit,
and the buffer of the caller holds exactly that many copied records, those at positions
offset .. offset + result - 1 of the fetched buffer, the rest of it being as before. -/
theorem paginated_result {R : Type} (fetch : Int → Int × (Nat → R)) (offset limit : Int)
    (recordings : Nat → R) (hoff : 0 ≤ offset) (hlim : 1 ≤ limit)
    (hoi : is_int offset) (hli : is_int limit)
    (hni : is_int (fetch (wrap_int (offset + limit))).1) :
    (offset + limit ≤ INT_MAX → wrap_int (offset + limit) = offset + limit) ∧
    ((fetch (wrap_int (offset + limit))).1 < 0 →
      get_recording_metadata_paginated fetch offset limit recordings = (-1, recordings)) ∧
    (0 ≤ (fetch (wrap_int (offset + limit))).1 →
      (get_recording_metadata_paginated fetch offset limit recordings).1 =
        min limit (max 0 ((fetch (wrap_int (offset + limit))).1 - offset)) ∧
      0 ≤ (get_recording_metadata_paginated fetch offset limit recordings).1 ∧
      (get_recording_metadata_paginated fetch offset limit recordings).1 ≤ limit ∧
      (∀ k : Nat,
        (k : Int) < (get_recording_metadata_paginated fetch offset limit recordings).1 →
        (k : Int) + offset < (fetch (wrap_int (offset + limit))).1 ∧
        (get_recording_metadata_paginated fetch offset limit recordings).2 k =
          (fetch (wrap_int (offset + limit))).2 (offset.toNat + k)) ∧
      (∀ k : Nat,
        (get_recording_metadata_paginated fetch offset limit recordings).1 ≤ (k : Int) →
        (get_recording_metadata_paginated fetch offset limit recordings).2 k = recordings k)) := by
  refine ⟨fun h => wrap_int_of_is_int _ (by unfold is_int INT_MIN INT_MAX at *; omega), ?_, ?_⟩
  · intro hneg
    unfold get_recording_metadata_paginated
    simp only [hneg, if_true]
  · intro hn
    generalize hr : fetch (wrap_int (offset + limit)) = r at *
    have hw : wrap_int (r.1 - offset) = r.1 - offset :=
      wrap_int_of_is_int _ (by unfold is_int INT_MIN INT_MAX at *; omega)
    unfold get_recording_metadata_paginated
    simp only [hr, not_lt.2 hn, if_false, hw]
    by_cases hav : r.1 - offset > 0
    · simp only [if_pos hav]
      by_cases hlt : r.1 - offset < limit
      · simp only [if_pos hlt, if_pos hav]
        refine ⟨by rw [max_eq_right (by omega), min_eq_right (by omega)], by omega, by omega,
          fun k hk => ⟨by omega, ?_⟩, fun k hk => ?_⟩
        · rw [if_pos (by omega)]
        · rw [if_neg (by omega)]
      · have hpos : limit > 0 := by omega
        simp only [if_neg hlt, if_pos hpos]
        refine ⟨by rw [max_eq_right (by omega), min_eq_left (by omega)], by omega, le_refl _,
          fun k hk => ⟨by omega, ?_⟩, fun k hk => ?_⟩
        · rw [if_pos (by omega)]
        · rw [if_neg (by omega)]
    · simp only [if_neg hav, lt_irrefl, if_false]
      refine ⟨by rw [max_eq_left (by omega), min_eq_right (by omega)], le_refl _, by omega,
        fun k hk => ?_, fun k _ => trivial⟩
      omega

theorem paginated_result_witness :
    (get_recording_metadata_paginated five_recordings 3 4 (fun _ => 9)).1 = 2 ∧
    (get_recording_metadata_paginated five_recordings 3 4 (fun _ => 9)).2 1 = 4 ∧
    (get_recording_metadata_paginated five_recordings 3 4 (fun _ => 9)).2 2 = 9 := by
  have h := (paginated_result five_recordings 3 4 (fun _ => 9) (by decide) (by decide)
    (by decide) (by decide) (by decide)).2.2 (by decide)
  refine ⟨?_, ?_, ?_⟩
  · rw [h.1]; decide
  · rw [(h.2.2.2.1 1 (by rw [h.1]; decide)).2]; decide
  · rw [h.2.2.2.2 2 (by rw [h.1]; decide)]

/-! ## C23: close events without a matching client -/

theorem handle_close_unmatched (s : State) (c : Nat)
    (h : s.s_initialized = false ∨ c = 0 ∨
      ∀ x ∈ s.s_clients, ¬ (x.active = true ∧ x.conn = c)) :
    websocket_manager_handle_close s c = s := by
  unfold websocket_manager_handle_close websocket_manager_is_initialized
  rcases h with h | h | h
  · simp [h]
  · simp [h]
  · have hf : find_client_by_connection s.s_clients c = none := by
      unfold find_client_by_connection
      rw [find_slot_eq_none]
      intro x hx
      have := h x hx
      cases ha : x.active
      · rfl
      · simpa [ha] using this
    unfold remove_client_by_connection
    rw [hf]
    split
    · rfl
    · split <;> rfl

/-- C23, as the code has it: websocket_manager_handle_close(c) returns the state as it
is (client slots, handler slots, flag, connection objects) when the manager is not
initialized, when c is NULL, or when no active client holds c; and when at most one active
client holds c, handling close twice gives the same state as handling it once. -/
theorem close_twice_single_holder (s : State) (c : Nat) :
    ((s.s_initialized = false ∨ c = 0 ∨
        ∀ x ∈ s.s_clients, ¬ (x.active = true ∧ x.conn = c)) →
      websocket_manager_handle_close s c = s) ∧
    ((active_conns s.s_clients).count c ≤ 1 →
      websocket_manager_handle_close (websocket_manager_handle_close s c) c =
        websocket_manager_handle_close s c) := by
  refine ⟨handle_close_unmatched s c, fun hcount => ?_⟩
  by_cases hi : s.s_initialized = false
  · rw [handle_close_unmatched s c (Or.inl hi), handle_close_unmatched s c (Or.inl hi)]
  by_cases hc : c = 0
  · rw [handle_close_unmatched s c (Or.inr (Or.inl hc)),
      handle_close_unmatched s c (Or.inr (Or.inl hc))]
  cases hf : find_client_by_connection s.s_clients c with
  | none =>
    have hno : ∀ x ∈ s.s_clients, ¬ (x.active = true ∧ x.conn = c) := by
      intro x hx hboth
      have := (find_slot_eq_none _ _).1 hf x hx
      simp [hboth.1, hboth.2] at this
    rw [handle_close_unmatched s c (Or.inr (Or.inr hno)),
      handle_close_unmatched s c (Or.inr (Or.inr hno))]
  | some i =>
    obtain ⟨pre, x, post, hl, hlen, hx, hpre⟩ := find_slot_eq_some _ _ _ hf
    have hxa : x.active = true ∧ x.conn = c := by simpa using hx
    have hclose : websocket_manager_handle_close s c =
        { s with s_clients := pre ++ deactivate x :: post } := by
      unfold websocket_manager_handle_close websocket_manager_is_initialized
        remove_client_by_connection
      have hi' : s.s_initialized = true := by
        cases h : s.s_initialized
        · exact absurd h hi
        · rfl
      simp only [hi', hc, hf, Bool.not_true, Bool.false_eq_true, if_false]
      rw [hl, ← hlen, modify_slot_split]
    rw [hclose]
    apply handle_close_unmatched
    right; right
    intro y hy hboth
    have hy' : y ∈ pre ++ deactivate x :: post := hy
    rcases List.mem_append.1 hy' with h1 | h1
    · have := hpre y h1
      simp [hboth.1, hboth.2] at this
    · rcases List.mem_cons.1 h1 with h2 | h2
      · rw [h2] at hboth
        exact Bool.noConfusion hboth.1
      · have hmem : c ∈ active_conns post := by
          unfold active_conns
          exact List.mem_map.2 ⟨y, List.mem_filter.2 ⟨h2, hboth.1⟩, hboth.2⟩
        have hsplit : active_conns s.s_clients =
            active_conns pre ++ c :: active_conns post := by
          rw [hl]
          unfold active_conns
          rw [List.filter_append, List.map_append, List.filter_cons]
          simp only [hxa.1, if_true, List.map_cons, hxa.2]
        rw [hsplit, List.count_append, List.count_cons_self] at hcount
        have := List.count_pos_iff.2 hmem
        omega

theorem close_twice_single_holder_witness :
    websocket_manager_handle_close (websocket_manager_handle_close one_client_state 7) 7 =
      websocket_manager_handle_close one_client_state 7 :=
  (close_twice_single_holder one_client_state 7).2 (by decide)

/-- C23, as stated, fails: after two opens of connection 7 the first close frees slot 0
only, the second close still finds an active client on connection 7 (slot 1) and frees it,
so two closes do not leave the client table one close leaves. -/
theorem second_close_removes_second_client :
    find_client_by_connection
      (websocket_manager_handle_close shared_state 7).s_clients 7 = some 1 ∧
    active_conns (websocket_manager_handle_close shared_state 7).s_clients = [7] ∧
    active_conns (websocket_manager_handle_close
      (websocket_manager_handle_close shared_state 7) 7).s_clients = [] ∧
    (websocket_manager_handle_close (websocket_manager_handle_close shared_state 7) 7).s_clients
      ≠ (websocket_manager_handle_close shared_state 7).s_clients := by
  decide

/-! ## C21: dispatch to a registered handler -/

theorem handler_at_split (pre : List websocket_handler_t) (x : websocket_handler_t)
    (post : List websocket_handler_t) : handler_at (pre ++ x :: post) pre.length = x := by
  induction pre with
  | nil => rfl
  | cons a as ih => simpa [handler_at] using ih

theorem lookup_handler_some (handlers : List websocket_handler_t) (topic : CStr) (h : Nat)
    (hl : lookup_handler handlers topic = some h) :
    h ≠ 0 ∧ ∃ idx, find_handler_by_topic handlers topic = some idx ∧
      (handler_at handlers idx).active = true ∧ (handler_at handlers idx).topic = topic ∧
      (handler_at handlers idx).handler = h := by
  unfold lookup_handler at hl
  cases hf : find_handler_by_topic handlers topic with
  | none => rw [hf] at hl; cases hl
  | some idx =>
    rw [hf] at hl
    simp only [] at hl
    by_cases hz : (handler_at handlers idx).handler ≠ 0
    · rw [if_pos hz] at hl
      cases hl
      obtain ⟨pre, x, post, hsplit, hlen, hx, _⟩ := find_slot_eq_some _ _ _ hf
      have hat : handler_at handlers idx = x := by
        rw [hsplit, ← hlen]
        exact handler_at_split pre x post
      have hx' : x.active = true ∧ x.topic = topic := by simpa using hx
      exact ⟨hz, idx, rfl, by rw [hat]; exact hx'.1, by rw [hat]; exact hx'.2, rfl⟩
    · rw [if_neg hz] at hl
      cases hl

/-- C21: on an initialized manager, for a message that passes validation and whose type is
neither `subscribe` nor `unsubscribe`: without a client for the connection nothing happens;
with the client in slot `i`, if a handler is found for the topic, its callback is called once
with the id of that client and the printed payload, and register_websocket_handlers is not
called; if none is found, register_websocket_handlers is called once and the lookup repeated,
and the callback found then is called once, or none when the lookup fails again.  In each
case the client table is the one before the call with last_activity of slot `i` updated.  A
callback found for a topic is the non-NULL callback of the first active handler slot whose
topic is that topic. -/
theorem dispatch_to_handler (env : Env) (s : State) (c : Nat) (data : CStr) (j : Json)
    (type topic : CStr) (payload : Json) (hinit : s.s_initialized = true)
    (hp : env.parse data = some j) (hd : decode_envelope j = some (type, topic, payload))
    (hsub : type ≠ ascii "subscribe") (hunsub : type ≠ ascii "unsubscribe") :
    (find_client_by_connection s.s_clients c = none →
      websocket_manager_handle_message env s c data = (s, [])) ∧
    (∀ i, find_client_by_connection s.s_clients c = some i →
      (∀ h, lookup_handler s.s_handlers topic = some h →
        websocket_manager_handle_message env s c data =
          (touched env s i,
            [Event.handler_call h (strncpy64 (client_at s.s_clients i).id)
              (env.print payload)])) ∧
      (lookup_handler s.s_handlers topic = none →
        (∀ h, lookup_handler (register_websocket_handlers env (touched env s i)).s_handlers
            topic = some h →
          websocket_manager_handle_message env s c data =
            (register_websocket_handlers env (touched env s i),
              [Event.register_handlers,
                Event.handler_call h (strncpy64 (client_at s.s_clients i).id)
                  (env.print payload)])) ∧
        (lookup_handler (register_websocket_handlers env (touched env s i)).s_handlers
            topic = none →
          websocket_manager_handle_message env s c data =
            (register_websocket_handlers env (touched env s i),
              [Event.register_handlers]))) ∧
      (websocket_manager_handle_message env s c data).1.s_clients =
        modify_slot (touch env.now) s.s_clients i ∧
      ((client_at s.s_clients i).id.length ≤ 63 →
        strncpy64 (client_at s.s_clients i).id = (client_at s.s_clients i).id)) ∧
    (∀ handlers h, lookup_handler handlers topic = some h →
      h ≠ 0 ∧ ∃ idx, find_handler_by_topic handlers topic = some idx ∧
        (handler_at handlers idx).active = true ∧ (handler_at handlers idx).topic = topic ∧
        (handler_at handlers idx).handler = h) := by
  have hmsg := handle_message_of_decoded env s c data j (type, topic, payload) hinit hp hd
  refine ⟨fun hf => ?_, fun i hf => ?_, fun handlers h hl => lookup_handler_some handlers topic h hl⟩
  · rw [hmsg]
    unfold process_envelope
    rw [hf]
  · have hi : i < s.s_clients.length := find_slot_lt_length _ _ _ hf
    have hid : strncpy64 (client_at (modify_slot (touch env.now) s.s_clients i) i).id =
        strncpy64 (client_at s.s_clients i).id := by
      rw [client_at_modify_slot_same _ _ _ hi]
      rfl
    have hother : websocket_manager_handle_message env s c data =
        handle_other env (touched env s i) (strncpy64 (client_at s.s_clients i).id) topic
          (env.print payload) := by
      rw [hmsg]
      unfold process_envelope
      rw [hf]
      simp only [if_neg hsub, if_neg hunsub, hid]
      rfl
    have hkeep := (register_websocket_handlers_keeps_clients env (touched env s i) hinit).2.1
    have hh : (touched env s i).s_handlers = s.s_handlers := rfl
    refine ⟨fun h hl => ?_, fun hl => ⟨fun h hl2 => ?_, fun hl2 => ?_⟩, ?_, fun hfit => ?_⟩
    · rw [hother]
      unfold handle_other
      rw [hh, hl]
    · rw [hother]
      unfold handle_other
      rw [hh, hl]
      simp only [hl2]
    · rw [hother]
      unfold handle_other
      rw [hh, hl]
      simp only [hl2]
    · rw [hother]
      unfold handle_other
      rw [hh]
      cases hl : lookup_handler s.s_handlers topic with
      | some h => rfl
      | none =>
        simp only []
        cases hl2 : lookup_handler (register_websocket_handlers env (touched env s i)).s_handlers
            topic with
        | some h => exact hkeep
        | none => exact hkeep
    · unfold strncpy64
      exact List.take_of_length_le hfit

theorem dispatch_to_handler_witness :
    websocket_manager_handle_message (env_ok 77 [] (some (envelope (ascii "ping") (ascii "t"))))
      one_client_state 7 [] =
      (register_websocket_handlers (env_ok 77 [] (some (envelope (ascii "ping") (ascii "t"))))
        (touched (env_ok 77 [] (some (envelope (ascii "ping") (ascii "t")))) one_client_state 0),
        [Event.register_handlers]) :=
  (((dispatch_to_handler (env_ok 77 [] (some (envelope (ascii "ping") (ascii "t"))))
    one_client_state 7 [] (envelope (ascii "ping") (ascii "t")) (ascii "ping") (ascii "t")
    (Json.object []) (by decide) rfl rfl (by decide) (by decide)).2.1 0 (by decide)).2.1
      (by decide)).2 (by decide)

/-! ## C25: active slots hold a connection -/

theorem live_of_benign (old new : List websocket_client_t) (b : Benign old new)
    (h : ConnsLive old) : ConnsLive new := by
  intro c hc hact
  have hmem : (c.id, c.conn) ∈ idents new :=
    List.mem_map.2 ⟨c, List.mem_filter.2 ⟨hc, hact⟩, rfl⟩
  obtain ⟨x, hx, he⟩ := List.mem_map.1 (b.1.subset hmem)
  obtain ⟨hxm, hxa⟩ := List.mem_filter.1 hx
  have hconn : x.conn = c.conn := congrArg Prod.snd he
  rw [← hconn]
  exact h x hxm hxa

theorem live_replicate_zero (n : Nat) : ConnsLive (List.replicate n zero_client) := by
  intro c hc hact
  rw [(List.mem_replicate.1 hc).2] at hact
  cases hact

theorem live_handle_open (env : Env) (s : State) (c : Nat) (h : ConnsLive s.s_clients) :
    ConnsLive (websocket_manager_handle_open env s c).1.s_clients := by
  rcases handle_open_cases env s c with q | ⟨hc, s1, pre, x, post, q, hl, _, _, he⟩
  · exact live_of_benign _ _ q.1 h
  · rw [he]
    have h1 : ConnsLive (pre ++ x :: post) := by
      rw [← hl]
      exact live_of_benign _ _ q.1 h
    intro y hy hact
    have hy' : y ∈ pre ++ open_slot env c x :: post := hy
    simp only [List.mem_append, List.mem_cons] at hy'
    rcases hy' with hy' | rfl | hy'
    · exact h1 y (by simp [hy']) hact
    · exact hc
    · exact h1 y (by simp [hy']) hact

theorem live_step (s : State) (op : Op) (hsh : ∀ env, op ≠ Op.shutdown env)
    (h : ConnsLive s.s_clients) : ConnsLive (step s op).s_clients := by
  by_cases hop : ∃ env c, op = Op.handle_open env c
  · obtain ⟨env, c, rfl⟩ := hop
    exact live_handle_open env s c h
  · exact live_of_benign _ _
      (quiet_step s op (fun env c he => hop ⟨env, c, he⟩) hsh).1 h

theorem live_run (ops : List Op) (s : State) (hws : without_shutdown ops = true)
    (h : ConnsLive s.s_clients) : ConnsLive (run s ops).s_clients := by
  induction ops generalizing s with
  | nil => exact h
  | cons op ops ih =>
    have hsh : ∀ env, op ≠ Op.shutdown env := by
      intro env he
      rw [he] at hws
      simp [without_shutdown] at hws
    have hrest : without_shutdown ops = true := by
      cases op <;> first | exact hws | exact absurd rfl (hsh _)
    exact ih (step s op) hrest (live_step s op hsh h)

/-- A call on an uninitialized manager either leaves the state as it is, or does what it
does on the freshly initialized manager. -/
theorem step_of_uninitialized (s : State) (op : Op) (h : s.s_initialized = false) :
    step s op = s ∨
    ∃ s0, s0.s_initialized = true ∧ s0.s_clients = List.replicate MAX_CLIENTS zero_client ∧
      step s op = step s0 op := by
  have key : ∀ env, ensure_initialized env s = none ∨
      ∃ s0, ensure_initialized env s = some s0 ∧ s0.s_initialized = true ∧
        s0.s_clients = List.replicate MAX_CLIENTS zero_client ∧
        ensure_initialized env s0 = some s0 := by
    intro env
    rcases ensure_cases env s with ⟨hi, _⟩ | ⟨_, he⟩ | ⟨_, s0, he, h0, hc, _, _⟩
    · rw [h] at hi; cases hi
    · exact Or.inl he
    · exact Or.inr ⟨s0, he, h0, hc, ensure_initialized_of_initialized env s0 h0⟩
  cases op with
  | init env =>
    rcases key env with he | ⟨s0, he, h0, hc, _⟩
    · left
      unfold ensure_initialized websocket_manager_is_initialized at he
      simp only [h, Bool.false_eq_true, if_false] at he
      show (websocket_manager_init env s).1 = s
      unfold websocket_manager_init at he ⊢
      simp only [h, Bool.false_eq_true, if_false] at he ⊢
      by_cases hm : env.mutex_init_ok = true
      · simp [hm] at he
      · simp [hm]
    · right
      refine ⟨s0, h0, hc, ?_⟩
      unfold ensure_initialized websocket_manager_is_initialized at he
      simp only [h, Bool.false_eq_true, if_false] at he
      show (websocket_manager_init env s).1 = (websocket_manager_init env s0).1
      have hs0 : (websocket_manager_init env s0).1 = s0 := by
        unfold websocket_manager_init
        simp [h0]
      rw [hs0]
      by_cases hz : (websocket_manager_init env s).2 ≠ 0
      · rw [if_pos hz] at he; cases he
      · rw [if_neg hz] at he; exact Option.some.inj he
  | shutdown env => exact Or.inl (congrArg Prod.fst (shutdown_of_not_initialized env s h))
  | handle_close c =>
    left
    show websocket_manager_handle_close s c = s
    unfold websocket_manager_handle_close websocket_manager_is_initialized
    simp [h]
  | handle_open env c =>
    rcases key env with he | ⟨s0, he, h0, hc, he0⟩
    · left
      show (websocket_manager_handle_open env s c).1 = s
      unfold websocket_manager_handle_open
      rw [he]
    · right
      refine ⟨s0, h0, hc, ?_⟩
      show (websocket_manager_handle_open env s c).1 = (websocket_manager_handle_open env s0 c).1
      unfold websocket_manager_handle_open
      rw [he, he0]
  | handle_message env c data =>
    rcases key env with he | ⟨s0, he, h0, hc, he0⟩
    · left
      show (websocket_manager_handle_message env s c data).1 = s
      unfold websocket_manager_handle_message
      rw [he]
    · right
      refine ⟨s0, h0, hc, ?_⟩
      show (websocket_manager_handle_message env s c data).1 =
        (websocket_manager_handle_message env s0 c data).1
      unfold websocket_manager_handle_message
      rw [he, he0]
  | send_to_client env id m =>
    rcases key env with he | ⟨s0, he, h0, hc, he0⟩
    · left
      show (websocket_manager_send_to_client env s id m).1 = s
      unfold websocket_manager_send_to_client
      rw [he]
    · right
      refine ⟨s0, h0, hc, ?_⟩
      show (websocket_manager_send_to_client env s id m).1 =
        (websocket_manager_send_to_client env s0 id m).1
      unfold websocket_manager_send_to_client
      rw [he, he0]
  | broadcast env t m =>
    rcases key env with he | ⟨s0, he, h0, hc, he0⟩
    · left
      show (websocket_manager_broadcast env s t m).1 = s
      unfold websocket_manager_broadcast
      rw [he]
    · right
      refine ⟨s0, h0, hc, ?_⟩
      show (websocket_manager_broadcast env s t m).1 = (websocket_manager_broadcast env s0 t m).1
      unfold websocket_manager_broadcast
      rw [he, he0]
  | is_subscribed env id t =>
    rcases key env with he | ⟨s0, he, h0, hc, he0⟩
    · left
      show (websocket_manager_is_subscribed env s id t).1 = s
      unfold websocket_manager_is_subscribed
      rw [he]
    · right
      refine ⟨s0, h0, hc, ?_⟩
      show (websocket_manager_is_subscribed env s id t).1 =
        (websocket_manager_is_subscribed env s0 id t).1
      unfold websocket_manager_is_subscribed
      rw [he, he0]
  | get_subscribed_clients env t out =>
    rcases key env with he | ⟨s0, he, h0, hc, he0⟩
    · left
      show (websocket_manager_get_subscribed_clients env s t out).1 = s
      unfold websocket_manager_get_subscribed_clients
      rw [he]
    · right
      refine ⟨s0, h0, hc, ?_⟩
      show (websocket_manager_get_subscribed_clients env s t out).1 =
        (websocket_manager_get_subscribed_clients env s0 t out).1
      unfold websocket_manager_get_subscribed_clients
      rw [he, he0]
  | register_handler env t hd =>
    rcases key env with he | ⟨s0, he, h0, hc, he0⟩
    · left
      show (websocket_manager_register_handler env s t hd).1 = s
      unfold websocket_manager_register_handler
      rw [he]
    · right
      refine ⟨s0, h0, hc, ?_⟩
      show (websocket_manager_register_handler env s t hd).1 =
        (websocket_manager_register_handler env s0 t hd).1
      unfold websocket_manager_register_handler
      rw [he, he0]

theorem live_inv_step (s : State) (op : Op)
    (h : s.s_initialized = true → ConnsLive s.s_clients) :
    (step s op).s_initialized = true → ConnsLive (step s op).s_clients := by
  intro hflag
  by_cases hsh : ∃ env, op = Op.shutdown env
  · obtain ⟨env, rfl⟩ := hsh
    have := shutdown_clears_flag env s
    rw [show (step s (Op.shutdown env)) = (websocket_manager_shutdown env s).1 from rfl] at hflag
    rw [this] at hflag
    cases hflag
  · have hsh' : ∀ env, op ≠ Op.shutdown env := fun env he => hsh ⟨env, he⟩
    cases hi : s.s_initialized with
    | true => exact live_step s op hsh' (h hi)
    | false =>
      rcases step_of_uninitialized s op hi with he | ⟨s0, _, hc, he⟩
      · rw [he, hi] at hflag
        cases hflag
      · rw [he]
        exact live_step s0 op hsh' (by rw [hc]; exact live_replicate_zero _)

theorem live_inv_run (ops : List Op) (s : State)
    (h : s.s_initialized = true → ConnsLive s.s_clients) :
    (run s ops).s_initialized = true → ConnsLive (run s ops).s_clients := by
  induction ops generalizing s with
  | nil => exact h
  | cons op ops ih => exact ih (step s op) (live_inv_step s op h)

/-- On every reachable initialized manager each active slot holds a connection. -/
theorem reachable_live (s : State) (hr : Reachable s) (hi : s.s_initialized = true) :
    ConnsLive s.s_clients := by
  obtain ⟨heap, ops, rfl⟩ := hr
  exact live_inv_run ops (boot heap) (fun _ => live_replicate_zero _) hi

theorem sweep_events_close (now : Int) (cs : List websocket_client_t) (h : Heap) :
    ∀ e ∈ (for_each_client (cleanup_client now) cs h).2.2, ∃ p, e = Event.send_close p := by
  induction cs generalizing h with
  | nil => intro e he; cases he
  | cons a as ih =>
    intro e he
    rw [for_each_client_cons] at he
    rcases List.mem_append.1 he with h1 | h1
    · unfold cleanup_client at h1
      split at h1
      · split at h1
        · cases h1
        · split at h1
          · split at h1
            · exact ⟨a.conn, by simpa using h1⟩
            · cases h1
          · cases h1
      · cases h1
    · exact ih _ e h1

theorem broadcast_send_no_null_deref (env : Env) (clients : List websocket_client_t)
    (json : CStr) (hl : ConnsLive clients) :
    ∀ (snap : List (Nat × CStr)) (i : Nat) (h : Heap),
      Event.null_deref ∉ (broadcast_send env clients json snap i h).2.1 := by
  intro snap
  induction snap with
  | nil => intro i h hm; cases hm
  | cons e rest ih =>
    intro i h
    obtain ⟨conn, id⟩ := e
    unfold broadcast_send
    split
    · split
      · intro hm
        rcases List.mem_cons.1 hm with h1 | h1
        · cases h1
        · exact ih _ _ h1
      · intro hm
        rcases List.mem_cons.1 hm with h1 | h1
        · cases h1
        · rcases List.mem_append.1 h1 with h2 | h2
          · cases hf : find_client_by_id clients id with
            | none => rw [hf] at h2; cases h2
            | some ci =>
              rw [hf] at h2
              simp only [] at h2
              obtain ⟨pre, x, post, hsplit, hlen, hx, _⟩ := find_slot_eq_some _ _ _ hf
              have hat : client_at clients ci = x := by
                rw [hsplit, ← hlen]; exact client_at_split pre x post
              have hxa : x.active = true := find_client_by_id_active x id hx
              have hne : (client_at clients ci).conn ≠ 0 := by
                rw [hat]
                exact hl x (by rw [hsplit]; simp) hxa
              rw [if_neg hne] at h2
              cases h2
          · exact ih _ _ h2
    · exact ih _ _

theorem broadcast_no_null_deref (env : Env) (s : State) (t : Option CStr)
    (m : Option websocket_message_t)
    (h : s.s_initialized = true → ConnsLive s.s_clients) :
    Event.null_deref ∉ (websocket_manager_broadcast env s t m).2.1 := by
  unfold websocket_manager_broadcast
  cases h0 : ensure_initialized env s with
  | none => intro hm; cases hm
  | some s0 =>
    have hlive0 : ConnsLive s0.s_clients := by
      rcases ensure_cases env s with ⟨hi, he⟩ | ⟨_, he⟩ | ⟨_, s1, he, _, hc, _, _⟩
      · rw [he] at h0; cases h0; exact h hi
      · rw [he] at h0; cases h0
      · rw [he] at h0; cases h0; rw [hc]; exact live_replicate_zero _
    cases t with
    | none => intro hm; cases hm
    | some t =>
      cases m with
      | none => intro hm; cases hm
      | some m =>
        simp only []
        intro hm
        rcases List.mem_append.1 hm with h1 | h1
        · obtain ⟨p, hp⟩ := sweep_events_close env.now s0.s_clients s0.heap _ h1
          cases hp
        · refine broadcast_send_no_null_deref env _ _ ?_ _ _ _ h1
          exact live_of_benign _ _ (benign_map_touch env.now (broadcast_selects t) _)
            (live_of_benign _ _ (benign_sweep env.now s0.s_clients s0.heap) hlive0)

/-- C25: in every state a sequence of calls of the public functions leads to from program
start, each active client slot holds a non-NULL connection reference, provided the sequence
has no websocket_manager_shutdown or the manager is initialized in that state; the sweep
keeps it so; and on the failure path of websocket_manager_broadcast the write to the
connection of the re-located client never goes through a NULL reference. -/
theorem active_clients_have_connection (heap : Heap) (ops : List Op) :
    (without_shutdown ops = true ∨ (run (boot heap) ops).s_initialized = true →
      ConnsLive (run (boot heap) ops).s_clients) ∧
    (without_shutdown ops = true ∨ (run (boot heap) ops).s_initialized = true →
      ∀ now, ConnsLive
        (websocket_manager_cleanup_inactive_clients now (run (boot heap) ops)).1.s_clients) ∧
    (∀ env t m, Event.null_deref ∉
      (websocket_manager_broadcast env (run (boot heap) ops) t m).2.1) := by
  have hlive : without_shutdown ops = true ∨ (run (boot heap) ops).s_initialized = true →
      ConnsLive (run (boot heap) ops).s_clients := by
    rintro (h | h)
    · exact live_run ops (boot heap) h (live_replicate_zero _)
    · exact reachable_live _ ⟨heap, ops, rfl⟩ h
  refine ⟨hlive, fun h now => ?_, fun env t m => ?_⟩
  · exact live_of_benign _ _ (benign_sweep now _ _) (hlive h)
  · exact broadcast_no_null_deref env _ t m (fun hi => hlive (Or.inr hi))

theorem active_clients_have_connection_witness :
    ConnsLive (run (boot open_heap) tidy_run).s_clients :=
  (active_clients_have_connection open_heap tidy_run).1 (Or.inl (by decide))

/-! ## C26: topic_count stays within the topics array -/

theorem shift_topics_length (ts : List CStr) (j m : Nat) :
    (shift_topics ts j m).length = ts.length := by
  induction m generalizing ts j with
  | zero => rfl
  | succ m ih =>
    unfold shift_topics
    rw [ih, List.length_set]

theorem topics_ok_zero : TopicsOk zero_client := ⟨by decide, by decide⟩

theorem topics_replicate_zero (n : Nat) : TopicsInv (List.replicate n zero_client) := by
  intro c hc
  rw [(List.mem_replicate.1 hc).2]
  exact topics_ok_zero

theorem topics_ok_add_topic (topic : CStr) (c : websocket_client_t) (h : TopicsOk c)
    (hroom : c.topic_count < MAX_TOPICS) : TopicsOk (add_topic topic c) := by
  unfold TopicsOk add_topic
  simp only [List.length_set]
  exact ⟨hroom, h.2⟩

theorem topics_ok_remove_topic (k : Nat) (c : websocket_client_t) (h : TopicsOk c) :
    TopicsOk (remove_topic k c) := by
  unfold TopicsOk remove_topic
  simp only [shift_topics_length]
  exact ⟨Nat.le_trans (Nat.sub_le _ _) h.1, h.2⟩

theorem topics_ok_touch (now : Int) (c : websocket_client_t) (h : TopicsOk c) :
    TopicsOk (touch now c) := h

theorem topics_ok_deactivate (c : websocket_client_t) (h : TopicsOk c) :
    TopicsOk (deactivate c) := ⟨Nat.zero_le _, h.2⟩

theorem topics_ok_clear_conn (c : websocket_client_t) (h : TopicsOk c) :
    TopicsOk (clear_conn c) := by
  unfold clear_conn
  split
  · exact h
  · exact h

theorem topics_modify_slot (f : websocket_client_t → websocket_client_t)
    (l : List websocket_client_t) (i : Nat) (h : TopicsInv l)
    (hf : i < l.length → TopicsOk (f (client_at l i))) : TopicsInv (modify_slot f l i) := by
  induction l generalizing i with
  | nil => intro c hc; cases hc
  | cons a as ih =>
    cases i with
    | zero =>
      intro c hc
      rcases List.mem_cons.1 hc with rfl | hm
      · exact hf (by simp)
      · exact h c (List.mem_cons_of_mem _ hm)
    | succ n =>
      intro c hc
      rcases List.mem_cons.1 hc with rfl | hm
      · exact h _ (List.mem_cons_self _ _)
      · refine ih n (fun x hx => h x (List.mem_cons_of_mem _ hx)) (fun hn => ?_) c hm
        have := hf (by simpa using hn)
        rwa [client_at_cons_succ] at this

theorem topics_map (f : websocket_client_t → websocket_client_t)
    (l : List websocket_client_t) (h : TopicsInv l) (hf : ∀ x, TopicsOk x → TopicsOk (f x)) :
    TopicsInv (l.map f) := by
  intro c hc
  obtain ⟨x, hx, rfl⟩ := List.mem_map.1 hc
  exact hf x (h x hx)

theorem topics_sweep (now : Int) (cs : List websocket_client_t) (h : Heap)
    (hinv : TopicsInv cs) : TopicsInv (for_each_client (cleanup_client now) cs h).1 := by
  intro c hc
  rcases sweep_mem now cs h c hc with hm | ⟨x, hx, rfl⟩
  · exact hinv c hm
  · exact topics_ok_deactivate x (hinv x hx)

theorem topics_shutdown_loop (cs : List websocket_client_t) (h : Heap) (hinv : TopicsInv cs) :
    TopicsInv (for_each_client shutdown_client cs h).1 := by
  induction cs generalizing h with
  | nil => intro c hc; cases hc
  | cons a as ih =>
    intro c hc
    rw [for_each_client_cons] at hc
    rcases List.mem_cons.1 hc with heq | hmem
    · rw [shutdown_client_fst] at heq
      by_cases ha : a.active = true
      · simp only [ha, if_true] at heq
        rw [heq]
        exact ⟨Nat.zero_le _, by simp [MAX_TOPICS]⟩
      · simp only [ha] at heq
        rw [heq]
        exact hinv a (List.mem_cons_self _ _)
    · exact ih _ (fun x hx => hinv x (List.mem_cons_of_mem _ hx)) c hmem

theorem keeps_refl (s : State) : KeepsTopics s s := id

theorem keeps_trans {a b c : State} (h1 : KeepsTopics a b) (h2 : KeepsTopics b c) :
    KeepsTopics a c := fun h => h2 (h1 h)

theorem keeps_init (env : Env) (s : State) : KeepsTopics s (websocket_manager_init env s).1 := by
  unfold websocket_manager_init
  split
  · exact keeps_refl s
  · split
    · exact keeps_refl s
    · exact fun _ => topics_replicate_zero _

theorem keeps_ensure (env : Env) (s s0 : State) (h : ensure_initialized env s = some s0) :
    KeepsTopics s s0 := by
  intro hinv
  rcases ensure_clients env s s0 h with he | he
  · rw [he]; exact hinv
  · rw [he]; exact topics_replicate_zero _

theorem keeps_sweep (now : Int) (s : State) :
    KeepsTopics s (websocket_manager_cleanup_inactive_clients now s).1 :=
  fun h => topics_sweep now s.s_clients s.heap h

theorem keeps_send_to_client (env : Env) (s : State) (id : Option CStr)
    (m : Option websocket_message_t) :
    KeepsTopics s (websocket_manager_send_to_client env s id m).1 := by
  unfold websocket_manager_send_to_client
  cases h0 : ensure_initialized env s with
  | none => exact keeps_refl s
  | some s0 =>
    have q0 := keeps_ensure env s s0 h0
    cases id with
    | none => exact q0
    | some id =>
      cases m with
      | none => exact q0
      | some m =>
        simp only []
        cases hf : find_client_by_id s0.s_clients id with
        | none => exact q0
        | some i =>
          simp only []
          by_cases hc : (client_at s0.s_clients i).conn = 0
          · simp only [hc, if_true]; exact q0
          · simp only [hc]
            intro hinv
            exact topics_modify_slot _ _ _ (q0 hinv)
              (fun hi => topics_ok_touch _ _ (q0 hinv _ (client_at_mem _ _ hi)))

theorem keeps_register_handler (env : Env) (s : State) (topic : Option CStr) (handler : Nat) :
    KeepsTopics s (websocket_manager_register_handler env s topic handler).1 := by
  unfold websocket_manager_register_handler
  cases h0 : ensure_initialized env s with
  | none => exact keeps_refl s
  | some s0 =>
    have q0 := keeps_ensure env s s0 h0
    cases topic with
    | none => exact q0
    | some t =>
      simp only []
      by_cases hh : handler = 0
      · simp only [hh, if_true]; exact q0
      · simp only [hh]
        cases hf : find_handler_by_topic s0.s_handlers t with
        | some i => exact q0
        | none =>
          simp only []
          cases hg : find_free_handler_slot s0.s_handlers with
          | none => exact q0
          | some j => exact q0

theorem keeps_register_websocket_handlers (env : Env) (s : State) :
    KeepsTopics s (register_websocket_handlers env s) := by
  unfold register_websocket_handlers
  generalize env.registrations = regs
  induction regs generalizing s with
  | nil => exact keeps_refl s
  | cons r rs ih =>
    simp only [List.foldl_cons]
    exact keeps_trans (keeps_register_handler env s (some r.1) r.2) (ih _)

theorem keeps_handle_subscribe (env : Env) (s : State) (id topic : CStr) :
    KeepsTopics s (handle_subscribe env s id topic).1 := by
  unfold handle_subscribe
  cases hf : find_client_by_id s.s_clients id with
  | none => exact keeps_refl s
  | some i =>
    simp only []
    split
    · exact keeps_refl s
    · rename_i hroom
      split
      · exact keeps_refl s
      · refine keeps_trans (b := { s with s_clients := modify_slot (add_topic topic) s.s_clients i })
          ?_ (keeps_trans (keeps_send_to_client env _ _ _)
            (keeps_register_websocket_handlers env _))
        intro hinv
        exact topics_modify_slot _ _ _ hinv (fun hi =>
          topics_ok_add_topic topic _ (hinv _ (client_at_mem _ _ hi)) (by omega))

theorem keeps_handle_unsubscribe (env : Env) (s : State) (id topic : CStr) :
    KeepsTopics s (handle_unsubscribe env s id topic).1 := by
  unfold handle_unsubscribe
  cases hf : find_client_by_id s.s_clients id with
  | none => exact keeps_refl s
  | some i =>
    simp only []
    split
    · exact keeps_refl s
    · rename_i k hk
      refine keeps_trans (b := { s with s_clients := modify_slot (remove_topic k) s.s_clients i })
        ?_ (keeps_send_to_client env _ _ _)
      intro hinv
      exact topics_modify_slot _ _ _ hinv (fun hi =>
        topics_ok_remove_topic k _ (hinv _ (client_at_mem _ _ hi)))

theorem keeps_handle_other (env : Env) (s : State) (id topic payload : CStr) :
    KeepsTopics s (handle_other env s id topic payload).1 := by
  unfold handle_other
  split
  · exact keeps_refl s
  · simp only []
    split
    · exact keeps_register_websocket_handlers env s
    · exact keeps_register_websocket_handlers env s

theorem keeps_handle_message (env : Env) (s : State) (c : Nat) (data : CStr) :
    KeepsTopics s (websocket_manager_handle_message env s c data).1 := by
  unfold websocket_manager_handle_message
  cases h0 : ensure_initialized env s with
  | none => exact keeps_refl s
  | some s0 =>
    have q0 := keeps_ensure env s s0 h0
    simp only []
    cases env.parse data with
    | none => exact q0
    | some json =>
      simp only []
      cases decode_envelope json with
      | none => exact q0
      | some e =>
        obtain ⟨type, topic, payload_json⟩ := e
        simp only []
        cases hf : find_client_by_connection s0.s_clients c with
        | none => exact q0
        | some i =>
          simp only []
          have q1 : KeepsTopics s0
              { s0 with s_clients := modify_slot (touch env.now) s0.s_clients i } :=
            fun hinv => topics_modify_slot _ _ _ hinv
              (fun hi => topics_ok_touch _ _ (hinv _ (client_at_mem _ _ hi)))
          split
          · exact keeps_trans q0 (keeps_trans q1 (keeps_handle_subscribe env _ _ _))
          · split
            · exact keeps_trans q0 (keeps_trans q1 (keeps_handle_unsubscribe env _ _ _))
            · exact keeps_trans q0 (keeps_trans q1 (keeps_handle_other env _ _ _ _))

theorem keeps_handle_close (s : State) (c : Nat) :
    KeepsTopics s (websocket_manager_handle_close s c) := by
  unfold websocket_manager_handle_close remove_client_by_connection
  split
  · exact keeps_refl s
  · split
    · exact keeps_refl s
    · cases hf : find_client_by_connection s.s_clients c with
      | none => exact keeps_refl s
      | some i =>
        intro hinv
        exact topics_modify_slot _ _ _ hinv
          (fun hi => topics_ok_deactivate _ (hinv _ (client_at_mem _ _ hi)))

theorem keeps_handle_open (env : Env) (s : State) (c : Nat) :
    KeepsTopics s (websocket_manager_handle_open env s c).1 := by
  unfold websocket_manager_handle_open
  cases h0 : ensure_initialized env s with
  | none => exact keeps_refl s
  | some s0 =>
    have q0 := keeps_ensure env s s0 h0
    simp only []
    by_cases hc : c = 0
    · simp only [hc, if_true]; exact q0
    · simp only [hc]
      have q1 := keeps_trans q0 (keeps_sweep env.now s0)
      cases hf : find_free_client_slot
          (websocket_manager_cleanup_inactive_clients env.now s0).1.s_clients with
      | none => exact q1
      | some slot =>
        intro hinv
        exact topics_modify_slot _ _ _ (q1 hinv)
          (fun hi => ⟨Nat.zero_le _, (q1 hinv _ (client_at_mem _ _ hi)).2⟩)

theorem keeps_broadcast (env : Env) (s : State) (topic : Option CStr)
    (m : Option websocket_message_t) :
    KeepsTopics s (websocket_manager_broadcast env s topic m).1 := by
  unfold websocket_manager_broadcast
  cases h0 : ensure_initialized env s with
  | none => exact keeps_refl s
  | some s0 =>
    have q0 := keeps_ensure env s s0 h0
    cases topic with
    | none => exact q0
    | some t =>
      cases m with
      | none => exact q0
      | some m =>
        intro hinv
        refine topics_map _ _ (keeps_sweep env.now s0 (q0 hinv)) (fun x hx => ?_)
        split
        · exact topics_ok_touch _ _ hx
        · exact hx

theorem keeps_is_subscribed (env : Env) (s : State) (id topic : Option CStr) :
    KeepsTopics s (websocket_manager_is_subscribed env s id topic).1 := by
  unfold websocket_manager_is_subscribed
  cases h0 : ensure_initialized env s with
  | none => exact keeps_refl s
  | some s0 =>
    have q0 := keeps_ensure env s s0 h0
    cases id with
    | none => exact q0
    | some id =>
      cases topic with
      | none => exact q0
      | some t =>
        simp only []
        cases find_client_by_id s0.s_clients id with
        | none => exact q0
        | some i => exact q0

theorem keeps_get_subscribed_clients (env : Env) (s : State) (topic : Option CStr)
    (out : Bool) :
    KeepsTopics s (websocket_manager_get_subscribed_clients env s topic out).1 := by
  unfold websocket_manager_get_subscribed_clients
  cases h0 : ensure_initialized env s with
  | none => exact keeps_refl s
  | some s0 =>
    have q0 := keeps_ensure env s s0 h0
    cases topic with
    | none => exact q0
    | some t =>
      cases out with
      | false => exact q0
      | true => exact keeps_trans q0 (keeps_sweep env.now s0)

theorem keeps_shutdown (env : Env) (s : State) :
    KeepsTopics s (websocket_manager_shutdown env s).1 := by
  intro hinv
  unfold websocket_manager_shutdown
  by_cases hi : s.s_initialized = true
  · have hloop := topics_shutdown_loop s.s_clients s.heap hinv
    by_cases h1 : (env.timedlock_ok || env.mutex_reset_ok) = true <;>
      by_cases h2 : env.relock_ok = true <;> simp only [hi, h1, h2] <;> simp
    · exact topics_map _ _ hloop topics_ok_clear_conn
    · exact hloop
    · exact topics_map _ _ hinv topics_ok_clear_conn
    · exact hinv
  · simp [hi]; exact hinv

theorem keeps_step (s : State) (op : Op) : KeepsTopics s (step s op) := by
  cases op with
  | init env => exact keeps_init env s
  | shutdown env => exact keeps_shutdown env s
  | handle_open env c => exact keeps_handle_open env s c
  | handle_message env c data => exact keeps_handle_message env s c data
  | handle_close c => exact keeps_handle_close s c
  | send_to_client env id m => exact keeps_send_to_client env s id m
  | broadcast env t m => exact keeps_broadcast env s t m
  | is_subscribed env id t => exact keeps_is_subscribed env s id t
  | get_subscribed_clients env t out => exact keeps_get_subscribed_clients env s t out
  | register_handler env t h => exact keeps_register_handler env s t h

theorem keeps_run (ops : List Op) (s : State) : KeepsTopics s (run s ops) := by
  induction ops generalizing s with
  | nil => exact keeps_refl s
  | cons op ops ih => exact keeps_trans (keeps_step s op) (ih (step s op))

/-- C26: in every state a sequence of calls of the public functions (shutdown included)
leads to from program start, every client slot has topic_count <= MAX_TOPICS (20) and a
topics array of MAX_TOPICS entries.  Hence the entries every loop over topics reads are the
first topic_count entries of the array; the index the subscribe path writes at, topic_count
when it is below MAX_TOPICS, is inside the array; and an index found by the unsubscribe scan
is below topic_count, so that the decrement never takes topic_count below 0. -/
theorem topic_count_in_bounds (s : State) (hr : Reachable s) :
    ∀ c ∈ s.s_clients,
      c.topic_count ≤ MAX_TOPICS ∧ MAX_TOPICS = 20 ∧ c.topics.length = MAX_TOPICS ∧
      (subscribed_topics c).length = c.topic_count ∧
      (c.topic_count < MAX_TOPICS → c.topic_count < c.topics.length) ∧
      (∀ topic k, find_slot (fun t => decide (t = topic)) (subscribed_topics c) = some k →
        k < c.topic_count ∧ 1 ≤ c.topic_count ∧ c.topic_count - 1 < c.topics.length) := by
  obtain ⟨heap, ops, rfl⟩ := hr
  intro c hc
  obtain ⟨h1, h2⟩ := keeps_run ops (boot heap) (topics_replicate_zero _) c hc
  have hlen : (subscribed_topics c).length = c.topic_count := by
    unfold subscribed_topics
    rw [List.length_take]
    omega
  refine ⟨h1, rfl, h2, hlen, fun h => by omega, fun topic k hk => ?_⟩
  have hk' := find_slot_lt_length _ _ _ hk
  rw [hlen] at hk'
  exact ⟨hk', by omega, by omega⟩

theorem topic_count_in_bounds_witness :
    (client_at full_topics_state.s_clients 0).topic_count = 20 ∧
    ∀ c ∈ full_topics_state.s_clients, c.topic_count ≤ MAX_TOPICS :=
  ⟨by decide, fun c hc => (topic_count_in_bounds full_topics_state
    ⟨open_heap, Op.handle_open (env_ok 0 (ascii "id-1") none) 7 ::
      twenty_topics.map subscribe_on_7, rfl⟩ c hc).1⟩

/-! ## C27: the snapshot of broadcast and the listing of subscribers -/

theorem ids_fit_sweep (now : Int) (cs : List websocket_client_t) (h : Heap)
    (hfit : ∀ c ∈ cs, c.id.length ≤ 63) :
    ∀ c ∈ (for_each_client (cleanup_client now) cs h).1, c.id.length ≤ 63 := by
  intro c hc
  rcases sweep_mem now cs h c hc with hm | ⟨x, hx, rfl⟩
  · exact hfit c hm
  · exact hfit x hx

theorem snapshot_ids_of_live (clients : List websocket_client_t) (t : CStr)
    (hlive : ConnsLive clients) (hfit : ∀ c ∈ clients, c.id.length ≤ 63) :
    (broadcast_snapshot clients t).map Prod.snd = (clients.filter (listed t)).map (fun c => c.id) := by
  unfold broadcast_snapshot
  rw [List.map_map]
  have hsel : clients.filter (broadcast_selects t) = clients.filter (listed t) := by
    apply List.filter_congr
    intro c hc
    unfold broadcast_selects listed
    cases ha : c.active with
    | false => rfl
    | true =>
      have := hlive c hc ha
      simp [this]
  rw [hsel]
  apply List.map_congr_left
  intro c hc
  exact List.take_of_length_le (hfit c (List.mem_filter.1 hc).1)

/-- C27: on every reachable state whose ids fit their 64-byte field, for every topic and
every time, the ids websocket_manager_broadcast snapshots as recipients are the ids
websocket_manager_get_subscribed_clients returns for that topic, in the same order, the
order of the slots: both are the ids of the slots that after the sweep are active and hold
the topic, the non-NULL test of broadcast excluding none of them. -/
theorem snapshot_ids_eq_listing (s : State) (hr : Reachable s) (hfit : IdsFit s) (env : Env)
    (t : CStr) :
    broadcast_snapshot_ids env s t =
      (websocket_manager_get_subscribed_clients env s (some t) true).2.2.2 ∧
    (∀ s0, ensure_initialized env s = some s0 →
      broadcast_snapshot_ids env s t =
        ((websocket_manager_cleanup_inactive_clients env.now s0).1.s_clients.filter
          (listed t)).map (fun c => c.id) ∧
      ∀ c ∈ (websocket_manager_cleanup_inactive_clients env.now s0).1.s_clients,
        broadcast_selects t c = listed t c) := by
  have key : ∀ s0, ensure_initialized env s = some s0 →
      ConnsLive (websocket_manager_cleanup_inactive_clients env.now s0).1.s_clients ∧
      ∀ c ∈ (websocket_manager_cleanup_inactive_clients env.now s0).1.s_clients,
        c.id.length ≤ 63 := by
    intro s0 h0
    have hlive0 : ConnsLive s0.s_clients ∧ ∀ c ∈ s0.s_clients, c.id.length ≤ 63 := by
      rcases ensure_cases env s with ⟨hi, he⟩ | ⟨_, he⟩ | ⟨_, s1, he, _, hc, _, _⟩
      · rw [he] at h0; cases h0
        exact ⟨reachable_live s hr hi, hfit⟩
      · rw [he] at h0; cases h0
      · rw [he] at h0; cases h0
        rw [hc]
        refine ⟨live_replicate_zero _, fun c hcm => ?_⟩
        rw [(List.mem_replicate.1 hcm).2]
        decide
    exact ⟨live_of_benign _ _ (benign_sweep env.now s0.s_clients s0.heap) hlive0.1,
      ids_fit_sweep env.now s0.s_clients s0.heap hlive0.2⟩
  constructor
  · unfold broadcast_snapshot_ids websocket_manager_get_subscribed_clients
    cases h0 : ensure_initialized env s with
    | none => rfl
    | some s0 =>
      obtain ⟨h1, h2⟩ := key s0 h0
      exact snapshot_ids_of_live _ t h1 h2
  · intro s0 h0
    obtain ⟨h1, h2⟩ := key s0 h0
    constructor
    · unfold broadcast_snapshot_ids
      rw [h0]
      exact snapshot_ids_of_live _ t h1 h2
    · intro c hc
      unfold broadcast_selects listed
      cases ha : c.active with
      | false => rfl
      | true =>
        have := h1 c hc ha
        simp [this]

theorem snapshot_ids_eq_listing_witness :
    broadcast_snapshot_ids (env_ok 5 [] none) two_subscribers (ascii "t") =
      [ascii "id-1", ascii "id-2"] := by
  rw [(snapshot_ids_eq_listing two_subscribers
    ⟨open_heap,
      [Op.handle_open (env_ok 0 (ascii "id-1") none) 7,
        Op.handle_open (env_ok 0 (ascii "id-2") none) 8,
        subscribe_on_7 (ascii "t"),
        Op.handle_message (env_ok 1 [] (some (envelope (ascii "subscribe") (ascii "t")))) 8 []],
      rfl⟩
    (by unfold IdsFit; decide) (env_ok 5 [] none) (ascii "t")).1]
  decide

/-! ## C22: a failed send during broadcast -/

theorem mark_closing_mono (h : Heap) (q p : Nat) (hp : (h p).is_closing = true) :
    (mark_closing h q p).is_closing = true := by
  by_cases he : p = q
  · rw [he]; exact mark_closing_same h q
  · rw [mark_closing_other h q p he]; exact hp

theorem sweep_closing_mono (now : Int) (cs : List websocket_client_t) (h : Heap) (p : Nat)
    (hp : (h p).is_closing = true) :
    ((for_each_client (cleanup_client now) cs h).2.1 p).is_closing = true := by
  induction cs generalizing h with
  | nil => exact hp
  | cons a as ih =>
    rw [for_each_client_cons]
    apply ih
    rcases cleanup_client_cases now h a with ⟨he, _⟩ | ⟨_, _, he | ⟨_, he⟩⟩
    · rw [he]; exact hp
    · rw [he]; exact hp
    · rw [he]; exact mark_closing_mono h _ p hp

theorem broadcast_send_closing_mono (env : Env) (clients : List websocket_client_t)
    (json : CStr) (p : Nat) :
    ∀ (snap : List (Nat × CStr)) (i : Nat) (h : Heap), (h p).is_closing = true →
      ((broadcast_send env clients json snap i h).1 p).is_closing = true := by
  intro snap
  induction snap with
  | nil => intro i h hp; exact hp
  | cons e rest ih =>
    intro i h hp
    obtain ⟨conn, id⟩ := e
    unfold broadcast_send
    split
    · split
      · exact ih _ _ hp
      · apply ih
        cases hf : find_client_by_id clients id with
        | none => exact hp
        | some ci =>
          simp only []
          split
          · exact hp
          · exact mark_closing_mono h _ p hp
    · exact ih _ _ hp

theorem broadcast_send_skip (env : Env) (clients : List websocket_client_t) (json : CStr)
    (conn : Nat) (id : CStr) (rest : List (Nat × CStr)) (i : Nat) (h : Heap)
    (hc : ¬ (conn ≠ 0 ∧ (h conn).is_closing = false)) :
    broadcast_send env clients json ((conn, id) :: rest) i h =
      broadcast_send env clients json rest (i + 1) h := by
  rw [broadcast_send, if_neg hc]

theorem broadcast_send_ok (env : Env) (clients : List websocket_client_t) (json : CStr)
    (conn : Nat) (id : CStr) (rest : List (Nat × CStr)) (i : Nat) (h : Heap)
    (hc : conn ≠ 0 ∧ (h conn).is_closing = false) (hr : env.send_result i > 0) :
    broadcast_send env clients json ((conn, id) :: rest) i h =
      ((broadcast_send env clients json rest (i + 1) h).1,
        Event.send_text conn json :: (broadcast_send env clients json rest (i + 1) h).2.1,
        (broadcast_send env clients json rest (i + 1) h).2.2 + 1) := by
  rw [broadcast_send, if_pos hc, if_pos hr]

theorem broadcast_send_failed (env : Env) (clients : List websocket_client_t) (json : CStr)
    (conn : Nat) (id : CStr) (rest : List (Nat × CStr)) (i : Nat) (h : Heap)
    (hc : conn ≠ 0 ∧ (h conn).is_closing = false) (hr : ¬ env.send_result i > 0) :
    broadcast_send env clients json ((conn, id) :: rest) i h =
      ((broadcast_send env clients json rest (i + 1) (mark_for_cleanup clients id h).1).1,
        Event.send_text conn json ::
          ((mark_for_cleanup clients id h).2 ++
            (broadcast_send env clients json rest (i + 1) (mark_for_cleanup clients id h).1).2.1),
        (broadcast_send env clients json rest (i + 1) (mark_for_cleanup clients id h).1).2.2) := by
  rw [broadcast_send, if_pos hc, if_neg hr]
  rfl

theorem broadcast_send_append (env : Env) (clients : List websocket_client_t) (json : CStr) :
    ∀ (a b : List (Nat × CStr)) (i : Nat) (h : Heap),
      broadcast_send env clients json (a ++ b) i h =
        ((broadcast_send env clients json b (i + a.length)
            (broadcast_send env clients json a i h).1).1,
          (broadcast_send env clients json a i h).2.1 ++
            (broadcast_send env clients json b (i + a.length)
              (broadcast_send env clients json a i h).1).2.1,
          (broadcast_send env clients json a i h).2.2 +
            (broadcast_send env clients json b (i + a.length)
              (broadcast_send env clients json a i h).1).2.2) := by
  intro a
  induction a with
  | nil =>
    intro b i h
    simp [broadcast_send]
  | cons e rest ih =>
    intro b i h
    obtain ⟨conn, id⟩ := e
    have hidx : i + ((conn, id) :: rest).length = i + 1 + rest.length := by
      simp only [List.length_cons]; omega
    rw [hidx]
    simp only [List.cons_append]
    by_cases hc : conn ≠ 0 ∧ (h conn).is_closing = false
    · by_cases hr : env.send_result i > 0
      · rw [broadcast_send_ok env clients json conn id (rest ++ b) i h hc hr,
          broadcast_send_ok env clients json conn id rest i h hc hr, ih]
        simp only [List.cons_append]
        refine Prod.ext rfl (Prod.ext rfl ?_)
        simp only []
        omega
      · rw [broadcast_send_failed env clients json conn id (rest ++ b) i h hc hr,
          broadcast_send_failed env clients json conn id rest i h hc hr, ih]
        simp only [List.cons_append, List.append_assoc]
    · rw [broadcast_send_skip env clients json conn id (rest ++ b) i h hc,
        broadcast_send_skip env clients json conn id rest i h hc, ih]

/-- With ids pairwise distinct among active clients, the lookup by the id of an active slot
finds that slot. -/
theorem find_client_by_id_at (l : List websocket_client_t) (i : Nat) (hi : i < l.length)
    (hact : (client_at l i).active = true) (hn : (active_ids l).Nodup) :
    find_client_by_id l (client_at l i).id = some i := by
  have hlen : (l.take i).length = i := by rw [List.length_take]; omega
  obtain ⟨pre, x, post, rfl, rfl⟩ : ∃ pre x post, l = pre ++ x :: post ∧ pre.length = i :=
    ⟨_, _, _, take_append_client_at l i hi, hlen⟩
  rw [client_at_split] at hact ⊢
  unfold find_client_by_id
  apply find_slot_split
  · intro y hy
    by_cases hya : y.active = true
    · have hne : ¬ y.id = x.id := by
        intro he
        unfold active_ids at hn
        rw [List.filter_append, List.map_append, List.filter_cons] at hn
        simp only [hact, if_true, List.map_cons] at hn
        exact (List.nodup_append.1 hn).2.2
          (List.mem_map.2 ⟨y, List.mem_filter.2 ⟨hy, hya⟩, he⟩) (List.mem_cons_self _ _)
      simp [hya, hne]
    · simp [hya]
  · simp [hact]

theorem broadcast_snapshot_append (a b : List websocket_client_t) (t : CStr) :
    broadcast_snapshot (a ++ b) t = broadcast_snapshot a t ++ broadcast_snapshot b t := by
  unfold broadcast_snapshot
  rw [List.filter_append, List.map_append]

/-- C22: on an initialized manager with ids pairwise distinct among active clients and
fitting their field, let slot `i` be selected by websocket_manager_broadcast (after the
sweep: active, connection not NULL, subscribed), let the send loop reach its snapshot entry
with the connection not closing, so that the send is made, and let the send return a
non-positive result.  Then, when broadcast returns, slot `i` is as before the call but for
last_activity (still active, same id, topics and topic_count); its connection is marked
closing; the return value is the count over the entries before plus the count over the
entries after, the failed send adding nothing; and a sweep run on that state, at any time,
leaves the slot inactive. -/
theorem failed_send_marks_closing (env : Env) (s : State) (t : CStr) (m : websocket_message_t)
    (i : Nat) (hinit : s.s_initialized = true) (hids : UniqueIds s) (hfit : IdsFit s)
    (hsel : broadcast_selects t (client_at (swept env s).s_clients i) = true)
    (hopen : (send_heap_at env s t m (snapshot_index (swept env s).s_clients t i)
      (client_at (swept env s).s_clients i).conn).is_closing = false)
    (hfail : env.send_result (snapshot_index (swept env s).s_clients t i) ≤ 0) :
    client_at (websocket_manager_broadcast env s (some t) (some m)).1.s_clients i =
      touch env.now (client_at s.s_clients i) ∧
    (client_at s.s_clients i).active = true ∧
    ((websocket_manager_broadcast env s (some t) (some m)).1.heap
      (client_at s.s_clients i).conn).is_closing = true ∧
    (websocket_manager_broadcast env s (some t) (some m)).2.2 =
      (broadcast_send env (broadcast_table env s t) (env.print (broadcast_json env m))
        ((broadcast_snapshot (swept env s).s_clients t).take
          (snapshot_index (swept env s).s_clients t i)) 0 (swept env s).heap).2.2 +
      (broadcast_send env (broadcast_table env s t) (env.print (broadcast_json env m))
        ((broadcast_snapshot (swept env s).s_clients t).drop
          (snapshot_index (swept env s).s_clients t i + 1))
        (snapshot_index (swept env s).s_clients t i + 1)
        (mark_closing (send_heap_at env s t m (snapshot_index (swept env s).s_clients t i))
          (client_at s.s_clients i).conn)).2.2 ∧
    ∀ now, (client_at (websocket_manager_cleanup_inactive_clients now
      (websocket_manager_broadcast env s (some t) (some m)).1).1.s_clients i).active = false := by
  -- the selected client
  have hx : (client_at (swept env s).s_clients i).active = true ∧
      (client_at (swept env s).s_clients i).conn ≠ 0 := by
    unfold broadcast_selects at hsel
    simp only [Bool.and_eq_true, decide_eq_true_eq] at hsel
    exact ⟨hsel.1.1, hsel.1.2⟩
  have hi : i < (swept env s).s_clients.length := lt_length_of_active _ _ hx.1
  have hlen : (swept env s).s_clients.length = s.s_clients.length :=
    (sweep_state_fields env.now s).2.1
  have hsame : client_at (swept env s).s_clients i = client_at s.s_clients i := by
    have hslot := sweep_slot_at env.now s.s_clients s.heap i (by omega)
    have hspec := (cleanup_client_spec env.now
      (for_each_client (cleanup_client env.now) (s.s_clients.take i) s.heap).2.1
      (client_at s.s_clients i)).2.1
    have hx1 := hx.1
    unfold swept websocket_manager_cleanup_inactive_clients at hx1 ⊢
    simp only [] at hx1 ⊢
    rw [hslot] at hx1 ⊢
    exact hspec hx1
  generalize hxd : client_at (swept env s).s_clients i = x at *
  -- the table of the send loop
  have htab : client_at (broadcast_table env s t) i = touch env.now x := by
    unfold broadcast_table
    rw [client_at_map _ _ _ hi, hxd, if_pos hsel]
  have hfitx : strncpy64 x.id = x.id := by
    apply List.take_of_length_le
    have hmem : x ∈ (swept env s).s_clients := by rw [← hxd]; exact client_at_mem _ _ hi
    exact ids_fit_sweep env.now s.s_clients s.heap hfit x hmem
  have hnodup : (active_ids (broadcast_table env s t)).Nodup := by
    rw [active_ids_eq]
    unfold broadcast_table
    rw [idents_map_touch]
    have hsub := (benign_sweep env.now s.s_clients s.heap).1
    unfold UniqueIds at hids
    rw [active_ids_eq] at hids
    exact (hsub.map Prod.fst).nodup hids
  have hfind : find_client_by_id (broadcast_table env s t) (strncpy64 x.id) = some i := by
    have := find_client_by_id_at (broadcast_table env s t) i
      (by unfold broadcast_table; rw [List.length_map]; exact hi)
      (by rw [htab]; exact hx.1) hnodup
    rw [htab] at this
    rw [hfitx]
    exact this
  -- the snapshot around the entry of slot i
  have hsnap : broadcast_snapshot (swept env s).s_clients t =
      broadcast_snapshot ((swept env s).s_clients.take i) t ++
        (x.conn, strncpy64 x.id) :: broadcast_snapshot ((swept env s).s_clients.drop (i + 1)) t := by
    have h1 : broadcast_snapshot (swept env s).s_clients t =
        broadcast_snapshot ((swept env s).s_clients.take i ++
          x :: (swept env s).s_clients.drop (i + 1)) t := by
      have := take_append_client_at (swept env s).s_clients i hi
      rw [hxd] at this
      rw [← this]
    rw [h1, broadcast_snapshot_append, broadcast_snapshot_cons, if_pos hsel]
  have hk : (broadcast_snapshot ((swept env s).s_clients.take i) t).length =
      snapshot_index (swept env s).s_clients t i := by
    unfold broadcast_snapshot snapshot_index
    rw [List.length_map]
  generalize snapshot_index (swept env s).s_clients t i = k at *
  have htake : (broadcast_snapshot (swept env s).s_clients t).take k =
      broadcast_snapshot ((swept env s).s_clients.take i) t := by
    rw [hsnap]
    exact List.take_left' hk
  have hdrop : (broadcast_snapshot (swept env s).s_clients t).drop (k + 1) =
      broadcast_snapshot ((swept env s).s_clients.drop (i + 1)) t := by
    rw [hsnap, ← hk]
    simp
  have hheap : send_heap_at env s t m k =
      (broadcast_send env (broadcast_table env s t) (env.print (broadcast_json env m))
        (broadcast_snapshot ((swept env s).s_clients.take i) t) 0 (swept env s).heap).1 := by
    unfold send_heap_at
    rw [htake]
  have hmark : mark_for_cleanup (broadcast_table env s t) (strncpy64 x.id)
      (send_heap_at env s t m k) = (mark_closing (send_heap_at env s t m k) x.conn, []) := by
    unfold mark_for_cleanup
    rw [hfind]
    simp only [htab]
    rw [if_neg (by exact hx.2)]
    rfl
  -- the send loop
  have hloop : broadcast_send env (broadcast_table env s t) (env.print (broadcast_json env m))
      (broadcast_snapshot (swept env s).s_clients t) 0 (swept env s).heap =
      ((broadcast_send env (broadcast_table env s t) (env.print (broadcast_json env m))
          (broadcast_snapshot ((swept env s).s_clients.drop (i + 1)) t) (k + 1)
          (mark_closing (send_heap_at env s t m k) x.conn)).1,
        (broadcast_send env (broadcast_table env s t) (env.print (broadcast_json env m))
          (broadcast_snapshot ((swept env s).s_clients.take i) t) 0 (swept env s).heap).2.1 ++
          Event.send_text x.conn (env.print (broadcast_json env m)) ::
            (broadcast_send env (broadcast_table env s t) (env.print (broadcast_json env m))
              (broadcast_snapshot ((swept env s).s_clients.drop (i + 1)) t) (k + 1)
              (mark_closing (send_heap_at env s t m k) x.conn)).2.1,
        (broadcast_send env (broadcast_table env s t) (env.print (broadcast_json env m))
          (broadcast_snapshot ((swept env s).s_clients.take i) t) 0 (swept env s).heap).2.2 +
          (broadcast_send env (broadcast_table env s t) (env.print (broadcast_json env m))
            (broadcast_snapshot ((swept env s).s_clients.drop (i + 1)) t) (k + 1)
            (mark_closing (send_heap_at env s t m k) x.conn)).2.2) := by
    rw [hsnap, broadcast_send_append, hk, Nat.zero_add, ← hheap,
      broadcast_send_failed _ _ _ _ _ _ _ _ ⟨hx.2, hopen⟩ (by omega), hmark]
    simp only [List.nil_append]
  have hbc : websocket_manager_broadcast env s (some t) (some m) =
      ({ swept env s with
          s_clients := broadcast_table env s t
          heap := (broadcast_send env (broadcast_table env s t)
            (env.print (broadcast_json env m))
            (broadcast_snapshot (swept env s).s_clients t) 0 (swept env s).heap).1 },
        (websocket_manager_cleanup_inactive_clients env.now s).2 ++
          (broadcast_send env (broadcast_table env s t) (env.print (broadcast_json env m))
            (broadcast_snapshot (swept env s).s_clients t) 0 (swept env s).heap).2.1,
        (broadcast_send env (broadcast_table env s t) (env.print (broadcast_json env m))
          (broadcast_snapshot (swept env s).s_clients t) 0 (swept env s).heap).2.2) := by
    unfold websocket_manager_broadcast
    rw [ensure_initialized_of_initialized env s hinit]
    rfl
  have hclosing : ((websocket_manager_broadcast env s (some t) (some m)).1.heap
      x.conn).is_closing = true := by
    rw [hbc, hloop]
    exact broadcast_send_closing_mono _ _ _ _ _ _ _ (mark_closing_same _ _)
  refine ⟨?_, ?_, ?_, ?_, fun now => ?_⟩
  · rw [hbc, ← hsame]
    exact htab
  · rw [← hsame]; exact hx.1
  · rw [← hsame]; exact hclosing
  · rw [hbc, hloop, htake, hdrop, ← hsame]
  · have hi2 : i < (websocket_manager_broadcast env s (some t) (some m)).1.s_clients.length := by
      rw [hbc]
      show i < (broadcast_table env s t).length
      unfold broadcast_table
      rw [List.length_map]
      exact hi
    have hslot := sweep_slot_at now
      (websocket_manager_broadcast env s (some t) (some m)).1.s_clients
      (websocket_manager_broadcast env s (some t) (some m)).1.heap i hi2
    have hcl : client_at (websocket_manager_broadcast env s (some t) (some m)).1.s_clients i =
        touch env.now x := by
      rw [hbc]; exact htab
    unfold websocket_manager_cleanup_inactive_clients
    simp only []
    rw [hslot, hcl]
    have hspec := (cleanup_client_spec now
      (for_each_client (cleanup_client now)
        ((websocket_manager_broadcast env s (some t) (some m)).1.s_clients.take i)
        (websocket_manager_broadcast env s (some t) (some m)).1.heap).2.1
      (touch env.now x)).1
    have hcls := sweep_closing_mono now
      ((websocket_manager_broadcast env s (some t) (some m)).1.s_clients.take i)
      (websocket_manager_broadcast env s (some t) (some m)).1.heap x.conn hclosing
    cases hres : (cleanup_client now
      (for_each_client (cleanup_client now)
        ((websocket_manager_broadcast env s (some t) (some m)).1.s_clients.take i)
        (websocket_manager_broadcast env s (some t) (some m)).1.heap).2.1
      (touch env.now x)).1.active with
    | false => rfl
    | true =>
      have h4 := (hspec.1 hres).2.2.1
      have hc' : (touch env.now x).conn = x.conn := rfl
      rw [hc', hcls] at h4
      cases h4

theorem failed_send_marks_closing_witness :
    env_send_fails.send_result 0 ≤ 0 ∧
    ((websocket_manager_broadcast env_send_fails stale_state (some (ascii "t"))
      (some hello)).1.heap (client_at stale_state.s_clients 0).conn).is_closing = true ∧
    (websocket_manager_broadcast env_send_fails stale_state (some (ascii "t"))
      (some hello)).2.2 = 0 ∧
    (client_at (websocket_manager_cleanup_inactive_clients 4
      (websocket_manager_broadcast env_send_fails stale_state (some (ascii "t"))
        (some hello)).1).1.s_clients 0).active = false := by
  have h := failed_send_marks_closing env_send_fails stale_state (ascii "t") hello 0
    (by decide) (by unfold UniqueIds; decide) (by unfold IdsFit; decide) (by decide)
    (by decide) (by decide)
  exact ⟨by decide, h.2.2.1, by decide, h.2.2.2.2 4⟩

end LightNVR
